import Mathlib

/-!
# Session-scoped operation dispatcher of the SmartCard-HSM PKCS#11 module

Shallow embedding of `src/pkcs11/p11mechanisms.c` together with the parts of
`src/pkcs11/session.h` it works on.

Conventions of the embedding

* A call of an entry point is a function from the module state (`World`) and the
  call's arguments to the returned code and the module state afterwards.
* A C pointer to bytes is modelled by the bytes it gives access to, `none` being `NULL`.
* Result codes are carried as integers: the dispatchers hold them in the C `int rv`
  and hand that value back to the caller.
* `World.trace` is instrumentation: every invocation of a function pointer of an
  object is appended to it, so that "no capability is invoked" and "exactly one call
  with this message" are statements about the trace.  A capability may answer
  differently depending on the invocations made before (the device has state); it
  receives the earlier trace for that purpose.  It gets no access to the session.
* Slot locking (`FUNC_FIND_SESSION_AND_LOCK_SLOT`, and the unlock hidden in
  `FUNC_RETURNS` / `FUNC_FAILS`) is not part of the state: the macros are taken as
  "resolve the session and its slot" and "return this code".
-/

set_option linter.unusedVariables false

namespace P11

/-! ## Cryptoki base types -/

abbrev CK_BYTE := Nat
abbrev CK_ULONG := Nat
abbrev CK_LONG := Int
abbrev CK_FLAGS := Nat
abbrev CK_RV := Int
abbrev CK_SLOT_ID := Nat
abbrev CK_SESSION_HANDLE := Nat
abbrev CK_OBJECT_HANDLE := Nat
abbrev CK_MECHANISM_TYPE := Nat
abbrev CK_BYTE_PTR := Option (List CK_BYTE)
abbrev CK_ULONG_PTR := Option CK_ULONG
abbrev CK_OBJECT_HANDLE_PTR := Option CK_OBJECT_HANDLE

/-- Structure `CK_MECHANISM` of Cryptoki: the mechanism type and its parameter block. -/
structure CK_MECHANISM where
  mechanism : CK_MECHANISM_TYPE
  pParameter : CK_BYTE_PTR
  ulParameterLen : CK_ULONG
deriving DecidableEq, Repr

abbrev CK_MECHANISM_PTR := Option CK_MECHANISM

/-- An attribute template entry (type, value pointer, value length); templates are only
handed to entry points that never look at them. -/
abbrev CK_ATTRIBUTE_PTR := Option (List (CK_ULONG × CK_BYTE_PTR × CK_ULONG))

/-! ## Result codes

The header `pkcs11/cryptoki.h` is not among the sources; the numbers are those the
PKCS#11 standard assigns to the names used in `p11mechanisms.c`. -/

/-- Modelled from the spec: success; `pkcs11/cryptoki.h` (missing) gives it the value 0,
which is also what the dispatchers test with `!rv`. -/
def CKR_OK : CK_RV := 0
/-- Modelled from the spec: error kind HostMemory (number from the missing `cryptoki.h`). -/
def CKR_HOST_MEMORY : CK_RV := 0x02
/-- Modelled from the spec: error kind FunctionNotParallel (number from the missing `cryptoki.h`). -/
def CKR_FUNCTION_NOT_PARALLEL : CK_RV := 0x51
/-- Modelled from the spec: error kind FunctionNotSupported (number from the missing `cryptoki.h`). -/
def CKR_FUNCTION_NOT_SUPPORTED : CK_RV := 0x54
/-- Modelled from the spec: error kind ObjectHandleInvalid (number from the missing `cryptoki.h`). -/
def CKR_OBJECT_HANDLE_INVALID : CK_RV := 0x82
/-- Modelled from the spec: error kind OperationActive (number from the missing `cryptoki.h`). -/
def CKR_OPERATION_ACTIVE : CK_RV := 0x90
/-- Modelled from the spec: error kind OperationNotInitialized (number from the missing `cryptoki.h`). -/
def CKR_OPERATION_NOT_INITIALIZED : CK_RV := 0x91
/-- Modelled from the spec: error kind SessionHandleInvalid (number from the missing `cryptoki.h`). -/
def CKR_SESSION_HANDLE_INVALID : CK_RV := 0xB3
/-- Modelled from the spec: error kind CryptokiNotInitialized (number from the missing `cryptoki.h`). -/
def CKR_CRYPTOKI_NOT_INITIALIZED : CK_RV := 0x190
/-- A device failure code, used in examples (number from the missing `cryptoki.h`). -/
def CKR_DEVICE_ERROR : CK_RV := 0x30

/-- Constant `CK_INVALID_HANDLE` (0), as the `int` it is when it is compared with or
stored into `p11Session_t.activeObjectHandle`. -/
def CK_INVALID_HANDLE : Int := 0

/-! ## Integer conversions around `int activeObjectHandle` -/

/-- Conversion of an `unsigned long` handle to the C `int` of `activeObjectHandle`
(`session->activeObjectHandle = object->handle`): reduction to a signed 32-bit value. -/
def intOfHandle (h : CK_OBJECT_HANDLE) : Int :=
  (((h + 2 ^ 31) % 2 ^ 32 : Nat) : Int) - 2 ^ 31

/-- Conversion of the stored `int` back to a `CK_OBJECT_HANDLE` when it is passed to
`findSlotObject` (an `unsigned long` of 64 bits; the value is unchanged when it is
not negative). -/
def handleOfInt (i : Int) : CK_OBJECT_HANDLE :=
  (i % 2 ^ 64).toNat

/-! ## Capabilities of an object and the trace of their invocations -/

/-- The twelve function pointers of `struct p11Object_t` that `p11mechanisms.c` uses. -/
inductive Capability where
  | EncryptInit | Encrypt | EncryptUpdate | EncryptFinal
  | DecryptInit | Decrypt | DecryptUpdate | DecryptFinal
  | SignInit | Sign | SignUpdate | SignFinal
deriving DecidableEq, Repr

/-- Arguments an object capability was invoked with (after the object pointer). -/
inductive CapArgs where
  | init (pMechanism : CK_MECHANISM)
  | single (mech : CK_MECHANISM_TYPE) (pIn : CK_BYTE_PTR) (ulInLen : CK_ULONG)
      (pOut : CK_BYTE_PTR) (pulOutLen : CK_ULONG_PTR)
  | part (mech : CK_MECHANISM_TYPE) (pPart : CK_BYTE_PTR) (ulPartLen : CK_ULONG)
  | final (mech : CK_MECHANISM_TYPE) (pOut : CK_BYTE_PTR) (pulOutLen : CK_ULONG_PTR)
deriving DecidableEq, Repr

/-- One invocation of a capability of the object with handle `object`. -/
structure CapCall where
  object : CK_OBJECT_HANDLE
  capability : Capability
  args : CapArgs
deriving DecidableEq, Repr

abbrev InitFn := List CapCall → CK_MECHANISM → Int
abbrev SingleFn :=
  List CapCall → CK_MECHANISM_TYPE → CK_BYTE_PTR → CK_ULONG → CK_BYTE_PTR → CK_ULONG_PTR → Int
abbrev PartFn := List CapCall → CK_MECHANISM_TYPE → CK_BYTE_PTR → CK_ULONG → Int
abbrev FinalFn := List CapCall → CK_MECHANISM_TYPE → CK_BYTE_PTR → CK_ULONG_PTR → Int

/-- Modelled from the spec: the capability object (`struct p11Object_t`, declared in the
missing `pkcs11/object.h`): a handle and, per operation, a function pointer that is
present (`some`) or `NULL` (`none`).  The field names are those `p11mechanisms.c`
dereferences. -/
structure p11Object_t where
  handle : CK_OBJECT_HANDLE
  C_EncryptInit : Option InitFn
  C_Encrypt : Option SingleFn
  C_EncryptUpdate : Option SingleFn
  C_EncryptFinal : Option FinalFn
  C_DecryptInit : Option InitFn
  C_Decrypt : Option SingleFn
  C_DecryptUpdate : Option SingleFn
  C_DecryptFinal : Option FinalFn
  C_SignInit : Option InitFn
  C_Sign : Option SingleFn
  C_SignUpdate : Option PartFn
  C_SignFinal : Option FinalFn

/-! ## Session, slot, module state -/

/-- Structure `struct p11Session_t` of `session.h`.  The session-local object store and
the search cursor (`searchObj`, `nextSessionObjHandle`, `objectCount`, `objectList`)
and the list link `next` are not touched by `p11mechanisms.c` and are left out; the
pool is a list.  `cryptoBuffer` holds the bytes accumulated so far. -/
structure p11Session_t where
  flags : CK_FLAGS
  slotID : CK_SLOT_ID
  handle : CK_SESSION_HANDLE
  queuing : Nat
  activeObjectHandle : Int
  activeMechanism : CK_MECHANISM_TYPE
  cryptoBuffer : List CK_BYTE
  cryptoBufferSize : CK_ULONG
  cryptoBufferMax : CK_ULONG
deriving DecidableEq, Repr

/-- Modelled from the spec: the slot (`struct p11Slot_t`, declared in the missing
`pkcs11/slot.h`): its identifier and the registry of capability objects reachable
from sessions opened on it. -/
structure p11Slot_t where
  id : CK_SLOT_ID
  objects : List p11Object_t

/-- Modelled from the spec: the module context (`struct p11Context_t`, declared in the
missing `pkcs11/p11generic.h`) with the session pool and the slot pool that
`safeFindSessionAndLockSlot` searches. -/
structure p11Context_t where
  sessionPool : List p11Session_t
  slotPool : List p11Slot_t

/-- The state an entry point runs in: the global `context` (`none` is `NULL`, the module
is not initialized), whether the host grants a request to grow a buffer to a given
size, and the trace of capability invocations made so far. -/
structure World where
  context : Option p11Context_t
  hostMemory : CK_ULONG → Bool
  trace : List CapCall

/-- A session is Idle when no operation is recorded on it. -/
def p11Session_t.Idle (s : p11Session_t) : Prop := s.activeObjectHandle = CK_INVALID_HANDLE

/-- A session is Active when an operation is recorded on it. -/
def p11Session_t.Active (s : p11Session_t) : Prop := s.activeObjectHandle ≠ CK_INVALID_HANDLE

instance (s : p11Session_t) : Decidable s.Idle := by unfold p11Session_t.Idle; infer_instance
instance (s : p11Session_t) : Decidable s.Active := by unfold p11Session_t.Active; infer_instance

/-! ## Collaborators that are declared but not defined in the sources -/

/-- Modelled from the spec: `safeFindSessionAndLockSlot` (prototype in `session.h`, body
missing), used through the macro `FUNC_FIND_SESSION_AND_LOCK_SLOT`: resolves a session
handle to its session and to the slot it was opened on; a handle that does not
resolve fails with SessionHandleInvalid. -/
def safeFindSessionAndLockSlot (sessionPool : List p11Session_t) (slotPool : List p11Slot_t)
    (handle : CK_SESSION_HANDLE) : Except CK_RV (p11Session_t × p11Slot_t) :=
  match sessionPool.find? (fun s => s.handle == handle) with
  | none => .error CKR_SESSION_HANDLE_INVALID
  | some session =>
    match slotPool.find? (fun sl => sl.id == session.slotID) with
    | none => .error CKR_SESSION_HANDLE_INVALID
    | some slot => .ok (session, slot)

/-- Modelled from the spec: `findSlotObject` (body missing), the spec's
`resolveObject(slot, handle, requireWritable)`: the object of the slot's registry with
that handle, or ObjectHandleInvalid.  The dispatchers always pass `FALSE` as flag. -/
def findSlotObject (slot : p11Slot_t) (handle : CK_OBJECT_HANDLE) (flag : Bool) :
    Except CK_RV p11Object_t :=
  match slot.objects.find? (fun o => o.handle == handle) with
  | none => .error CKR_OBJECT_HANDLE_INVALID
  | some object => .ok object

/-- Modelled from the spec: `appendToCryptoBuffer` (prototype in `session.h`, body
missing): appends `length` bytes of `data` to the session's crypto buffer, growing it
as needed; a growth failure fails with HostMemory and leaves the buffer as it was. -/
def appendToCryptoBuffer (hostMemory : CK_ULONG → Bool) (session : p11Session_t)
    (data : CK_BYTE_PTR) (length : CK_ULONG) : CK_RV × p11Session_t :=
  if session.cryptoBufferSize + length > session.cryptoBufferMax then
    if hostMemory (session.cryptoBufferSize + length) then
      (CKR_OK, { session with
        cryptoBuffer := session.cryptoBuffer ++ (data.getD []).take length
        cryptoBufferSize := session.cryptoBufferSize + length
        cryptoBufferMax := session.cryptoBufferSize + length })
    else
      (CKR_HOST_MEMORY, session)
  else
    (CKR_OK, { session with
      cryptoBuffer := session.cryptoBuffer ++ (data.getD []).take length
      cryptoBufferSize := session.cryptoBufferSize + length })

/-- Modelled from the spec: `clearCryptoBuffer` (prototype in `session.h`, body missing):
the buffer is cleared, its length reset to zero; the storage is retained. -/
def clearCryptoBuffer (session : p11Session_t) : p11Session_t :=
  { session with cryptoBuffer := [], cryptoBufferSize := 0 }

/-! ## Writing through the session pointer, recording an invocation -/

/-- The pool after the session found for `s.handle` has been overwritten by `s` (the
dispatchers assign to fields of the session they resolved). -/
def storeSession : List p11Session_t → p11Session_t → List p11Session_t
  | [], _ => []
  | t :: rest, s => if t.handle == s.handle then s :: rest else t :: storeSession rest s

/-- The module state after assignments to fields of the resolved session. -/
def World.store (w : World) (s : p11Session_t) : World :=
  match w.context with
  | none => w
  | some ctx =>
    { w with context := some { ctx with sessionPool := storeSession ctx.sessionPool s } }

/-- The module state after one more capability invocation. -/
def World.log (w : World) (c : CapCall) : World :=
  { w with trace := w.trace ++ [c] }

/-- The session a handle resolves to in a module state, if any. -/
def World.session? (w : World) (hSession : CK_SESSION_HANDLE) : Option p11Session_t :=
  match w.context with
  | none => none
  | some ctx => ctx.sessionPool.find? (fun s => s.handle == hSession)

/-! ## The Encrypt, Decrypt and Sign entry points -/

/-- Entry point `C_EncryptInit` (p11mechanisms.c).  `pMechanism` is a valid pointer. -/
def C_EncryptInit (w : World) (hSession : CK_SESSION_HANDLE) (pMechanism : CK_MECHANISM)
    (hKey : CK_OBJECT_HANDLE) : CK_RV × World :=
  match w.context with
  | none => (CKR_CRYPTOKI_NOT_INITIALIZED, w)
  | some ctx =>
    match safeFindSessionAndLockSlot ctx.sessionPool ctx.slotPool hSession with
    | .error rv => (rv, w)
    | .ok (session, slot) =>
      if session.activeObjectHandle ≠ CK_INVALID_HANDLE then
        (CKR_OPERATION_ACTIVE, w)
      else
        match findSlotObject slot hKey false with
        | .error rv => (rv, w)
        | .ok object =>
          match object.C_EncryptInit with
          | none => (CKR_FUNCTION_NOT_SUPPORTED, w)
          | some f =>
            let rv := f w.trace pMechanism
            let w := w.log ⟨object.handle, Capability.EncryptInit, CapArgs.init pMechanism⟩
            if rv = 0 then
              (CKR_OK, w.store { session with activeObjectHandle := intOfHandle object.handle })
            else
              (rv, w)

/-- Entry point `C_Encrypt` (p11mechanisms.c). -/
def C_Encrypt (w : World) (hSession : CK_SESSION_HANDLE) (pData : CK_BYTE_PTR)
    (ulDataLen : CK_ULONG) (pEncryptedData : CK_BYTE_PTR) (pulEncryptedDataLen : CK_ULONG_PTR) :
    CK_RV × World :=
  match w.context with
  | none => (CKR_CRYPTOKI_NOT_INITIALIZED, w)
  | some ctx =>
    match safeFindSessionAndLockSlot ctx.sessionPool ctx.slotPool hSession with
    | .error rv => (rv, w)
    | .ok (session, slot) =>
      if session.activeObjectHandle = CK_INVALID_HANDLE then
        (CKR_OPERATION_NOT_INITIALIZED, w)
      else
        match findSlotObject slot (handleOfInt session.activeObjectHandle) false with
        | .error rv => (rv, w)
        | .ok object =>
          match object.C_Encrypt with
          | none => (CKR_FUNCTION_NOT_SUPPORTED, w)
          | some f =>
            let rv := f w.trace session.activeMechanism pData ulDataLen pEncryptedData pulEncryptedDataLen
            (rv, w.log ⟨object.handle, Capability.Encrypt,
              CapArgs.single session.activeMechanism pData ulDataLen pEncryptedData pulEncryptedDataLen⟩)

/-- Entry point `C_EncryptUpdate` (p11mechanisms.c). -/
def C_EncryptUpdate (w : World) (hSession : CK_SESSION_HANDLE) (pPart : CK_BYTE_PTR)
    (ulPartLen : CK_ULONG) (pEncryptedPart : CK_BYTE_PTR) (pulEncryptedPartLen : CK_ULONG_PTR) :
    CK_RV × World :=
  match w.context with
  | none => (CKR_CRYPTOKI_NOT_INITIALIZED, w)
  | some ctx =>
    match safeFindSessionAndLockSlot ctx.sessionPool ctx.slotPool hSession with
    | .error rv => (rv, w)
    | .ok (session, slot) =>
      if session.activeObjectHandle = CK_INVALID_HANDLE then
        (CKR_OPERATION_NOT_INITIALIZED, w)
      else
        match findSlotObject slot (handleOfInt session.activeObjectHandle) false with
        | .error rv => (rv, w)
        | .ok object =>
          match object.C_EncryptUpdate with
          | none => (CKR_FUNCTION_NOT_SUPPORTED, w)
          | some f =>
            let rv := f w.trace session.activeMechanism pPart ulPartLen pEncryptedPart pulEncryptedPartLen
            (rv, w.log ⟨object.handle, Capability.EncryptUpdate,
              CapArgs.single session.activeMechanism pPart ulPartLen pEncryptedPart pulEncryptedPartLen⟩)

/-- Entry point `C_EncryptFinal` (p11mechanisms.c). -/
def C_EncryptFinal (w : World) (hSession : CK_SESSION_HANDLE) (pLastEncryptedPart : CK_BYTE_PTR)
    (pulLastEncryptedPartLen : CK_ULONG_PTR) : CK_RV × World :=
  match w.context with
  | none => (CKR_CRYPTOKI_NOT_INITIALIZED, w)
  | some ctx =>
    match safeFindSessionAndLockSlot ctx.sessionPool ctx.slotPool hSession with
    | .error rv => (rv, w)
    | .ok (session, slot) =>
      if session.activeObjectHandle = CK_INVALID_HANDLE then
        (CKR_OPERATION_NOT_INITIALIZED, w)
      else
        match findSlotObject slot (handleOfInt session.activeObjectHandle) false with
        | .error rv => (rv, w)
        | .ok object =>
          match object.C_EncryptFinal with
          | none => (CKR_FUNCTION_NOT_SUPPORTED, w)
          | some f =>
            let rv := f w.trace session.activeMechanism pLastEncryptedPart pulLastEncryptedPartLen
            let w := w.log ⟨object.handle, Capability.EncryptFinal,
              CapArgs.final session.activeMechanism pLastEncryptedPart pulLastEncryptedPartLen⟩
            if rv = 0 then
              (CKR_OK, w.store { session with activeObjectHandle := CK_INVALID_HANDLE })
            else
              (rv, w)

/-- Entry point `C_DecryptInit` (p11mechanisms.c).  `pMechanism` is a valid pointer. -/
def C_DecryptInit (w : World) (hSession : CK_SESSION_HANDLE) (pMechanism : CK_MECHANISM)
    (hKey : CK_OBJECT_HANDLE) : CK_RV × World :=
  match w.context with
  | none => (CKR_CRYPTOKI_NOT_INITIALIZED, w)
  | some ctx =>
    match safeFindSessionAndLockSlot ctx.sessionPool ctx.slotPool hSession with
    | .error rv => (rv, w)
    | .ok (session, slot) =>
      if session.activeObjectHandle ≠ CK_INVALID_HANDLE then
        (CKR_OPERATION_ACTIVE, w)
      else
        match findSlotObject slot hKey false with
        | .error rv => (rv, w)
        | .ok object =>
          match object.C_DecryptInit with
          | none => (CKR_FUNCTION_NOT_SUPPORTED, w)
          | some f =>
            let rv := f w.trace pMechanism
            let w := w.log ⟨object.handle, Capability.DecryptInit, CapArgs.init pMechanism⟩
            if rv = 0 then
              (CKR_OK, w.store { session with activeObjectHandle := intOfHandle object.handle, activeMechanism := pMechanism.mechanism })
            else
              (rv, w)

/-- Entry point `C_Decrypt` (p11mechanisms.c). -/
def C_Decrypt (w : World) (hSession : CK_SESSION_HANDLE) (pEncryptedData : CK_BYTE_PTR)
    (ulEncryptedDataLen : CK_ULONG) (pData : CK_BYTE_PTR) (pulDataLen : CK_ULONG_PTR) :
    CK_RV × World :=
  match w.context with
  | none => (CKR_CRYPTOKI_NOT_INITIALIZED, w)
  | some ctx =>
    match safeFindSessionAndLockSlot ctx.sessionPool ctx.slotPool hSession with
    | .error rv => (rv, w)
    | .ok (session, slot) =>
      if session.activeObjectHandle = CK_INVALID_HANDLE then
        (CKR_OPERATION_NOT_INITIALIZED, w)
      else
        match findSlotObject slot (handleOfInt session.activeObjectHandle) false with
        | .error rv => (rv, w)
        | .ok object =>
          let session :=
            if pData.isSome then { session with activeObjectHandle := CK_INVALID_HANDLE }
            else session
          let w := w.store session
          match object.C_Decrypt with
          | none => (CKR_FUNCTION_NOT_SUPPORTED, w)
          | some f =>
            let rv := f w.trace session.activeMechanism pEncryptedData ulEncryptedDataLen pData pulDataLen
            (rv, w.log ⟨object.handle, Capability.Decrypt,
              CapArgs.single session.activeMechanism pEncryptedData ulEncryptedDataLen pData pulDataLen⟩)

/-- Entry point `C_DecryptUpdate` (p11mechanisms.c). -/
def C_DecryptUpdate (w : World) (hSession : CK_SESSION_HANDLE) (pEncryptedPart : CK_BYTE_PTR)
    (ulEncryptedPartLen : CK_ULONG) (pPart : CK_BYTE_PTR) (pulPartLen : CK_ULONG_PTR) :
    CK_RV × World :=
  match w.context with
  | none => (CKR_CRYPTOKI_NOT_INITIALIZED, w)
  | some ctx =>
    match safeFindSessionAndLockSlot ctx.sessionPool ctx.slotPool hSession with
    | .error rv => (rv, w)
    | .ok (session, slot) =>
      if session.activeObjectHandle = CK_INVALID_HANDLE then
        (CKR_OPERATION_NOT_INITIALIZED, w)
      else
        match findSlotObject slot (handleOfInt session.activeObjectHandle) false with
        | .error rv => (rv, w)
        | .ok object =>
          match object.C_DecryptUpdate with
          | none => (CKR_FUNCTION_NOT_SUPPORTED, w)
          | some f =>
            let rv := f w.trace session.activeMechanism pEncryptedPart ulEncryptedPartLen pPart pulPartLen
            (rv, w.log ⟨object.handle, Capability.DecryptUpdate,
              CapArgs.single session.activeMechanism pEncryptedPart ulEncryptedPartLen pPart pulPartLen⟩)

/-- Entry point `C_DecryptFinal` (p11mechanisms.c). -/
def C_DecryptFinal (w : World) (hSession : CK_SESSION_HANDLE) (pLastPart : CK_BYTE_PTR)
    (pulLastPartLen : CK_ULONG_PTR) : CK_RV × World :=
  match w.context with
  | none => (CKR_CRYPTOKI_NOT_INITIALIZED, w)
  | some ctx =>
    match safeFindSessionAndLockSlot ctx.sessionPool ctx.slotPool hSession with
    | .error rv => (rv, w)
    | .ok (session, slot) =>
      if session.activeObjectHandle = CK_INVALID_HANDLE then
        (CKR_OPERATION_NOT_INITIALIZED, w)
      else
        match findSlotObject slot (handleOfInt session.activeObjectHandle) false with
        | .error rv => (rv, w)
        | .ok object =>
          match object.C_DecryptFinal with
          | none => (CKR_FUNCTION_NOT_SUPPORTED, w)
          | some f =>
            let rv := f w.trace session.activeMechanism pLastPart pulLastPartLen
            let w := w.log ⟨object.handle, Capability.DecryptFinal,
              CapArgs.final session.activeMechanism pLastPart pulLastPartLen⟩
            if rv = 0 then
              (CKR_OK, w.store { session with activeObjectHandle := CK_INVALID_HANDLE })
            else
              (rv, w)

/-- Entry point `C_SignInit` (p11mechanisms.c).  `pMechanism` is a valid pointer. -/
def C_SignInit (w : World) (hSession : CK_SESSION_HANDLE) (pMechanism : CK_MECHANISM)
    (hKey : CK_OBJECT_HANDLE) : CK_RV × World :=
  match w.context with
  | none => (CKR_CRYPTOKI_NOT_INITIALIZED, w)
  | some ctx =>
    match safeFindSessionAndLockSlot ctx.sessionPool ctx.slotPool hSession with
    | .error rv => (rv, w)
    | .ok (session, slot) =>
      if session.activeObjectHandle ≠ CK_INVALID_HANDLE then
        (CKR_OPERATION_ACTIVE, w)
      else
        match findSlotObject slot hKey false with
        | .error rv => (rv, w)
        | .ok object =>
          match object.C_SignInit with
          | none => (CKR_FUNCTION_NOT_SUPPORTED, w)
          | some f =>
            let rv := f w.trace pMechanism
            let w := w.log ⟨object.handle, Capability.SignInit, CapArgs.init pMechanism⟩
            if rv = 0 then
              (CKR_OK, w.store { session with activeObjectHandle := intOfHandle object.handle, activeMechanism := pMechanism.mechanism })
            else
              (rv, w)

/-- Entry point `C_Sign` (p11mechanisms.c). -/
def C_Sign (w : World) (hSession : CK_SESSION_HANDLE) (pData : CK_BYTE_PTR)
    (ulDataLen : CK_ULONG) (pSignature : CK_BYTE_PTR) (pulSignatureLen : CK_ULONG_PTR) :
    CK_RV × World :=
  match w.context with
  | none => (CKR_CRYPTOKI_NOT_INITIALIZED, w)
  | some ctx =>
    match safeFindSessionAndLockSlot ctx.sessionPool ctx.slotPool hSession with
    | .error rv => (rv, w)
    | .ok (session, slot) =>
      if session.activeObjectHandle = CK_INVALID_HANDLE then
        (CKR_OPERATION_NOT_INITIALIZED, w)
      else
        match findSlotObject slot (handleOfInt session.activeObjectHandle) false with
        | .error rv => (rv, w)
        | .ok object =>
          let session :=
            if pSignature.isSome then { session with activeObjectHandle := CK_INVALID_HANDLE }
            else session
          let w := w.store session
          match object.C_Sign with
          | none => (CKR_FUNCTION_NOT_SUPPORTED, w)
          | some f =>
            let rv := f w.trace session.activeMechanism pData ulDataLen pSignature pulSignatureLen
            (rv, w.log ⟨object.handle, Capability.Sign,
              CapArgs.single session.activeMechanism pData ulDataLen pSignature pulSignatureLen⟩)

/-- Entry point `C_SignUpdate` (p11mechanisms.c). -/
def C_SignUpdate (w : World) (hSession : CK_SESSION_HANDLE) (pPart : CK_BYTE_PTR)
    (ulPartLen : CK_ULONG) : CK_RV × World :=
  match w.context with
  | none => (CKR_CRYPTOKI_NOT_INITIALIZED, w)
  | some ctx =>
    match safeFindSessionAndLockSlot ctx.sessionPool ctx.slotPool hSession with
    | .error rv => (rv, w)
    | .ok (session, slot) =>
      if session.activeObjectHandle = CK_INVALID_HANDLE then
        (CKR_OPERATION_NOT_INITIALIZED, w)
      else
        match findSlotObject slot (handleOfInt session.activeObjectHandle) false with
        | .error rv => (rv, w)
        | .ok object =>
          match object.C_SignUpdate with
          | some f =>
            let rv := f w.trace session.activeMechanism pPart ulPartLen
            (rv, w.log ⟨object.handle, Capability.SignUpdate,
              CapArgs.part session.activeMechanism pPart ulPartLen⟩)
          | none =>
            let r := appendToCryptoBuffer w.hostMemory session pPart ulPartLen
            (r.1, w.store r.2)

/-- Entry point `C_SignFinal` (p11mechanisms.c). -/
def C_SignFinal (w : World) (hSession : CK_SESSION_HANDLE) (pSignature : CK_BYTE_PTR)
    (pulSignatureLen : CK_ULONG_PTR) : CK_RV × World :=
  match w.context with
  | none => (CKR_CRYPTOKI_NOT_INITIALIZED, w)
  | some ctx =>
    match safeFindSessionAndLockSlot ctx.sessionPool ctx.slotPool hSession with
    | .error rv => (rv, w)
    | .ok (session, slot) =>
      if session.activeObjectHandle = CK_INVALID_HANDLE then
        (CKR_OPERATION_NOT_INITIALIZED, w)
      else
        match findSlotObject slot (handleOfInt session.activeObjectHandle) false with
        | .error rv => (rv, w)
        | .ok object =>
          let session :=
            if pSignature.isSome then { session with activeObjectHandle := CK_INVALID_HANDLE }
            else session
          let w := w.store session
          match object.C_SignFinal, object.C_Sign with
          | some f, _ =>
            let rv := f w.trace session.activeMechanism pSignature pulSignatureLen
            let w := w.log ⟨object.handle, Capability.SignFinal,
              CapArgs.final session.activeMechanism pSignature pulSignatureLen⟩
            if pSignature.isSome then (rv, w.store (clearCryptoBuffer session)) else (rv, w)
          | none, some g =>
            let rv := g w.trace session.activeMechanism (some session.cryptoBuffer)
              session.cryptoBufferSize pSignature pulSignatureLen
            let w := w.log ⟨object.handle, Capability.Sign,
              CapArgs.single session.activeMechanism (some session.cryptoBuffer)
                session.cryptoBufferSize pSignature pulSignatureLen⟩
            if pSignature.isSome then (rv, w.store (clearCryptoBuffer session)) else (rv, w)
          | none, none => (CKR_FUNCTION_NOT_SUPPORTED, w)

/-! ## Entry points of the families the device does not support

Each of them sets `rv = CKR_FUNCTION_NOT_SUPPORTED`, checks `context` and returns `rv`;
no argument is looked at. -/

/-- Entry point `C_DigestInit` (p11mechanisms.c). -/
def C_DigestInit (w : World) (hSession : CK_SESSION_HANDLE) (pMechanism : CK_MECHANISM_PTR) :
    CK_RV × World :=
  let rv := CKR_FUNCTION_NOT_SUPPORTED
  match w.context with
  | none => (CKR_CRYPTOKI_NOT_INITIALIZED, w)
  | some _ => (rv, w)

/-- Entry point `C_Digest` (p11mechanisms.c). -/
def C_Digest (w : World) (hSession : CK_SESSION_HANDLE) (pData : CK_BYTE_PTR) (ulDataLen : CK_ULONG) (pDigest : CK_BYTE_PTR) (pulDigestLen : CK_ULONG_PTR) :
    CK_RV × World :=
  let rv := CKR_FUNCTION_NOT_SUPPORTED
  match w.context with
  | none => (CKR_CRYPTOKI_NOT_INITIALIZED, w)
  | some _ => (rv, w)

/-- Entry point `C_DigestUpdate` (p11mechanisms.c). -/
def C_DigestUpdate (w : World) (hSession : CK_SESSION_HANDLE) (pPart : CK_BYTE_PTR) (ulPartLen : CK_ULONG) :
    CK_RV × World :=
  let rv := CKR_FUNCTION_NOT_SUPPORTED
  match w.context with
  | none => (CKR_CRYPTOKI_NOT_INITIALIZED, w)
  | some _ => (rv, w)

/-- Entry point `C_DigestKey` (p11mechanisms.c). -/
def C_DigestKey (w : World) (hSession : CK_SESSION_HANDLE) (hKey : CK_OBJECT_HANDLE) :
    CK_RV × World :=
  let rv := CKR_FUNCTION_NOT_SUPPORTED
  match w.context with
  | none => (CKR_CRYPTOKI_NOT_INITIALIZED, w)
  | some _ => (rv, w)

/-- Entry point `C_DigestFinal` (p11mechanisms.c). -/
def C_DigestFinal (w : World) (hSession : CK_SESSION_HANDLE) (pDigest : CK_BYTE_PTR) (pulDigestLen : CK_ULONG_PTR) :
    CK_RV × World :=
  let rv := CKR_FUNCTION_NOT_SUPPORTED
  match w.context with
  | none => (CKR_CRYPTOKI_NOT_INITIALIZED, w)
  | some _ => (rv, w)

/-- Entry point `C_SignRecoverInit` (p11mechanisms.c). -/
def C_SignRecoverInit (w : World) (hSession : CK_SESSION_HANDLE) (pMechanism : CK_MECHANISM_PTR) (hKey : CK_OBJECT_HANDLE) :
    CK_RV × World :=
  let rv := CKR_FUNCTION_NOT_SUPPORTED
  match w.context with
  | none => (CKR_CRYPTOKI_NOT_INITIALIZED, w)
  | some _ => (rv, w)

/-- Entry point `C_SignRecover` (p11mechanisms.c). -/
def C_SignRecover (w : World) (hSession : CK_SESSION_HANDLE) (pData : CK_BYTE_PTR) (ulDataLen : CK_ULONG) (pSignature : CK_BYTE_PTR) (pulSignatureLen : CK_ULONG_PTR) :
    CK_RV × World :=
  let rv := CKR_FUNCTION_NOT_SUPPORTED
  match w.context with
  | none => (CKR_CRYPTOKI_NOT_INITIALIZED, w)
  | some _ => (rv, w)

/-- Entry point `C_VerifyInit` (p11mechanisms.c). -/
def C_VerifyInit (w : World) (hSession : CK_SESSION_HANDLE) (pMechanism : CK_MECHANISM_PTR) (hKey : CK_OBJECT_HANDLE) :
    CK_RV × World :=
  let rv := CKR_FUNCTION_NOT_SUPPORTED
  match w.context with
  | none => (CKR_CRYPTOKI_NOT_INITIALIZED, w)
  | some _ => (rv, w)

/-- Entry point `C_Verify` (p11mechanisms.c). -/
def C_Verify (w : World) (hSession : CK_SESSION_HANDLE) (pData : CK_BYTE_PTR) (ulDataLen : CK_ULONG) (pSignature : CK_BYTE_PTR) (ulSignatureLen : CK_ULONG) :
    CK_RV × World :=
  let rv := CKR_FUNCTION_NOT_SUPPORTED
  match w.context with
  | none => (CKR_CRYPTOKI_NOT_INITIALIZED, w)
  | some _ => (rv, w)

/-- Entry point `C_VerifyUpdate` (p11mechanisms.c). -/
def C_VerifyUpdate (w : World) (hSession : CK_SESSION_HANDLE) (pPart : CK_BYTE_PTR) (ulPartLen : CK_ULONG) :
    CK_RV × World :=
  let rv := CKR_FUNCTION_NOT_SUPPORTED
  match w.context with
  | none => (CKR_CRYPTOKI_NOT_INITIALIZED, w)
  | some _ => (rv, w)

/-- Entry point `C_VerifyFinal` (p11mechanisms.c). -/
def C_VerifyFinal (w : World) (hSession : CK_SESSION_HANDLE) (pSignature : CK_BYTE_PTR) (ulSignatureLen : CK_ULONG) :
    CK_RV × World :=
  let rv := CKR_FUNCTION_NOT_SUPPORTED
  match w.context with
  | none => (CKR_CRYPTOKI_NOT_INITIALIZED, w)
  | some _ => (rv, w)

/-- Entry point `C_VerifyRecoverInit` (p11mechanisms.c). -/
def C_VerifyRecoverInit (w : World) (hSession : CK_SESSION_HANDLE) (pMechanism : CK_MECHANISM_PTR) (hKey : CK_OBJECT_HANDLE) :
    CK_RV × World :=
  let rv := CKR_FUNCTION_NOT_SUPPORTED
  match w.context with
  | none => (CKR_CRYPTOKI_NOT_INITIALIZED, w)
  | some _ => (rv, w)

/-- Entry point `C_VerifyRecover` (p11mechanisms.c). -/
def C_VerifyRecover (w : World) (hSession : CK_SESSION_HANDLE) (pSignature : CK_BYTE_PTR) (ulSignatureLen : CK_ULONG) (pData : CK_BYTE_PTR) (pulDataLen : CK_ULONG_PTR) :
    CK_RV × World :=
  let rv := CKR_FUNCTION_NOT_SUPPORTED
  match w.context with
  | none => (CKR_CRYPTOKI_NOT_INITIALIZED, w)
  | some _ => (rv, w)

/-- Entry point `C_DigestEncryptUpdate` (p11mechanisms.c). -/
def C_DigestEncryptUpdate (w : World) (hSession : CK_SESSION_HANDLE) (pPart : CK_BYTE_PTR) (ulPartLen : CK_ULONG) (pEncryptedPart : CK_BYTE_PTR) (pulEncryptedPartLen : CK_ULONG_PTR) :
    CK_RV × World :=
  let rv := CKR_FUNCTION_NOT_SUPPORTED
  match w.context with
  | none => (CKR_CRYPTOKI_NOT_INITIALIZED, w)
  | some _ => (rv, w)

/-- Entry point `C_DecryptDigestUpdate` (p11mechanisms.c). -/
def C_DecryptDigestUpdate (w : World) (hSession : CK_SESSION_HANDLE) (pEncryptedPart : CK_BYTE_PTR) (ulEncryptedPartLen : CK_ULONG) (pPart : CK_BYTE_PTR) (pulPartLen : CK_ULONG_PTR) :
    CK_RV × World :=
  let rv := CKR_FUNCTION_NOT_SUPPORTED
  match w.context with
  | none => (CKR_CRYPTOKI_NOT_INITIALIZED, w)
  | some _ => (rv, w)

/-- Entry point `C_SignEncryptUpdate` (p11mechanisms.c). -/
def C_SignEncryptUpdate (w : World) (hSession : CK_SESSION_HANDLE) (pPart : CK_BYTE_PTR) (ulPartLen : CK_ULONG) (pEncryptedPart : CK_BYTE_PTR) (pulEncryptedPartLen : CK_ULONG_PTR) :
    CK_RV × World :=
  let rv := CKR_FUNCTION_NOT_SUPPORTED
  match w.context with
  | none => (CKR_CRYPTOKI_NOT_INITIALIZED, w)
  | some _ => (rv, w)

/-- Entry point `C_DecryptVerifyUpdate` (p11mechanisms.c). -/
def C_DecryptVerifyUpdate (w : World) (hSession : CK_SESSION_HANDLE) (pEncryptedPart : CK_BYTE_PTR) (ulEncryptedPartLen : CK_ULONG) (pPart : CK_BYTE_PTR) (pulPartLen : CK_ULONG_PTR) :
    CK_RV × World :=
  let rv := CKR_FUNCTION_NOT_SUPPORTED
  match w.context with
  | none => (CKR_CRYPTOKI_NOT_INITIALIZED, w)
  | some _ => (rv, w)

/-- Entry point `C_GenerateKey` (p11mechanisms.c). -/
def C_GenerateKey (w : World) (hSession : CK_SESSION_HANDLE) (pMechanism : CK_MECHANISM_PTR) (pTemplate : CK_ATTRIBUTE_PTR) (ulCount : CK_ULONG) (phKey : CK_OBJECT_HANDLE_PTR) :
    CK_RV × World :=
  let rv := CKR_FUNCTION_NOT_SUPPORTED
  match w.context with
  | none => (CKR_CRYPTOKI_NOT_INITIALIZED, w)
  | some _ => (rv, w)

/-- Entry point `C_GenerateKeyPair` (p11mechanisms.c). -/
def C_GenerateKeyPair (w : World) (hSession : CK_SESSION_HANDLE) (pMechanism : CK_MECHANISM_PTR) (pPublicKeyTemplate : CK_ATTRIBUTE_PTR) (ulPublicKeyAttributeCount : CK_ULONG) (pPrivateKeyTemplate : CK_ATTRIBUTE_PTR) (ulPrivateKeyAttributeCount : CK_ULONG) (phPublicKey : CK_OBJECT_HANDLE_PTR) (phPrivateKey : CK_OBJECT_HANDLE_PTR) :
    CK_RV × World :=
  let rv := CKR_FUNCTION_NOT_SUPPORTED
  match w.context with
  | none => (CKR_CRYPTOKI_NOT_INITIALIZED, w)
  | some _ => (rv, w)

/-- Entry point `C_WrapKey` (p11mechanisms.c). -/
def C_WrapKey (w : World) (hSession : CK_SESSION_HANDLE) (pMechanism : CK_MECHANISM_PTR) (hWrappingKey : CK_OBJECT_HANDLE) (hKey : CK_OBJECT_HANDLE) (pWrappedKey : CK_BYTE_PTR) (pulWrappedKeyLen : CK_ULONG_PTR) :
    CK_RV × World :=
  let rv := CKR_FUNCTION_NOT_SUPPORTED
  match w.context with
  | none => (CKR_CRYPTOKI_NOT_INITIALIZED, w)
  | some _ => (rv, w)

/-- Entry point `C_UnwrapKey` (p11mechanisms.c). -/
def C_UnwrapKey (w : World) (hSession : CK_SESSION_HANDLE) (pMechanism : CK_MECHANISM_PTR) (hUnwrappingKey : CK_OBJECT_HANDLE) (pWrappedKey : CK_BYTE_PTR) (ulWrappedKeyLen : CK_ULONG) (pTemplate : CK_ATTRIBUTE_PTR) (ulAttributeCount : CK_ULONG) (phKey : CK_OBJECT_HANDLE_PTR) :
    CK_RV × World :=
  let rv := CKR_FUNCTION_NOT_SUPPORTED
  match w.context with
  | none => (CKR_CRYPTOKI_NOT_INITIALIZED, w)
  | some _ => (rv, w)

/-- Entry point `C_DeriveKey` (p11mechanisms.c). -/
def C_DeriveKey (w : World) (hSession : CK_SESSION_HANDLE) (pMechanism : CK_MECHANISM_PTR) (hBaseKey : CK_OBJECT_HANDLE) (pTemplate : CK_ATTRIBUTE_PTR) (ulAttributeCount : CK_ULONG) (phKey : CK_OBJECT_HANDLE_PTR) :
    CK_RV × World :=
  let rv := CKR_FUNCTION_NOT_SUPPORTED
  match w.context with
  | none => (CKR_CRYPTOKI_NOT_INITIALIZED, w)
  | some _ => (rv, w)

/-- Entry point `C_SeedRandom` (p11mechanisms.c). -/
def C_SeedRandom (w : World) (hSession : CK_SESSION_HANDLE) (pSeed : CK_BYTE_PTR) (ulSeedLen : CK_ULONG) :
    CK_RV × World :=
  let rv := CKR_FUNCTION_NOT_SUPPORTED
  match w.context with
  | none => (CKR_CRYPTOKI_NOT_INITIALIZED, w)
  | some _ => (rv, w)

/-- Entry point `C_GenerateRandom` (p11mechanisms.c). -/
def C_GenerateRandom (w : World) (hSession : CK_SESSION_HANDLE) (pRandomData : CK_BYTE_PTR) (ulRandomLen : CK_ULONG) :
    CK_RV × World :=
  let rv := CKR_FUNCTION_NOT_SUPPORTED
  match w.context with
  | none => (CKR_CRYPTOKI_NOT_INITIALIZED, w)
  | some _ => (rv, w)

/-! ## Legacy entry points -/

/-- Entry point `C_GetFunctionStatus` (p11mechanisms.c). -/
def C_GetFunctionStatus (w : World) (hSession : CK_SESSION_HANDLE) : CK_RV × World :=
  match w.context with
  | none => (CKR_CRYPTOKI_NOT_INITIALIZED, w)
  | some _ => (CKR_FUNCTION_NOT_PARALLEL, w)

/-- Entry point `C_CancelFunction` (p11mechanisms.c). -/
def C_CancelFunction (w : World) (hSession : CK_SESSION_HANDLE) : CK_RV × World :=
  match w.context with
  | none => (CKR_CRYPTOKI_NOT_INITIALIZED, w)
  | some _ => (CKR_FUNCTION_NOT_PARALLEL, w)

/-! ## A call of an entry point as a value -/

/-- One call of an entry point of `p11mechanisms.c` with its arguments, in the order of
the file. -/
inductive Call where
  | EncryptInit (hSession : CK_SESSION_HANDLE) (pMechanism : CK_MECHANISM) (hKey : CK_OBJECT_HANDLE)
  | Encrypt (hSession : CK_SESSION_HANDLE) (pData : CK_BYTE_PTR) (ulDataLen : CK_ULONG) (pEncryptedData : CK_BYTE_PTR) (pulEncryptedDataLen : CK_ULONG_PTR)
  | EncryptUpdate (hSession : CK_SESSION_HANDLE) (pPart : CK_BYTE_PTR) (ulPartLen : CK_ULONG) (pEncryptedPart : CK_BYTE_PTR) (pulEncryptedPartLen : CK_ULONG_PTR)
  | EncryptFinal (hSession : CK_SESSION_HANDLE) (pLastEncryptedPart : CK_BYTE_PTR) (pulLastEncryptedPartLen : CK_ULONG_PTR)
  | DecryptInit (hSession : CK_SESSION_HANDLE) (pMechanism : CK_MECHANISM) (hKey : CK_OBJECT_HANDLE)
  | Decrypt (hSession : CK_SESSION_HANDLE) (pEncryptedData : CK_BYTE_PTR) (ulEncryptedDataLen : CK_ULONG) (pData : CK_BYTE_PTR) (pulDataLen : CK_ULONG_PTR)
  | DecryptUpdate (hSession : CK_SESSION_HANDLE) (pEncryptedPart : CK_BYTE_PTR) (ulEncryptedPartLen : CK_ULONG) (pPart : CK_BYTE_PTR) (pulPartLen : CK_ULONG_PTR)
  | DecryptFinal (hSession : CK_SESSION_HANDLE) (pLastPart : CK_BYTE_PTR) (pulLastPartLen : CK_ULONG_PTR)
  | DigestInit (hSession : CK_SESSION_HANDLE) (pMechanism : CK_MECHANISM_PTR)
  | Digest (hSession : CK_SESSION_HANDLE) (pData : CK_BYTE_PTR) (ulDataLen : CK_ULONG) (pDigest : CK_BYTE_PTR) (pulDigestLen : CK_ULONG_PTR)
  | DigestUpdate (hSession : CK_SESSION_HANDLE) (pPart : CK_BYTE_PTR) (ulPartLen : CK_ULONG)
  | DigestKey (hSession : CK_SESSION_HANDLE) (hKey : CK_OBJECT_HANDLE)
  | DigestFinal (hSession : CK_SESSION_HANDLE) (pDigest : CK_BYTE_PTR) (pulDigestLen : CK_ULONG_PTR)
  | SignInit (hSession : CK_SESSION_HANDLE) (pMechanism : CK_MECHANISM) (hKey : CK_OBJECT_HANDLE)
  | Sign (hSession : CK_SESSION_HANDLE) (pData : CK_BYTE_PTR) (ulDataLen : CK_ULONG) (pSignature : CK_BYTE_PTR) (pulSignatureLen : CK_ULONG_PTR)
  | SignUpdate (hSession : CK_SESSION_HANDLE) (pPart : CK_BYTE_PTR) (ulPartLen : CK_ULONG)
  | SignFinal (hSession : CK_SESSION_HANDLE) (pSignature : CK_BYTE_PTR) (pulSignatureLen : CK_ULONG_PTR)
  | SignRecoverInit (hSession : CK_SESSION_HANDLE) (pMechanism : CK_MECHANISM_PTR) (hKey : CK_OBJECT_HANDLE)
  | SignRecover (hSession : CK_SESSION_HANDLE) (pData : CK_BYTE_PTR) (ulDataLen : CK_ULONG) (pSignature : CK_BYTE_PTR) (pulSignatureLen : CK_ULONG_PTR)
  | VerifyInit (hSession : CK_SESSION_HANDLE) (pMechanism : CK_MECHANISM_PTR) (hKey : CK_OBJECT_HANDLE)
  | Verify (hSession : CK_SESSION_HANDLE) (pData : CK_BYTE_PTR) (ulDataLen : CK_ULONG) (pSignature : CK_BYTE_PTR) (ulSignatureLen : CK_ULONG)
  | VerifyUpdate (hSession : CK_SESSION_HANDLE) (pPart : CK_BYTE_PTR) (ulPartLen : CK_ULONG)
  | VerifyFinal (hSession : CK_SESSION_HANDLE) (pSignature : CK_BYTE_PTR) (ulSignatureLen : CK_ULONG)
  | VerifyRecoverInit (hSession : CK_SESSION_HANDLE) (pMechanism : CK_MECHANISM_PTR) (hKey : CK_OBJECT_HANDLE)
  | VerifyRecover (hSession : CK_SESSION_HANDLE) (pSignature : CK_BYTE_PTR) (ulSignatureLen : CK_ULONG) (pData : CK_BYTE_PTR) (pulDataLen : CK_ULONG_PTR)
  | DigestEncryptUpdate (hSession : CK_SESSION_HANDLE) (pPart : CK_BYTE_PTR) (ulPartLen : CK_ULONG) (pEncryptedPart : CK_BYTE_PTR) (pulEncryptedPartLen : CK_ULONG_PTR)
  | DecryptDigestUpdate (hSession : CK_SESSION_HANDLE) (pEncryptedPart : CK_BYTE_PTR) (ulEncryptedPartLen : CK_ULONG) (pPart : CK_BYTE_PTR) (pulPartLen : CK_ULONG_PTR)
  | SignEncryptUpdate (hSession : CK_SESSION_HANDLE) (pPart : CK_BYTE_PTR) (ulPartLen : CK_ULONG) (pEncryptedPart : CK_BYTE_PTR) (pulEncryptedPartLen : CK_ULONG_PTR)
  | DecryptVerifyUpdate (hSession : CK_SESSION_HANDLE) (pEncryptedPart : CK_BYTE_PTR) (ulEncryptedPartLen : CK_ULONG) (pPart : CK_BYTE_PTR) (pulPartLen : CK_ULONG_PTR)
  | GenerateKey (hSession : CK_SESSION_HANDLE) (pMechanism : CK_MECHANISM_PTR) (pTemplate : CK_ATTRIBUTE_PTR) (ulCount : CK_ULONG) (phKey : CK_OBJECT_HANDLE_PTR)
  | GenerateKeyPair (hSession : CK_SESSION_HANDLE) (pMechanism : CK_MECHANISM_PTR) (pPublicKeyTemplate : CK_ATTRIBUTE_PTR) (ulPublicKeyAttributeCount : CK_ULONG) (pPrivateKeyTemplate : CK_ATTRIBUTE_PTR) (ulPrivateKeyAttributeCount : CK_ULONG) (phPublicKey : CK_OBJECT_HANDLE_PTR) (phPrivateKey : CK_OBJECT_HANDLE_PTR)
  | WrapKey (hSession : CK_SESSION_HANDLE) (pMechanism : CK_MECHANISM_PTR) (hWrappingKey : CK_OBJECT_HANDLE) (hKey : CK_OBJECT_HANDLE) (pWrappedKey : CK_BYTE_PTR) (pulWrappedKeyLen : CK_ULONG_PTR)
  | UnwrapKey (hSession : CK_SESSION_HANDLE) (pMechanism : CK_MECHANISM_PTR) (hUnwrappingKey : CK_OBJECT_HANDLE) (pWrappedKey : CK_BYTE_PTR) (ulWrappedKeyLen : CK_ULONG) (pTemplate : CK_ATTRIBUTE_PTR) (ulAttributeCount : CK_ULONG) (phKey : CK_OBJECT_HANDLE_PTR)
  | DeriveKey (hSession : CK_SESSION_HANDLE) (pMechanism : CK_MECHANISM_PTR) (hBaseKey : CK_OBJECT_HANDLE) (pTemplate : CK_ATTRIBUTE_PTR) (ulAttributeCount : CK_ULONG) (phKey : CK_OBJECT_HANDLE_PTR)
  | SeedRandom (hSession : CK_SESSION_HANDLE) (pSeed : CK_BYTE_PTR) (ulSeedLen : CK_ULONG)
  | GenerateRandom (hSession : CK_SESSION_HANDLE) (pRandomData : CK_BYTE_PTR) (ulRandomLen : CK_ULONG)
  | GetFunctionStatus (hSession : CK_SESSION_HANDLE)
  | CancelFunction (hSession : CK_SESSION_HANDLE)

/-- Performing a call: the entry point it names, applied to its arguments. -/
def step (w : World) : Call → CK_RV × World
  | .EncryptInit h a0 a1 => C_EncryptInit w h a0 a1
  | .Encrypt h a0 a1 a2 a3 => C_Encrypt w h a0 a1 a2 a3
  | .EncryptUpdate h a0 a1 a2 a3 => C_EncryptUpdate w h a0 a1 a2 a3
  | .EncryptFinal h a0 a1 => C_EncryptFinal w h a0 a1
  | .DecryptInit h a0 a1 => C_DecryptInit w h a0 a1
  | .Decrypt h a0 a1 a2 a3 => C_Decrypt w h a0 a1 a2 a3
  | .DecryptUpdate h a0 a1 a2 a3 => C_DecryptUpdate w h a0 a1 a2 a3
  | .DecryptFinal h a0 a1 => C_DecryptFinal w h a0 a1
  | .DigestInit h a0 => C_DigestInit w h a0
  | .Digest h a0 a1 a2 a3 => C_Digest w h a0 a1 a2 a3
  | .DigestUpdate h a0 a1 => C_DigestUpdate w h a0 a1
  | .DigestKey h a0 => C_DigestKey w h a0
  | .DigestFinal h a0 a1 => C_DigestFinal w h a0 a1
  | .SignInit h a0 a1 => C_SignInit w h a0 a1
  | .Sign h a0 a1 a2 a3 => C_Sign w h a0 a1 a2 a3
  | .SignUpdate h a0 a1 => C_SignUpdate w h a0 a1
  | .SignFinal h a0 a1 => C_SignFinal w h a0 a1
  | .SignRecoverInit h a0 a1 => C_SignRecoverInit w h a0 a1
  | .SignRecover h a0 a1 a2 a3 => C_SignRecover w h a0 a1 a2 a3
  | .VerifyInit h a0 a1 => C_VerifyInit w h a0 a1
  | .Verify h a0 a1 a2 a3 => C_Verify w h a0 a1 a2 a3
  | .VerifyUpdate h a0 a1 => C_VerifyUpdate w h a0 a1
  | .VerifyFinal h a0 a1 => C_VerifyFinal w h a0 a1
  | .VerifyRecoverInit h a0 a1 => C_VerifyRecoverInit w h a0 a1
  | .VerifyRecover h a0 a1 a2 a3 => C_VerifyRecover w h a0 a1 a2 a3
  | .DigestEncryptUpdate h a0 a1 a2 a3 => C_DigestEncryptUpdate w h a0 a1 a2 a3
  | .DecryptDigestUpdate h a0 a1 a2 a3 => C_DecryptDigestUpdate w h a0 a1 a2 a3
  | .SignEncryptUpdate h a0 a1 a2 a3 => C_SignEncryptUpdate w h a0 a1 a2 a3
  | .DecryptVerifyUpdate h a0 a1 a2 a3 => C_DecryptVerifyUpdate w h a0 a1 a2 a3
  | .GenerateKey h a0 a1 a2 a3 => C_GenerateKey w h a0 a1 a2 a3
  | .GenerateKeyPair h a0 a1 a2 a3 a4 a5 a6 => C_GenerateKeyPair w h a0 a1 a2 a3 a4 a5 a6
  | .WrapKey h a0 a1 a2 a3 a4 => C_WrapKey w h a0 a1 a2 a3 a4
  | .UnwrapKey h a0 a1 a2 a3 a4 a5 a6 => C_UnwrapKey w h a0 a1 a2 a3 a4 a5 a6
  | .DeriveKey h a0 a1 a2 a3 a4 => C_DeriveKey w h a0 a1 a2 a3 a4
  | .SeedRandom h a0 a1 => C_SeedRandom w h a0 a1
  | .GenerateRandom h a0 a1 => C_GenerateRandom w h a0 a1
  | .GetFunctionStatus h => C_GetFunctionStatus w h
  | .CancelFunction h => C_CancelFunction w h

/-- The module state after a sequence of calls, the returned codes dropped. -/
def run (w : World) : List Call → World
  | [] => w
  | c :: cs => run (step w c).2 cs

/-! ## Predicates used to state the claims -/

/-- The module is initialized and the session handle resolves to `session`, opened on
`slot`: what `FUNC_FIND_SESSION_AND_LOCK_SLOT` delivers on success. -/
def World.Resolves (w : World) (hSession : CK_SESSION_HANDLE) (session : p11Session_t)
    (slot : p11Slot_t) : Prop :=
  ∃ ctx, w.context = some ctx ∧
    safeFindSessionAndLockSlot ctx.sessionPool ctx.slotPool hSession = .ok (session, slot)

/-- The slots of the module, if it is initialized. -/
def World.slotPool? (w : World) : Option (List p11Slot_t) :=
  w.context.map (fun c => c.slotPool)

/-- The calls that can take an Active session back to Idle: the three Finals, and
single-shot C_Decrypt and C_Sign when they are given a non-null output. -/
def Call.mayEndOperation : Call → Bool
  | .EncryptFinal _ _ _ => true
  | .DecryptFinal _ _ _ => true
  | .SignFinal _ _ _ => true
  | .Decrypt _ _ _ pData _ => pData.isSome
  | .Sign _ _ _ pSignature _ => pSignature.isSome
  | _ => false

/-- The calls whose entry point is a Final (`C_EncryptFinal`, `C_DecryptFinal`,
`C_DigestFinal`, `C_SignFinal`, `C_VerifyFinal`). -/
def Call.isFinal : Call → Bool
  | .EncryptFinal _ _ _ => true
  | .DecryptFinal _ _ _ => true
  | .DigestFinal _ _ _ => true
  | .SignFinal _ _ _ => true
  | .VerifyFinal _ _ _ => true
  | _ => false

/-- The calls of the families the device never supports: digest, verify, sign-recover,
verify-recover, the combined updates, key generation, wrapping, unwrapping and
derivation, and the random functions (24 entry points). -/
def Call.isUnsupportedFamily : Call → Bool
  | .DigestInit _ _ => true
  | .Digest _ _ _ _ _ => true
  | .DigestUpdate _ _ _ => true
  | .DigestKey _ _ => true
  | .DigestFinal _ _ _ => true
  | .SignRecoverInit _ _ _ => true
  | .SignRecover _ _ _ _ _ => true
  | .VerifyInit _ _ _ => true
  | .Verify _ _ _ _ _ => true
  | .VerifyUpdate _ _ _ => true
  | .VerifyFinal _ _ _ => true
  | .VerifyRecoverInit _ _ _ => true
  | .VerifyRecover _ _ _ _ _ => true
  | .DigestEncryptUpdate _ _ _ _ _ => true
  | .DecryptDigestUpdate _ _ _ _ _ => true
  | .SignEncryptUpdate _ _ _ _ _ => true
  | .DecryptVerifyUpdate _ _ _ _ _ => true
  | .GenerateKey _ _ _ _ _ => true
  | .GenerateKeyPair _ _ _ _ _ _ _ _ => true
  | .WrapKey _ _ _ _ _ _ => true
  | .UnwrapKey _ _ _ _ _ _ _ _ => true
  | .DeriveKey _ _ _ _ _ _ => true
  | .SeedRandom _ _ _ => true
  | .GenerateRandom _ _ _ => true
  | _ => false

/-- The calls of the two legacy entry points `C_GetFunctionStatus` and
`C_CancelFunction`. -/
def Call.isLegacy : Call → Bool
  | .GetFunctionStatus _ => true
  | .CancelFunction _ => true
  | _ => false

/-- The calls of the three Init entry points `C_EncryptInit`, `C_DecryptInit` and
`C_SignInit`. -/
def Call.isInit : Call → Bool
  | .EncryptInit _ _ _ => true
  | .DecryptInit _ _ _ => true
  | .SignInit _ _ _ => true
  | _ => false

/-- The codes returned by a sequence of calls, in the order of the calls. -/
def codes (w : World) : List Call → List CK_RV
  | [] => []
  | c :: cs => (step w c).1 :: codes (step w c).2 cs

/-- A key handle that the `int` field `activeObjectHandle` holds unchanged and that
differs from `CK_INVALID_HANDLE`: a value from 1 to 2^31 - 1. -/
def fitsActiveHandle (hKey : CK_OBJECT_HANDLE) : Prop := 0 < hKey ∧ hKey < 2 ^ 31

instance (hKey : CK_OBJECT_HANDLE) : Decidable (fitsActiveHandle hKey) := by
  unfold fitsActiveHandle; infer_instance

/-- Every object of the slot's registry carries a handle from 1 to 2^31 - 1, which the
`int` field `activeObjectHandle` holds unchanged: the well-formedness of the registry
under which a recorded operation leads back to the object it was started on. -/
def p11Slot_t.handlesFit (slot : p11Slot_t) : Prop :=
  ∀ o ∈ slot.objects, fitsActiveHandle o.handle

instance (slot : p11Slot_t) : Decidable slot.handlesFit := by
  unfold p11Slot_t.handlesFit; infer_instance

/-- The calls `C_SignUpdate(p)` for the parts `p` of a message, each part given with its
own length. -/
def signUpdates (hSession : CK_SESSION_HANDLE) (parts : List (List CK_BYTE)) : List Call :=
  parts.map (fun p => Call.SignUpdate hSession (some p) p.length)

/-- The object the recorded operation of an Active session is bound to: the lookup the
Update, Final and single-shot entry points perform. -/
def activeObject (slot : p11Slot_t) (session : p11Session_t) : Except CK_RV p11Object_t :=
  findSlotObject slot (handleOfInt session.activeObjectHandle) false

/-! ## A concrete module state used in examples -/

/-- An object with the given handle and no capability at all. -/
def exBare (h : CK_OBJECT_HANDLE) : p11Object_t :=
  { handle := h
    C_EncryptInit := none, C_Encrypt := none, C_EncryptUpdate := none, C_EncryptFinal := none
    C_DecryptInit := none, C_Decrypt := none, C_DecryptUpdate := none, C_DecryptFinal := none
    C_SignInit := none, C_Sign := none, C_SignUpdate := none, C_SignFinal := none }

/-- A private key (handle 5) that signs and decrypts in a single shot only; every
capability it has succeeds. -/
def exSignKey : p11Object_t :=
  { exBare 5 with
    C_SignInit := some (fun _ _ => 0)
    C_Sign := some (fun _ _ _ _ _ _ => 0)
    C_DecryptInit := some (fun _ _ => 0)
    C_Decrypt := some (fun _ _ _ _ _ _ => 0) }

/-- A secret key (handle 7) with the whole Encrypt family; every capability succeeds. -/
def exCipherKey : p11Object_t :=
  { exBare 7 with
    C_EncryptInit := some (fun _ _ => 0)
    C_Encrypt := some (fun _ _ _ _ _ _ => 0)
    C_EncryptUpdate := some (fun _ _ _ _ _ _ => 0)
    C_EncryptFinal := some (fun _ _ _ _ => 0) }

/-- A key (handle 8) whose device fails every Init. -/
def exBrokenKey : p11Object_t :=
  { exBare 8 with
    C_EncryptInit := some (fun _ _ => CKR_DEVICE_ERROR)
    C_DecryptInit := some (fun _ _ => CKR_DEVICE_ERROR)
    C_SignInit := some (fun _ _ => CKR_DEVICE_ERROR) }

/-- The slot 1 holding the example objects. -/
def exSlot : p11Slot_t := { id := 1, objects := [exSignKey, exCipherKey, exBrokenKey, exBare 9] }

/-- A fresh session (handle 100) on slot 1: Idle, mechanism 0, empty crypto buffer. -/
def exSession : p11Session_t :=
  { flags := 0, slotID := 1, handle := 100, queuing := 0
    activeObjectHandle := CK_INVALID_HANDLE, activeMechanism := 0
    cryptoBuffer := [], cryptoBufferSize := 0, cryptoBufferMax := 0 }

/-- The example session with an operation on the object with handle `k` recorded. -/
def exActive (k : Int) : p11Session_t := { exSession with activeObjectHandle := k }

/-- The module context with the single session `s` on the example slot. -/
def exContext (s : p11Session_t) : p11Context_t := { sessionPool := [s], slotPool := [exSlot] }

/-- An initialized module with the single session `s`, an empty trace and a host that
grants every buffer growth. -/
def exWorld (s : p11Session_t) : World :=
  { context := some (exContext s), hostMemory := fun _ => true, trace := [] }

/-- A module on which `C_Initialize` was not called. -/
def exUninitialized : World := { context := none, hostMemory := fun _ => true, trace := [] }

/-- Mechanism `CKM_AES_ECB` (0x1081) without parameters. -/
def exMechAes : CK_MECHANISM := { mechanism := 0x1081, pParameter := none, ulParameterLen := 0 }

/-- Mechanism `CKM_RSA_PKCS` (0x0001) without parameters. -/
def exMechRsa : CK_MECHANISM := { mechanism := 0x0001, pParameter := none, ulParameterLen := 0 }

/-- The example session after a successful C_DecryptInit or C_SignInit with mechanism
CKM_RSA_PKCS on key 5. -/
def exRsaActive : p11Session_t := { exSession with activeObjectHandle := 5, activeMechanism := 1 }

/-- The example session after a successful C_EncryptInit on key 7. -/
def exAesActive : p11Session_t := { exSession with activeObjectHandle := 7 }

/-- The bytes of "Hello ", the first part the signing test feeds to C_SignUpdate. -/
def exHello : List CK_BYTE := [72, 101, 108, 108, 111, 32]

/-- The bytes of "World", the second part of the signing test. -/
def exWorldText : List CK_BYTE := [87, 111, 114, 108, 100]

/-- The example session after C_SignInit on key 5 and the two C_SignUpdate calls of the
signing test: the parts are in the crypto buffer, because key 5 has no native
SignUpdate. -/
def exSigning : p11Session_t :=
  { exRsaActive with
    cryptoBuffer := exHello ++ exWorldText, cryptoBufferSize := 11, cryptoBufferMax := 11 }

/-- The calls of the multi-part part of the signing test up to the length query. -/
def exSignCalls : List Call :=
  [Call.SignInit 100 exMechRsa 5, Call.SignUpdate 100 (some exHello) 6,
   Call.SignUpdate 100 (some exWorldText) 5]

/-- C_EncryptInit on key 7 followed by a single-shot C_Encrypt of "AB" into a buffer. -/
def exEncryptCalls : List Call :=
  [Call.EncryptInit 100 exMechAes 7, Call.Encrypt 100 (some [65, 66]) 2 (some [0, 0]) (some 2)]

/-- A key (handle 6) with native multi-part signing: SignInit, SignUpdate and SignFinal,
all succeeding, and no single-shot Sign. -/
def exStreamKey : p11Object_t :=
  { exBare 6 with
    C_SignInit := some (fun _ _ => 0)
    C_SignUpdate := some (fun _ _ _ _ => 0)
    C_SignFinal := some (fun _ _ _ _ => 0) }

/-- A key (handle 4) that accepts SignInit but offers neither Sign nor SignUpdate nor
SignFinal. -/
def exInitOnlyKey : p11Object_t :=
  { exBare 4 with C_SignInit := some (fun _ _ => 0) }

/-- A second slot 1, holding the single-shot signing key 5, the streaming key 6 and the
init-only key 4. -/
def exSlotB : p11Slot_t := { id := 1, objects := [exSignKey, exStreamKey, exInitOnlyKey] }

/-- An initialized module with the single session `s` on the slot `exSlotB`. -/
def exWorldB (s : p11Session_t) : World :=
  { context := some { sessionPool := [s], slotPool := [exSlotB] }
    hostMemory := fun _ => true, trace := [] }

/-- A non-null output buffer of two bytes and the pointer to its length. -/
def exOut : CK_BYTE_PTR := some [0, 0]

/-- The example session Active on the streaming key 6 with mechanism 1 while the crypto
buffer still holds "Hello " from an earlier operation. -/
def exStale : p11Session_t :=
  { exSession with
    activeObjectHandle := 6, activeMechanism := 1
    cryptoBuffer := exHello, cryptoBufferSize := 6, cryptoBufferMax := 6 }

/-- The calls that lead the fresh session on `exSlotB` to `exStale`: a multi-part
signature with key 5 is started and ended by a single-shot C_Sign, then a signature
with the streaming key 6 is started. -/
def exStaleCalls : List Call :=
  [Call.SignInit 100 exMechRsa 5, Call.SignUpdate 100 (some exHello) 6,
   Call.Sign 100 (some exWorldText) 5 exOut (some 2), Call.SignInit 100 exMechRsa 6]

/-- The calls of two signatures with key 5 on one session: a multi-part signature is
started, fed "Hello " and ended by a single-shot C_Sign with a non-null output; then a
second multi-part signature of the message "World" is made. -/
def exRepeatCalls : List Call :=
  [Call.SignInit 100 exMechRsa 5, Call.SignUpdate 100 (some exHello) 6,
   Call.Sign 100 (some exWorldText) 5 exOut (some 2),
   Call.SignInit 100 exMechRsa 5, Call.SignUpdate 100 (some exWorldText) 5,
   Call.SignFinal 100 exOut (some 2)]

/-! ## Helpers of the test program `sc-hsm-pkcs11-test.c` -/

/-- Modelled from the spec: error kind FunctionFailed (number from the missing `cryptoki.h`). -/
def CKR_FUNCTION_FAILED : CK_RV := 0x06

/-- The three search functions `findObjectAtOffset` calls through the function list
`p11`.  They are not part of the sources; each is a parameter acting on the state `σ` of
the module.  `C_FindObjects` receives the values `*phObject` and `*pulObjectCount` hold
before the call and returns the values they hold after it (`ulMaxObjectCount` is 1). -/
structure FindFunctions (σ : Type) (τ : Type) where
  C_FindObjectsInit : σ → CK_SESSION_HANDLE → τ → Int → CK_RV × σ
  C_FindObjects : σ → CK_SESSION_HANDLE → CK_OBJECT_HANDLE → CK_ULONG →
    CK_RV × CK_OBJECT_HANDLE × CK_ULONG × σ
  C_FindObjectsFinal : σ → CK_SESSION_HANDLE → CK_RV × σ

/-- The `do ... while (rc == CKR_OK && cnt == 1 && off-- > 0)` loop of
`findObjectAtOffset`: `off` counts the repetitions that remain after the first call.
Returns `rc`, `hnd`, `cnt` and the module state when the loop is left. -/
def findObjectsLoop {σ τ : Type} (p11 : FindFunctions σ τ) (session : CK_SESSION_HANDLE) :
    Nat → σ → CK_OBJECT_HANDLE → CK_RV × CK_OBJECT_HANDLE × CK_ULONG × σ
  | off, st, hnd =>
    let r := p11.C_FindObjects st session hnd 1
    match off with
    | 0 => r
    | off + 1 =>
      if r.1 = CKR_OK ∧ r.2.2.1 = 1 then findObjectsLoop p11 session off r.2.2.2 r.2.1
      else r

/-- Test helper `findObjectAtOffset` (sc-hsm-pkcs11-test.c), the output to the console
left out.  `hnd` is the value the uninitialized local `hnd` happens to hold and `phnd`
the value `*phnd` holds before the call; returned are the result, `*phnd` after the
call and the module state. -/
def findObjectAtOffset {σ τ : Type} (p11 : FindFunctions σ τ) (st : σ)
    (session : CK_SESSION_HANDLE) (attr : τ) (attrlen : Int) (off : Int)
    (hnd : CK_OBJECT_HANDLE) (phnd : CK_OBJECT_HANDLE) : CK_RV × CK_OBJECT_HANDLE × σ :=
  let r0 := p11.C_FindObjectsInit st session attr attrlen
  if r0.1 ≠ CKR_OK then (r0.1, phnd, r0.2)
  else
    let r := findObjectsLoop p11 session off.toNat r0.2 hnd
    let rf := p11.C_FindObjectsFinal r.2.2.2 session
    if rf.1 ≠ CKR_OK ∨ r.2.2.1 = 0 then (CKR_FUNCTION_FAILED, handleOfInt CK_INVALID_HANDLE, rf.2)
    else (CKR_OK, r.2.1, rf.2)

/-- A module whose search finds the handles in its state one by one. -/
def exFinder : FindFunctions (List CK_OBJECT_HANDLE) Unit :=
  { C_FindObjectsInit := fun st _ _ _ => (CKR_OK, st)
    C_FindObjects := fun st _ hnd _ =>
      match st with
      | [] => (CKR_OK, hnd, 0, [])
      | o :: rest => (CKR_OK, o, 1, rest)
    C_FindObjectsFinal := fun st _ => (CKR_OK, st) }

/-- A module whose `C_FindObjects` fails with a device error and, as a failing Cryptoki
function does, writes neither `*phObject` nor `*pulObjectCount`, while
`C_FindObjectsInit` and `C_FindObjectsFinal` succeed. -/
def exFailingFinder : FindFunctions Unit Unit :=
  { C_FindObjectsInit := fun st _ _ _ => (CKR_OK, st)
    C_FindObjects := fun st _ hnd cnt => (CKR_DEVICE_ERROR, hnd, cnt, st)
    C_FindObjectsFinal := fun st _ => (CKR_OK, st) }

/-- A module with the single object 11 whose `C_FindObjects` delivers it on the first
call and fails with a device error on every later call, writing neither `*phObject`
nor `*pulObjectCount`; the state counts the calls of `C_FindObjects`. -/
def exFlakyFinder : FindFunctions Nat Unit :=
  { C_FindObjectsInit := fun st _ _ _ => (CKR_OK, st)
    C_FindObjects := fun st _ hnd cnt =>
      if st = 0 then (CKR_OK, 11, 1, 1) else (CKR_DEVICE_ERROR, hnd, cnt, st + 1)
    C_FindObjectsFinal := fun st _ => (CKR_OK, st) }

/-- The character `isprint` accepts in the C locale: 0x20 to 0x7E. -/
def isprint (c : Nat) : Bool := decide (0x20 ≤ c ∧ c ≤ 0x7E)

/-- The character code of the hexadecimal digit `n` in upper case. -/
def hexDigit (n : Nat) : Nat := if n < 10 then 48 + n else 55 + n

/-- The bytes `sprintf(st, "%02X", b)` stores for an `unsigned char b`: two upper-case
hexadecimal digits and the terminating NUL. -/
def sprintf02X (b : Nat) : List Nat := [hexDigit (b / 16), hexDigit (b % 16), 0]

/-- Storing `bytes` into the array `buf` from index `pos` on; `none` when a byte would be
stored outside the array. -/
def poke (buf : List Nat) (pos : Nat) (bytes : List Nat) : Option (List Nat) :=
  if pos + bytes.length ≤ buf.length then
    some (buf.take pos ++ bytes ++ buf.drop (pos + bytes.length))
  else none

/-- Reduction of an integer to the range of a C `int` (32 bits, two's complement): the
value an `int` holds after an addition or subtraction whose result left the range.  C
leaves such an overflow undefined; the compilers of the program's targets wrap. -/
def wrapInt32 (x : Int) : Int := (x + 2 ^ 31) % 2 ^ 32 - 2 ^ 31

/-- The `while (i && (stlen > 2))` loop of `bin2str`.  `stlen` is the remaining length
(the loop body is only entered with `stlen` at least 3, so `stlen -= 2` stays in range),
`i` the `int` count of bytes still to encode, `d` the index into `data`, `pos` the index
`st` points to in `buf`.  Returns the remaining length, `ascii`, the array and `pos`
when the loop is left, `none` when a byte is read or stored outside its array. -/
def bin2strLoop (data : List Nat) :
    Nat → Int → Nat → Bool → List Nat → Nat → Option (Nat × Bool × List Nat × Nat)
  | stlen + 3, i, d, ascii, buf, pos =>
    if i = 0 then some (stlen + 3, ascii, buf, pos)
    else
      match data[d]? with
      | none => none
      | some b =>
        match poke buf pos (sprintf02X b) with
        | none => none
        | some buf1 =>
          let ascii1 := if ascii ∧ ¬ isprint b ∧ b ≠ 0 then false else ascii
          bin2strLoop data (stlen + 1) (wrapInt32 (i - 1)) (d + 1) ascii1 buf1 (pos + 2)
  | stlen, _, _, ascii, buf, pos => some (stlen, ascii, buf, pos)

/-- Test helper `bin2str` (sc-hsm-pkcs11-test.c).  `st` is the output array as the caller
allocated it, `stlen` and `datalen` the `int` lengths the caller passes (values of the
range of an `int`).  The sum `datalen + 3` of the test before the quoted copy is an
`int` addition.  Returns the array after the call, `none` when a byte is read or stored
outside an array. -/
def bin2str (st : List Nat) (stlen : Int) (data : List Nat) (datalen : Int) :
    Option (List Nat) :=
  match bin2strLoop data stlen.toNat datalen 0 true st 0 with
  | none => none
  | some (rest, ascii, buf, pos) =>
    let stlen1 : Int := if stlen < 0 then stlen else rest
    if ascii ∧ stlen1 > wrapInt32 (datalen + 3) then
      if datalen < 0 ∨ data.length < datalen.toNat then none
      else
        match poke buf pos ([32, 34] ++ data.take datalen.toNat ++ [34]) with
        | none => none
        | some buf1 => poke buf1 (pos + datalen.toNat + 3) [0]
    else poke buf pos [0]

/-- The sixteen characters "0123456789ABCDEF" as character codes. -/
def hexTable : List Nat := [48, 49, 50, 51, 52, 53, 54, 55, 56, 57, 65, 66, 67, 68, 69, 70]

/-- The upper-case hexadecimal encoding of a sequence of bytes, two characters per byte,
read off the table of digits: what "hexadecimal encoding" says, to compare `bin2str`
with. -/
def hexEncode (data : List Nat) : List Nat :=
  data.flatMap (fun b => [hexTable.getD (b / 16) 0, hexTable.getD (b % 16) 0])

/-- The globals `decodeArgs` assigns (sc-hsm-pkcs11-test.c); `none` is a NULL pointer. -/
structure TestOptions where
  pin : Option String
  pinlen : Nat
  p11libname : Option String
  optTestInsertRemove : Int
  optTestRSADecryption : Int
  optTestPINBlock : Int
  optTestMultiOnly : Int
  optOneThreadPerToken : Int
  optMaxParallelThreads : Int
  optThreadTestTime : Int
deriving DecidableEq, Repr

/-- How a run of `decodeArgs` ends: it returns with the globals set; it prints a message
and calls `exit(1)`; it calls `usage()`, after an "Unknown argument" message or without
one; or it leaves defined behaviour, by passing the NULL that terminates `argv` to
`strlen` or `strcmp`, or by reading `argv` past that NULL. -/
inductive ArgsOutcome where
  | returned (g : TestOptions)
  | exit1 (message : String)
  | usage (unknown : Option String)
  | undefinedBehaviour
deriving DecidableEq, Repr

/-- The branch of the `if (!strcmp(*argv, ...)) ... else if ...` chain of `decodeArgs`
that an argument selects; the comparisons are made in the order of the source. -/
inductive ArgBranch where
  | pin | module | testInsertRemove | testRsaDecryption | testPinBlock
  | testMultithreadingOnly | oneThreadPerToken | maxParallelThreads | threadTestTime
  | unknownArgument
deriving DecidableEq, Repr

/-- The chain of `strcmp` tests of `decodeArgs`, first match first. -/
def argBranch (a : String) : ArgBranch :=
  if a = "--pin" then .pin
  else if a = "--module" then .module
  else if a = "--test-insert-remove" then .testInsertRemove
  else if a = "--test-rsa-decryption" then .testRsaDecryption
  else if a = "--test-pin-block" then .testPinBlock
  else if a = "--test-multithreading-only" then .testMultithreadingOnly
  else if a = "--one-thread-per-token" then .oneThreadPerToken
  else if a = "--max-parallel-threads" then .maxParallelThreads
  else if a = "--thread-test-time" then .threadTestTime
  else .unknownArgument

/-- The `for ( ; argc--; argv++)` loop of `decodeArgs`.  `rest` holds the strings from
`*argv` up to the NULL that terminates the argument vector, so `[]` means that `argv`
points to that NULL.  `atoi` is the C library function. -/
def decodeArgsLoop (atoi : String → Int) : Int → List String → TestOptions → ArgsOutcome
  | argc, rest, g =>
    if argc = 0 then .returned g
    else
      let argc := argc - 1
      match rest with
      | [] => .undefinedBehaviour
      | a :: rest1 =>
        match argBranch a with
        | .pin =>
          if argc < 0 then .exit1 "Argument for --pin missing\n"
          else
            match rest1 with
            | [] => .undefinedBehaviour
            | v :: rest2 =>
              decodeArgsLoop atoi (argc - 1) rest2
                { g with pin := some v, pinlen := v.utf8ByteSize }
        | .module =>
          if argc < 0 then .exit1 "Argument for --module missing\n"
          else
            match rest1 with
            | [] =>
              if argc - 1 = 0 then .returned { g with p11libname := none }
              else .undefinedBehaviour
            | v :: rest2 => decodeArgsLoop atoi (argc - 1) rest2 { g with p11libname := some v }
        | .testInsertRemove => decodeArgsLoop atoi argc rest1 { g with optTestInsertRemove := 1 }
        | .testRsaDecryption => decodeArgsLoop atoi argc rest1 { g with optTestRSADecryption := 1 }
        | .testPinBlock => decodeArgsLoop atoi argc rest1 { g with optTestPINBlock := 1 }
        | .testMultithreadingOnly => decodeArgsLoop atoi argc rest1 { g with optTestMultiOnly := 1 }
        | .oneThreadPerToken => decodeArgsLoop atoi argc rest1 { g with optOneThreadPerToken := 1 }
        | .maxParallelThreads =>
          if argc = 0 then .usage none
          else
            match rest1 with
            | [] => .undefinedBehaviour
            | v :: rest2 =>
              decodeArgsLoop atoi (argc - 1) rest2 { g with optMaxParallelThreads := atoi v }
        | .threadTestTime =>
          if argc = 0 then .usage none
          else
            match rest1 with
            | [] => .undefinedBehaviour
            | v :: rest2 =>
              decodeArgsLoop atoi (argc - 1) rest2 { g with optThreadTestTime := atoi v * 1000 }
        | .unknownArgument => .usage (some a)

/-- Test harness `decodeArgs` (sc-hsm-pkcs11-test.c): `argv` holds the `argc` strings of
the command line, the program name first; the NULL behind them is implicit. -/
def decodeArgs (atoi : String → Int) (argc : Int) (argv : List String) (g : TestOptions) :
    ArgsOutcome :=
  decodeArgsLoop atoi (argc - 1) (argv.drop 1) g

/-- The globals of the test program with their initial values (lines 321 to 341). -/
def exOptions : TestOptions :=
  { pin := some "123456", pinlen := 6, p11libname := some "libsc-hsm-pkcs11.so"
    optTestInsertRemove := 0, optTestRSADecryption := 0, optTestPINBlock := 0
    optTestMultiOnly := 0, optOneThreadPerToken := 0, optMaxParallelThreads := 10
    optThreadTestTime := 10000 }

/-! ## Lemmas on the session pool -/

theorem find?_storeSession (pool : List p11Session_t) (s : p11Session_t) (h : CK_SESSION_HANDLE) :
    (storeSession pool s).find? (fun t => t.handle == h) =
      if s.handle = h then (pool.find? (fun t => t.handle == h)).map (fun _ => s)
      else pool.find? (fun t => t.handle == h) := by
  induction pool with
  | nil => simp [storeSession]
  | cons t rest ih =>
    by_cases hts : t.handle = s.handle
    · have e1 : (t.handle == s.handle) = true := by simpa using hts
      by_cases hsh : s.handle = h
      · have e2 : (s.handle == h) = true := by simpa using hsh
        have e3 : (t.handle == h) = true := by simpa using hts.trans hsh
        simp [storeSession, e1, e2, e3, hsh, List.find?_cons]
      · have e2 : (s.handle == h) = false := by simpa using hsh
        have e3 : (t.handle == h) = false := by
          simpa using fun e : t.handle = h => hsh (hts.symm.trans e)
        simp [storeSession, e1, e2, e3, hsh, List.find?_cons]
    · have e1 : (t.handle == s.handle) = false := by simpa using hts
      by_cases hth : t.handle = h
      · have e3 : (t.handle == h) = true := by simpa using hth
        have hsh : ¬ s.handle = h := fun e => hts (hth.trans e.symm)
        simp [storeSession, e1, e3, hsh, List.find?_cons]
      · have e3 : (t.handle == h) = false := by simpa using hth
        simp [storeSession, e1, e3, List.find?_cons, ih]

@[simp] theorem World.session?_log (w : World) (c : CapCall) (h : CK_SESSION_HANDLE) :
    (w.log c).session? h = w.session? h := rfl

@[simp] theorem World.context_log (w : World) (c : CapCall) : (w.log c).context = w.context := rfl

@[simp] theorem World.trace_store (w : World) (s : p11Session_t) : (w.store s).trace = w.trace := by
  unfold World.store; cases w.context <;> rfl

theorem World.session?_store (w : World) (s : p11Session_t) (h : CK_SESSION_HANDLE) :
    (w.store s).session? h =
      if s.handle = h then (w.session? h).map (fun _ => s) else w.session? h := by
  unfold World.store World.session?
  cases hc : w.context with
  | none => simp [hc]
  | some ctx => simp [find?_storeSession]

theorem safeFind_ok {sp : List p11Session_t} {slp : List p11Slot_t} {h : CK_SESSION_HANDLE}
    {s : p11Session_t} {sl : p11Slot_t}
    (hs : safeFindSessionAndLockSlot sp slp h = .ok (s, sl)) :
    sp.find? (fun t => t.handle == h) = some s ∧ s.handle = h := by
  unfold safeFindSessionAndLockSlot at hs
  cases hf : sp.find? (fun t => t.handle == h) with
  | none => simp [hf] at hs
  | some s0 =>
    simp only [hf] at hs
    cases hg : slp.find? (fun sl => sl.id == s0.slotID) with
    | none => simp [hg] at hs
    | some sl0 =>
      simp only [hg] at hs
      injection hs with hs
      injection hs with h1 h2
      subst h1
      refine ⟨rfl, ?_⟩
      have := List.find?_some hf
      simpa using this

theorem session?_of_safeFind {w : World} {ctx : p11Context_t} {h : CK_SESSION_HANDLE}
    {s : p11Session_t} {sl : p11Slot_t} (hctx : w.context = some ctx)
    (hs : safeFindSessionAndLockSlot ctx.sessionPool ctx.slotPool h = .ok (s, sl)) :
    w.session? h = some s ∧ s.handle = h := by
  have := safeFind_ok hs
  simp [World.session?, hctx, this.1, this.2]

theorem storeSession_self (pool : List p11Session_t) (s : p11Session_t) (h : CK_SESSION_HANDLE)
    (hf : pool.find? (fun t => t.handle == h) = some s) : storeSession pool s = pool := by
  induction pool with
  | nil => simp at hf
  | cons t rest ih =>
    have hsh : s.handle = h := by simpa using List.find?_some hf
    by_cases hth : t.handle = h
    · have e3 : (t.handle == h) = true := by simpa using hth
      have hts : t = s := by simpa [List.find?_cons, e3] using hf
      subst hts
      simp [storeSession]
    · have e3 : (t.handle == h) = false := by simpa using hth
      have e1 : (t.handle == s.handle) = false := by simpa [hsh] using hth
      have hrest : rest.find? (fun t => t.handle == h) = some s := by
        simpa [List.find?_cons, e3] using hf
      simp [storeSession, e1, ih hrest]

theorem World.Resolves.session? {w : World} {h : CK_SESSION_HANDLE} {s : p11Session_t}
    {sl : p11Slot_t} (hr : w.Resolves h s sl) : w.session? h = some s ∧ s.handle = h := by
  obtain ⟨ctx, hctx, hs⟩ := hr
  exact session?_of_safeFind hctx hs

theorem World.Resolves.log {w : World} {h : CK_SESSION_HANDLE} {s : p11Session_t}
    {sl : p11Slot_t} (hr : w.Resolves h s sl) (c : CapCall) : (w.log c).Resolves h s sl := hr

theorem World.Resolves.store_self {w : World} {h : CK_SESSION_HANDLE} {s : p11Session_t}
    {sl : p11Slot_t} (hr : w.Resolves h s sl) : w.store s = w := by
  obtain ⟨ctx, hctx, hs⟩ := hr
  have hf := (safeFind_ok hs).1
  obtain ⟨c, m, t⟩ := w
  simp only at hctx
  subst hctx
  simp [World.store, storeSession_self _ _ _ hf]

theorem World.Resolves.store {w : World} {h : CK_SESSION_HANDLE} {s : p11Session_t}
    {sl : p11Slot_t} (hr : w.Resolves h s sl) (s' : p11Session_t) (hh : s'.handle = s.handle)
    (hsl : s'.slotID = s.slotID) : (w.store s').Resolves h s' sl := by
  obtain ⟨ctx, hctx, hs⟩ := hr
  have hf := safeFind_ok hs
  refine ⟨{ ctx with sessionPool := storeSession ctx.sessionPool s' }, ?_, ?_⟩
  · simp [World.store, hctx]
  · unfold safeFindSessionAndLockSlot at hs ⊢
    simp only [hf.1] at hs
    simp only [find?_storeSession, hh, hf.2, hf.1, if_true, Option.map_some', hsl]
    cases hg : ctx.slotPool.find? (fun sl => sl.id == s.slotID) with
    | none => simp [hg] at hs
    | some sl0 =>
      simp only [hg] at hs ⊢
      injection hs with hs
      injection hs with h1 h2
      rw [h2]

theorem World.Resolves.unique {w : World} {h : CK_SESSION_HANDLE} {s s' : p11Session_t}
    {sl sl' : p11Slot_t} (hr : w.Resolves h s sl) (hr' : w.Resolves h s' sl') :
    s' = s ∧ sl' = sl := by
  obtain ⟨ctx, hctx, hs⟩ := hr
  obtain ⟨ctx', hctx', hs'⟩ := hr'
  rw [hctx] at hctx'
  injection hctx' with e
  subst e
  rw [hs] at hs'
  injection hs' with e
  injection e with e1 e2
  exact ⟨e1.symm, e2.symm⟩

/-! ## Claims -/

/-- C1 (init gate): when the module is not initialized (`context` is `NULL`), every entry
point of p11mechanisms.c, called with any arguments, returns
CKR_CRYPTOKI_NOT_INITIALIZED and leaves the module state, the trace of capability
invocations included, exactly as it was. -/
theorem C1_init_gate (w : World) (c : Call) (h : w.context = none) :
    step w c = (CKR_CRYPTOKI_NOT_INITIALIZED, w) := by
  cases c <;> simp [step, C_EncryptInit, C_Encrypt, C_EncryptUpdate, C_EncryptFinal,
    C_DecryptInit, C_Decrypt, C_DecryptUpdate, C_DecryptFinal, C_DigestInit, C_Digest,
    C_DigestUpdate, C_DigestKey, C_DigestFinal, C_SignInit, C_Sign, C_SignUpdate, C_SignFinal,
    C_SignRecoverInit, C_SignRecover, C_VerifyInit, C_Verify, C_VerifyUpdate, C_VerifyFinal,
    C_VerifyRecoverInit, C_VerifyRecover, C_DigestEncryptUpdate, C_DecryptDigestUpdate,
    C_SignEncryptUpdate, C_DecryptVerifyUpdate, C_GenerateKey, C_GenerateKeyPair, C_WrapKey,
    C_UnwrapKey, C_DeriveKey, C_SeedRandom, C_GenerateRandom, C_GetFunctionStatus,
    C_CancelFunction, h]

/-- Witness of C1: C_EncryptInit on an uninitialized module with a session handle that
cannot resolve. -/
theorem C1_init_gate_witness :
    step exUninitialized (Call.EncryptInit 4711 exMechAes 7) =
      (CKR_CRYPTOKI_NOT_INITIALIZED, exUninitialized) :=
  C1_init_gate exUninitialized (Call.EncryptInit 4711 exMechAes 7) rfl

/-- C2 (at most one active operation): with the module initialized, on a session that is
Active each of C_EncryptInit, C_DecryptInit and C_SignInit returns CKR_OPERATION_ACTIVE
for every mechanism and every key handle and leaves the whole module state unchanged:
no capability is invoked and no session field is written. -/
theorem C2_init_while_active (w : World) (hSession : CK_SESSION_HANDLE)
    (session : p11Session_t) (slot : p11Slot_t) (hr : w.Resolves hSession session slot)
    (hact : session.Active) (pMechanism : CK_MECHANISM) (hKey : CK_OBJECT_HANDLE) :
    C_EncryptInit w hSession pMechanism hKey = (CKR_OPERATION_ACTIVE, w) ∧
    C_DecryptInit w hSession pMechanism hKey = (CKR_OPERATION_ACTIVE, w) ∧
    C_SignInit w hSession pMechanism hKey = (CKR_OPERATION_ACTIVE, w) := by
  obtain ⟨ctx, hctx, hs⟩ := hr
  unfold p11Session_t.Active at hact
  simp [C_EncryptInit, C_DecryptInit, C_SignInit, hctx, hs, hact]

/-- Witness of C2: the example session with an operation on key 5 recorded; the key handle
12345 given to the second Init does not even resolve. -/
theorem C2_init_while_active_witness :
    C_EncryptInit (exWorld (exActive 5)) 100 exMechAes 12345
      = (CKR_OPERATION_ACTIVE, exWorld (exActive 5)) ∧
    C_DecryptInit (exWorld (exActive 5)) 100 exMechAes 12345
      = (CKR_OPERATION_ACTIVE, exWorld (exActive 5)) ∧
    C_SignInit (exWorld (exActive 5)) 100 exMechAes 12345
      = (CKR_OPERATION_ACTIVE, exWorld (exActive 5)) :=
  C2_init_while_active (exWorld (exActive 5)) 100 (exActive 5) exSlot
    ⟨exContext (exActive 5), rfl, rfl⟩ (by decide) exMechAes 12345

/-- C3 (no init, no operation): with the module initialized, on a session that is Idle
each of the nine Update, Final and single-shot entry points of the Encrypt, Decrypt and
Sign families returns CKR_OPERATION_NOT_INITIALIZED for all data and output arguments
and leaves the whole module state unchanged: no capability is invoked, the session
stays Idle and its crypto buffer is untouched. -/
theorem C3_no_init_no_op (w : World) (hSession : CK_SESSION_HANDLE)
    (session : p11Session_t) (slot : p11Slot_t) (hr : w.Resolves hSession session slot)
    (hidle : session.Idle) (pIn : CK_BYTE_PTR) (ulInLen : CK_ULONG) (pOut : CK_BYTE_PTR)
    (pulOutLen : CK_ULONG_PTR) :
    C_Encrypt w hSession pIn ulInLen pOut pulOutLen = (CKR_OPERATION_NOT_INITIALIZED, w) ∧
    C_EncryptUpdate w hSession pIn ulInLen pOut pulOutLen = (CKR_OPERATION_NOT_INITIALIZED, w) ∧
    C_EncryptFinal w hSession pOut pulOutLen = (CKR_OPERATION_NOT_INITIALIZED, w) ∧
    C_Decrypt w hSession pIn ulInLen pOut pulOutLen = (CKR_OPERATION_NOT_INITIALIZED, w) ∧
    C_DecryptUpdate w hSession pIn ulInLen pOut pulOutLen = (CKR_OPERATION_NOT_INITIALIZED, w) ∧
    C_DecryptFinal w hSession pOut pulOutLen = (CKR_OPERATION_NOT_INITIALIZED, w) ∧
    C_Sign w hSession pIn ulInLen pOut pulOutLen = (CKR_OPERATION_NOT_INITIALIZED, w) ∧
    C_SignUpdate w hSession pIn ulInLen = (CKR_OPERATION_NOT_INITIALIZED, w) ∧
    C_SignFinal w hSession pOut pulOutLen = (CKR_OPERATION_NOT_INITIALIZED, w) := by
  obtain ⟨ctx, hctx, hs⟩ := hr
  unfold p11Session_t.Idle at hidle
  simp [C_Encrypt, C_EncryptUpdate, C_EncryptFinal, C_Decrypt, C_DecryptUpdate, C_DecryptFinal,
    C_Sign, C_SignUpdate, C_SignFinal, hctx, hs, hidle]

/-- Witness of C3: the fresh example session, with null and with non-null arguments. -/
theorem C3_no_init_no_op_witness :
    C_Encrypt (exWorld exSession) 100 (some [1, 2]) 2 none (some 0)
      = (CKR_OPERATION_NOT_INITIALIZED, exWorld exSession) ∧
    C_EncryptUpdate (exWorld exSession) 100 (some [1, 2]) 2 none (some 0)
      = (CKR_OPERATION_NOT_INITIALIZED, exWorld exSession) ∧
    C_EncryptFinal (exWorld exSession) 100 none (some 0)
      = (CKR_OPERATION_NOT_INITIALIZED, exWorld exSession) ∧
    C_Decrypt (exWorld exSession) 100 (some [1, 2]) 2 none (some 0)
      = (CKR_OPERATION_NOT_INITIALIZED, exWorld exSession) ∧
    C_DecryptUpdate (exWorld exSession) 100 (some [1, 2]) 2 none (some 0)
      = (CKR_OPERATION_NOT_INITIALIZED, exWorld exSession) ∧
    C_DecryptFinal (exWorld exSession) 100 none (some 0)
      = (CKR_OPERATION_NOT_INITIALIZED, exWorld exSession) ∧
    C_Sign (exWorld exSession) 100 (some [1, 2]) 2 none (some 0)
      = (CKR_OPERATION_NOT_INITIALIZED, exWorld exSession) ∧
    C_SignUpdate (exWorld exSession) 100 (some [1, 2]) 2
      = (CKR_OPERATION_NOT_INITIALIZED, exWorld exSession) ∧
    C_SignFinal (exWorld exSession) 100 none (some 0)
      = (CKR_OPERATION_NOT_INITIALIZED, exWorld exSession) :=
  C3_no_init_no_op (exWorld exSession) 100 exSession exSlot ⟨exContext exSession, rfl, rfl⟩
    (by decide) (some [1, 2]) 2 none (some 0)

/-- C4 (successful Init records the operation), evaluated where the code departs from it:
on the fresh example session C_EncryptInit with mechanism CKM_AES_ECB and key 7
returns CKR_OK and records the key handle 7, but activeMechanism keeps its old value 0
instead of 0x1081; C_DecryptInit and C_SignInit with mechanism CKM_RSA_PKCS and key 5
record both the handle 5 and the mechanism 1. -/
theorem C4_encryptInit_keeps_old_mechanism :
    (C_EncryptInit (exWorld exSession) 100 exMechAes 7).1 = CKR_OK ∧
    ((C_EncryptInit (exWorld exSession) 100 exMechAes 7).2.session? 100).map
        (fun s => (s.activeObjectHandle, s.activeMechanism)) = some (7, 0) ∧
    exMechAes.mechanism = 0x1081 ∧
    (C_DecryptInit (exWorld exSession) 100 exMechRsa 5).1 = CKR_OK ∧
    ((C_DecryptInit (exWorld exSession) 100 exMechRsa 5).2.session? 100).map
        (fun s => (s.activeObjectHandle, s.activeMechanism)) = some (5, 1) ∧
    (C_SignInit (exWorld exSession) 100 exMechRsa 5).1 = CKR_OK ∧
    ((C_SignInit (exWorld exSession) 100 exMechRsa 5).2.session? 100).map
        (fun s => (s.activeObjectHandle, s.activeMechanism)) = some (5, 1) := by
  refine ⟨rfl, ?_, rfl, rfl, ?_, rfl, ?_⟩ <;> decide

theorem findSlotObject_unresolved {slot : p11Slot_t} {hKey : CK_OBJECT_HANDLE}
    (hk : ∀ o ∈ slot.objects, o.handle ≠ hKey) (flag : Bool) :
    findSlotObject slot hKey flag = .error CKR_OBJECT_HANDLE_INVALID := by
  have hnone : slot.objects.find? (fun o => o.handle == hKey) = none := by
    rw [List.find?_eq_none]
    intro o ho
    simpa using hk o ho
  simp [findSlotObject, hnone]

/-- C5 (invalid key at Init): with the module initialized, on an Idle session each of
C_EncryptInit, C_DecryptInit and C_SignInit called with a key handle that no object of
the slot carries fails with CKR_OBJECT_HANDLE_INVALID and leaves the whole module state
unchanged: no capability is invoked, the session stays Idle, activeMechanism and the
crypto buffer keep their values. -/
theorem C5_invalid_key_at_init (w : World) (hSession : CK_SESSION_HANDLE)
    (session : p11Session_t) (slot : p11Slot_t) (hr : w.Resolves hSession session slot)
    (hidle : session.Idle) (pMechanism : CK_MECHANISM) (hKey : CK_OBJECT_HANDLE)
    (hk : ∀ o ∈ slot.objects, o.handle ≠ hKey) :
    C_EncryptInit w hSession pMechanism hKey = (CKR_OBJECT_HANDLE_INVALID, w) ∧
    C_DecryptInit w hSession pMechanism hKey = (CKR_OBJECT_HANDLE_INVALID, w) ∧
    C_SignInit w hSession pMechanism hKey = (CKR_OBJECT_HANDLE_INVALID, w) := by
  obtain ⟨ctx, hctx, hs⟩ := hr
  unfold p11Session_t.Idle at hidle
  simp [C_EncryptInit, C_DecryptInit, C_SignInit, hctx, hs, hidle,
    findSlotObject_unresolved hk]

/-- Witness of C5: key handle 12345 is not in the example slot. -/
theorem C5_invalid_key_at_init_witness :
    C_EncryptInit (exWorld exSession) 100 exMechAes 12345
      = (CKR_OBJECT_HANDLE_INVALID, exWorld exSession) ∧
    C_DecryptInit (exWorld exSession) 100 exMechAes 12345
      = (CKR_OBJECT_HANDLE_INVALID, exWorld exSession) ∧
    C_SignInit (exWorld exSession) 100 exMechAes 12345
      = (CKR_OBJECT_HANDLE_INVALID, exWorld exSession) :=
  C5_invalid_key_at_init (exWorld exSession) 100 exSession exSlot
    ⟨exContext exSession, rfl, rfl⟩ (by decide) exMechAes 12345 (by simp [exSlot, exSignKey, exCipherKey, exBrokenKey, exBare])

/-- C6 (failed Init stays Idle): on an Idle session and a key handle that resolves to
`object`, for each family: if the object has no native Init the call returns
CKR_FUNCTION_NOT_SUPPORTED, and if the native Init returns a non-zero code the call
returns that code; in both cases the module context is unchanged, so the session is
still Idle and activeObjectHandle, activeMechanism and the crypto buffer keep their
values. -/
theorem C6_failed_init_stays_idle (w : World) (hSession : CK_SESSION_HANDLE)
    (session : p11Session_t) (slot : p11Slot_t) (hr : w.Resolves hSession session slot)
    (hidle : session.Idle) (pMechanism : CK_MECHANISM) (hKey : CK_OBJECT_HANDLE)
    (object : p11Object_t) (hk : findSlotObject slot hKey false = .ok object) :
    (object.C_EncryptInit = none →
      (C_EncryptInit w hSession pMechanism hKey).1 = CKR_FUNCTION_NOT_SUPPORTED ∧
      (C_EncryptInit w hSession pMechanism hKey).2 = w) ∧
    (∀ f, object.C_EncryptInit = some f → f w.trace pMechanism ≠ 0 →
      (C_EncryptInit w hSession pMechanism hKey).1 = f w.trace pMechanism ∧
      (C_EncryptInit w hSession pMechanism hKey).2.context = w.context ∧
      (C_EncryptInit w hSession pMechanism hKey).2.session? hSession = some session) ∧
    (object.C_DecryptInit = none →
      (C_DecryptInit w hSession pMechanism hKey).1 = CKR_FUNCTION_NOT_SUPPORTED ∧
      (C_DecryptInit w hSession pMechanism hKey).2 = w) ∧
    (∀ f, object.C_DecryptInit = some f → f w.trace pMechanism ≠ 0 →
      (C_DecryptInit w hSession pMechanism hKey).1 = f w.trace pMechanism ∧
      (C_DecryptInit w hSession pMechanism hKey).2.context = w.context ∧
      (C_DecryptInit w hSession pMechanism hKey).2.session? hSession = some session) ∧
    (object.C_SignInit = none →
      (C_SignInit w hSession pMechanism hKey).1 = CKR_FUNCTION_NOT_SUPPORTED ∧
      (C_SignInit w hSession pMechanism hKey).2 = w) ∧
    (∀ f, object.C_SignInit = some f → f w.trace pMechanism ≠ 0 →
      (C_SignInit w hSession pMechanism hKey).1 = f w.trace pMechanism ∧
      (C_SignInit w hSession pMechanism hKey).2.context = w.context ∧
      (C_SignInit w hSession pMechanism hKey).2.session? hSession = some session) := by
  obtain ⟨ctx, hctx, hs⟩ := hr
  unfold p11Session_t.Idle at hidle
  have hsess := (session?_of_safeFind hctx hs).1
  refine ⟨?_, ?_, ?_, ?_, ?_, ?_⟩
  · intro hn; simp [C_EncryptInit, hctx, hs, hidle, hk, hn]
  · intro f hf hr; simp [C_EncryptInit, hctx, hs, hidle, hk, hf, hr, hsess]
  · intro hn; simp [C_DecryptInit, hctx, hs, hidle, hk, hn]
  · intro f hf hr; simp [C_DecryptInit, hctx, hs, hidle, hk, hf, hr, hsess]
  · intro hn; simp [C_SignInit, hctx, hs, hidle, hk, hn]
  · intro f hf hr; simp [C_SignInit, hctx, hs, hidle, hk, hf, hr, hsess]

/-- Witness of C6: key 8 of the example slot, whose device fails every Init with
CKR_DEVICE_ERROR; the session is the fresh one afterwards. -/
theorem C6_failed_init_stays_idle_witness :
    (C_EncryptInit (exWorld exSession) 100 exMechAes 8).1 = CKR_DEVICE_ERROR ∧
    (C_EncryptInit (exWorld exSession) 100 exMechAes 8).2.session? 100 = some exSession ∧
    (C_DecryptInit (exWorld exSession) 100 exMechAes 8).1 = CKR_DEVICE_ERROR ∧
    (C_DecryptInit (exWorld exSession) 100 exMechAes 8).2.session? 100 = some exSession ∧
    (C_SignInit (exWorld exSession) 100 exMechAes 8).1 = CKR_DEVICE_ERROR ∧
    (C_SignInit (exWorld exSession) 100 exMechAes 8).2.session? 100 = some exSession :=
  have h := C6_failed_init_stays_idle (exWorld exSession) 100 exSession exSlot
    ⟨exContext exSession, rfl, rfl⟩ (by decide) exMechAes 8 exBrokenKey rfl
  have he := h.2.1 _ rfl (by decide)
  have hd := h.2.2.2.1 _ rfl (by decide)
  have hg := h.2.2.2.2.2 _ rfl (by decide)
  ⟨he.1, he.2.2, hd.1, hd.2.2, hg.1, hg.2.2⟩

/-- C7 (query then commit): for an Active session whose active object resolves, after
single-shot C_Decrypt (respectively C_Sign) the session is Idle if and only if the output
pointer was non-null, whatever the object is (capability present or absent) and
whatever its capability returns.  In particular C_Decrypt with a null output leaves the
session Active, and a following C_Decrypt with a real buffer leaves it Idle. -/
theorem C7_query_then_commit (w : World) (hSession : CK_SESSION_HANDLE)
    (session : p11Session_t) (slot : p11Slot_t) (hr : w.Resolves hSession session slot)
    (hact : session.Active) (object : p11Object_t)
    (hobj : activeObject slot session = .ok object)
    (pIn : CK_BYTE_PTR) (ulInLen : CK_ULONG) (pOut : CK_BYTE_PTR) (pulOutLen : CK_ULONG_PTR) :
    (∃ s', (C_Decrypt w hSession pIn ulInLen pOut pulOutLen).2.session? hSession = some s' ∧
      (s'.Idle ↔ pOut ≠ none)) ∧
    (∃ s', (C_Sign w hSession pIn ulInLen pOut pulOutLen).2.session? hSession = some s' ∧
      (s'.Idle ↔ pOut ≠ none)) ∧
    (∀ (pIn2 : CK_BYTE_PTR) (ulInLen2 : CK_ULONG) (buf : List CK_BYTE) (pulOutLen2 : CK_ULONG_PTR),
      (∃ s1, (C_Decrypt w hSession pIn ulInLen none pulOutLen).2.session? hSession = some s1 ∧
        s1.Active) ∧
      (∃ s2, (C_Decrypt (C_Decrypt w hSession pIn ulInLen none pulOutLen).2 hSession
          pIn2 ulInLen2 (some buf) pulOutLen2).2.session? hSession = some s2 ∧ s2.Idle)) := by
  have key : ∀ (w : World), w.Resolves hSession session slot →
      ∀ (pIn : CK_BYTE_PTR) (ulInLen : CK_ULONG) (pOut : CK_BYTE_PTR) (pulOutLen : CK_ULONG_PTR),
      (C_Decrypt w hSession pIn ulInLen pOut pulOutLen).2.session? hSession =
        some (if pOut.isSome then { session with activeObjectHandle := CK_INVALID_HANDLE }
          else session) ∧
      (C_Sign w hSession pIn ulInLen pOut pulOutLen).2.session? hSession =
        some (if pOut.isSome then { session with activeObjectHandle := CK_INVALID_HANDLE }
          else session) ∧
      (pOut = none → (C_Decrypt w hSession pIn ulInLen pOut pulOutLen).2.Resolves
        hSession session slot) := by
    intro w hr pIn ulInLen pOut pulOutLen
    have hsess := hr.session?
    have hself := hr.store_self
    obtain ⟨ctx, hctx, hs⟩ := id hr
    unfold p11Session_t.Active at hact
    unfold activeObject at hobj
    refine ⟨?_, ?_, ?_⟩
    · cases hcap : object.C_Decrypt <;> cases pOut <;>
        simp [C_Decrypt, hctx, hs, hact, hobj, hcap, World.session?_store, hsess, hself]
    · cases hcap : object.C_Sign <;> cases pOut <;>
        simp [C_Sign, hctx, hs, hact, hobj, hcap, World.session?_store, hsess, hself]
    · intro hnone
      subst hnone
      cases hcap : object.C_Decrypt <;>
        simp [C_Decrypt, hctx, hs, hact, hobj, hcap, hself]
      · exact hr
      · exact hr.log _
  have hidle : ∀ pOut : CK_BYTE_PTR,
      ((if pOut.isSome then { session with activeObjectHandle := CK_INVALID_HANDLE }
        else session).Idle ↔ pOut ≠ none) := by
    intro pOut
    cases pOut with
    | none => simpa [p11Session_t.Idle] using hact
    | some b => simp [p11Session_t.Idle]
  refine ⟨⟨_, (key w hr pIn ulInLen pOut pulOutLen).1, hidle pOut⟩,
    ⟨_, (key w hr pIn ulInLen pOut pulOutLen).2.1, hidle pOut⟩, ?_⟩
  intro pIn2 ulInLen2 buf pulOutLen2
  have h1 := key w hr pIn ulInLen none pulOutLen
  have h2 := key _ (h1.2.2 rfl) pIn2 ulInLen2 (some buf) pulOutLen2
  refine ⟨⟨_, h1.1, ?_⟩, ⟨_, h2.1, ?_⟩⟩
  · simpa using hact
  · simp [p11Session_t.Idle]

/-- Witness of C7: the state reached by C_DecryptInit with key 5 on the fresh example
session; a length query with a null output leaves the session Active, the call with a
real buffer that follows leaves it Idle. -/
theorem C7_query_then_commit_witness :
    (∃ s1, (C_Decrypt (C_DecryptInit (exWorld exSession) 100 exMechRsa 5).2 100
        (some [1, 2]) 2 none (some 0)).2.session? 100 = some s1 ∧ s1.Active) ∧
    (∃ s2, (C_Decrypt (C_Decrypt (C_DecryptInit (exWorld exSession) 100 exMechRsa 5).2 100
        (some [1, 2]) 2 none (some 0)).2 100
        (some [1, 2]) 2 (some [0, 0]) (some 2)).2.session? 100 = some s2 ∧ s2.Idle) :=
  (C7_query_then_commit (C_DecryptInit (exWorld exSession) 100 exMechRsa 5).2 100 exRsaActive
    exSlot ⟨exContext exRsaActive, rfl, rfl⟩ (by decide) exSignKey rfl (some [1, 2]) 2 none
    (some 0)).2.2 (some [1, 2]) 2 [0, 0] (some 2)

/-! ## Which calls leave an Active session Active -/

theorem appendToCryptoBuffer_frame (m : CK_ULONG → Bool) (s : p11Session_t) (d : CK_BYTE_PTR)
    (n : CK_ULONG) :
    (appendToCryptoBuffer m s d n).2.handle = s.handle ∧
    (appendToCryptoBuffer m s d n).2.slotID = s.slotID ∧
    (appendToCryptoBuffer m s d n).2.activeObjectHandle = s.activeObjectHandle ∧
    (appendToCryptoBuffer m s d n).2.activeMechanism = s.activeMechanism := by
  unfold appendToCryptoBuffer
  split_ifs <;> simp

theorem resolved_vs_found {w : World} {ctx : p11Context_t} {h h' : CK_SESSION_HANDLE}
    {s s2 : p11Session_t} {sl2 : p11Slot_t} (hc : w.context = some ctx)
    (hsf : safeFindSessionAndLockSlot ctx.sessionPool ctx.slotPool h' = .ok (s2, sl2))
    (hw : w.session? h = some s) : s2.handle = h' ∧ s.handle = h ∧ (h' = h → s2 = s) := by
  have hf := safeFind_ok hsf
  have hw' : ctx.sessionPool.find? (fun t => t.handle == h) = some s := by
    simpa [World.session?, hc] using hw
  refine ⟨hf.2, by simpa using List.find?_some hw', ?_⟩
  intro e
  subst e
  rw [hf.1] at hw'
  exact Option.some.inj hw'

theorem session?_congr {w w' : World} (e : w'.context = w.context) (h : CK_SESSION_HANDLE) :
    w'.session? h = w.session? h := by
  unfold World.session?; rw [e]

theorem C_EncryptInit_keeps (w : World) (h : CK_SESSION_HANDLE) (s : p11Session_t)
    (hw : w.session? h = some s) (hact : s.Active)
    (h' : CK_SESSION_HANDLE) (m : CK_MECHANISM) (k : CK_OBJECT_HANDLE) :
    (C_EncryptInit w h' m k).2.session? h = some s := by
  cases hc : w.context with
  | none => simp [World.session?, hc] at hw
  | some ctx =>
    cases hsf : safeFindSessionAndLockSlot ctx.sessionPool ctx.slotPool h' with
    | error e => simpa [C_EncryptInit, hc, hsf] using hw
    | ok p =>
      obtain ⟨s2, sl2⟩ := p
      obtain ⟨h2, h1, heq⟩ := resolved_vs_found hc hsf hw
      by_cases hidle : s2.activeObjectHandle = CK_INVALID_HANDLE
      · have hne : ¬ h' = h := fun e => hact (by rw [← heq e]; exact hidle)
        have hne' : ¬ s2.handle = h := by rw [h2]; exact hne
        cases hobj : findSlotObject sl2 k false with
        | error e => simpa [C_EncryptInit, hc, hsf, hidle, hobj] using hw
        | ok object =>
          cases hcap : object.C_EncryptInit with
          | none => simpa [C_EncryptInit, hc, hsf, hidle, hobj, hcap] using hw
          | some f =>
            by_cases hrv : f w.trace m = 0 <;>
              simp [C_EncryptInit, hc, hsf, hidle, hobj, hcap, hrv, World.session?_store, hne', hw]
      · simpa [C_EncryptInit, hc, hsf, hidle] using hw

theorem C_DecryptInit_keeps (w : World) (h : CK_SESSION_HANDLE) (s : p11Session_t)
    (hw : w.session? h = some s) (hact : s.Active)
    (h' : CK_SESSION_HANDLE) (m : CK_MECHANISM) (k : CK_OBJECT_HANDLE) :
    (C_DecryptInit w h' m k).2.session? h = some s := by
  cases hc : w.context with
  | none => simp [World.session?, hc] at hw
  | some ctx =>
    cases hsf : safeFindSessionAndLockSlot ctx.sessionPool ctx.slotPool h' with
    | error e => simpa [C_DecryptInit, hc, hsf] using hw
    | ok p =>
      obtain ⟨s2, sl2⟩ := p
      obtain ⟨h2, h1, heq⟩ := resolved_vs_found hc hsf hw
      by_cases hidle : s2.activeObjectHandle = CK_INVALID_HANDLE
      · have hne : ¬ h' = h := fun e => hact (by rw [← heq e]; exact hidle)
        have hne' : ¬ s2.handle = h := by rw [h2]; exact hne
        cases hobj : findSlotObject sl2 k false with
        | error e => simpa [C_DecryptInit, hc, hsf, hidle, hobj] using hw
        | ok object =>
          cases hcap : object.C_DecryptInit with
          | none => simpa [C_DecryptInit, hc, hsf, hidle, hobj, hcap] using hw
          | some f =>
            by_cases hrv : f w.trace m = 0 <;>
              simp [C_DecryptInit, hc, hsf, hidle, hobj, hcap, hrv, World.session?_store, hne', hw]
      · simpa [C_DecryptInit, hc, hsf, hidle] using hw

theorem C_SignInit_keeps (w : World) (h : CK_SESSION_HANDLE) (s : p11Session_t)
    (hw : w.session? h = some s) (hact : s.Active)
    (h' : CK_SESSION_HANDLE) (m : CK_MECHANISM) (k : CK_OBJECT_HANDLE) :
    (C_SignInit w h' m k).2.session? h = some s := by
  cases hc : w.context with
  | none => simp [World.session?, hc] at hw
  | some ctx =>
    cases hsf : safeFindSessionAndLockSlot ctx.sessionPool ctx.slotPool h' with
    | error e => simpa [C_SignInit, hc, hsf] using hw
    | ok p =>
      obtain ⟨s2, sl2⟩ := p
      obtain ⟨h2, h1, heq⟩ := resolved_vs_found hc hsf hw
      by_cases hidle : s2.activeObjectHandle = CK_INVALID_HANDLE
      · have hne : ¬ h' = h := fun e => hact (by rw [← heq e]; exact hidle)
        have hne' : ¬ s2.handle = h := by rw [h2]; exact hne
        cases hobj : findSlotObject sl2 k false with
        | error e => simpa [C_SignInit, hc, hsf, hidle, hobj] using hw
        | ok object =>
          cases hcap : object.C_SignInit with
          | none => simpa [C_SignInit, hc, hsf, hidle, hobj, hcap] using hw
          | some f =>
            by_cases hrv : f w.trace m = 0 <;>
              simp [C_SignInit, hc, hsf, hidle, hobj, hcap, hrv, World.session?_store, hne', hw]
      · simpa [C_SignInit, hc, hsf, hidle] using hw

theorem C_Encrypt_context (w : World) (h' : CK_SESSION_HANDLE) (a : CK_BYTE_PTR) (n : CK_ULONG)
    (b : CK_BYTE_PTR) (l : CK_ULONG_PTR) : (C_Encrypt w h' a n b l).2.context = w.context := by
  cases hc : w.context with
  | none => simp [C_Encrypt, hc]
  | some ctx =>
    cases hsf : safeFindSessionAndLockSlot ctx.sessionPool ctx.slotPool h' with
    | error e => simp [C_Encrypt, hc, hsf]
    | ok p =>
      obtain ⟨s2, sl2⟩ := p
      by_cases hidle : s2.activeObjectHandle = CK_INVALID_HANDLE
      · simp [C_Encrypt, hc, hsf, hidle]
      · cases hobj : findSlotObject sl2 (handleOfInt s2.activeObjectHandle) false with
        | error e => simp [C_Encrypt, hc, hsf, hidle, hobj]
        | ok object =>
          cases hcap : object.C_Encrypt <;> simp [C_Encrypt, hc, hsf, hidle, hobj, hcap]

theorem C_EncryptUpdate_context (w : World) (h' : CK_SESSION_HANDLE) (a : CK_BYTE_PTR) (n : CK_ULONG)
    (b : CK_BYTE_PTR) (l : CK_ULONG_PTR) : (C_EncryptUpdate w h' a n b l).2.context = w.context := by
  cases hc : w.context with
  | none => simp [C_EncryptUpdate, hc]
  | some ctx =>
    cases hsf : safeFindSessionAndLockSlot ctx.sessionPool ctx.slotPool h' with
    | error e => simp [C_EncryptUpdate, hc, hsf]
    | ok p =>
      obtain ⟨s2, sl2⟩ := p
      by_cases hidle : s2.activeObjectHandle = CK_INVALID_HANDLE
      · simp [C_EncryptUpdate, hc, hsf, hidle]
      · cases hobj : findSlotObject sl2 (handleOfInt s2.activeObjectHandle) false with
        | error e => simp [C_EncryptUpdate, hc, hsf, hidle, hobj]
        | ok object =>
          cases hcap : object.C_EncryptUpdate <;> simp [C_EncryptUpdate, hc, hsf, hidle, hobj, hcap]

theorem C_DecryptUpdate_context (w : World) (h' : CK_SESSION_HANDLE) (a : CK_BYTE_PTR) (n : CK_ULONG)
    (b : CK_BYTE_PTR) (l : CK_ULONG_PTR) : (C_DecryptUpdate w h' a n b l).2.context = w.context := by
  cases hc : w.context with
  | none => simp [C_DecryptUpdate, hc]
  | some ctx =>
    cases hsf : safeFindSessionAndLockSlot ctx.sessionPool ctx.slotPool h' with
    | error e => simp [C_DecryptUpdate, hc, hsf]
    | ok p =>
      obtain ⟨s2, sl2⟩ := p
      by_cases hidle : s2.activeObjectHandle = CK_INVALID_HANDLE
      · simp [C_DecryptUpdate, hc, hsf, hidle]
      · cases hobj : findSlotObject sl2 (handleOfInt s2.activeObjectHandle) false with
        | error e => simp [C_DecryptUpdate, hc, hsf, hidle, hobj]
        | ok object =>
          cases hcap : object.C_DecryptUpdate <;> simp [C_DecryptUpdate, hc, hsf, hidle, hobj, hcap]

theorem C_Decrypt_query_context (w : World) (h' : CK_SESSION_HANDLE) (a : CK_BYTE_PTR)
    (n : CK_ULONG) (l : CK_ULONG_PTR) : (C_Decrypt w h' a n none l).2.context = w.context := by
  cases hc : w.context with
  | none => simp [C_Decrypt, hc]
  | some ctx =>
    cases hsf : safeFindSessionAndLockSlot ctx.sessionPool ctx.slotPool h' with
    | error e => simp [C_Decrypt, hc, hsf]
    | ok p =>
      obtain ⟨s2, sl2⟩ := p
      have hself : w.store s2 = w := World.Resolves.store_self ⟨ctx, hc, hsf⟩
      by_cases hidle : s2.activeObjectHandle = CK_INVALID_HANDLE
      · simp [C_Decrypt, hc, hsf, hidle]
      · cases hobj : findSlotObject sl2 (handleOfInt s2.activeObjectHandle) false with
        | error e => simp [C_Decrypt, hc, hsf, hidle, hobj]
        | ok object =>
          cases hcap : object.C_Decrypt <;>
            simp [C_Decrypt, hc, hsf, hidle, hobj, hcap, hself]

theorem C_Sign_query_context (w : World) (h' : CK_SESSION_HANDLE) (a : CK_BYTE_PTR)
    (n : CK_ULONG) (l : CK_ULONG_PTR) : (C_Sign w h' a n none l).2.context = w.context := by
  cases hc : w.context with
  | none => simp [C_Sign, hc]
  | some ctx =>
    cases hsf : safeFindSessionAndLockSlot ctx.sessionPool ctx.slotPool h' with
    | error e => simp [C_Sign, hc, hsf]
    | ok p =>
      obtain ⟨s2, sl2⟩ := p
      have hself : w.store s2 = w := World.Resolves.store_self ⟨ctx, hc, hsf⟩
      by_cases hidle : s2.activeObjectHandle = CK_INVALID_HANDLE
      · simp [C_Sign, hc, hsf, hidle]
      · cases hobj : findSlotObject sl2 (handleOfInt s2.activeObjectHandle) false with
        | error e => simp [C_Sign, hc, hsf, hidle, hobj]
        | ok object =>
          cases hcap : object.C_Sign <;>
            simp [C_Sign, hc, hsf, hidle, hobj, hcap, hself]

theorem C_SignUpdate_keeps (w : World) (h : CK_SESSION_HANDLE) (s : p11Session_t)
    (hw : w.session? h = some s)
    (h' : CK_SESSION_HANDLE) (a : CK_BYTE_PTR) (n : CK_ULONG) :
    ∃ s', (C_SignUpdate w h' a n).2.session? h = some s' ∧
      s'.activeObjectHandle = s.activeObjectHandle ∧ s'.activeMechanism = s.activeMechanism := by
  cases hc : w.context with
  | none => simp [World.session?, hc] at hw
  | some ctx =>
    cases hsf : safeFindSessionAndLockSlot ctx.sessionPool ctx.slotPool h' with
    | error e => exact ⟨s, by simpa [C_SignUpdate, hc, hsf] using hw, rfl, rfl⟩
    | ok p =>
      obtain ⟨s2, sl2⟩ := p
      obtain ⟨h2, h1, heq⟩ := resolved_vs_found hc hsf hw
      have hfr := appendToCryptoBuffer_frame w.hostMemory s2 a n
      by_cases hidle : s2.activeObjectHandle = CK_INVALID_HANDLE
      · exact ⟨s, by simpa [C_SignUpdate, hc, hsf, hidle] using hw, rfl, rfl⟩
      · cases hobj : findSlotObject sl2 (handleOfInt s2.activeObjectHandle) false with
        | error e => exact ⟨s, by simpa [C_SignUpdate, hc, hsf, hidle, hobj] using hw, rfl, rfl⟩
        | ok object =>
          cases hcap : object.C_SignUpdate with
          | some f =>
            exact ⟨s, by simpa [C_SignUpdate, hc, hsf, hidle, hobj, hcap] using hw, rfl, rfl⟩
          | none =>
            by_cases hh : h' = h
            · have e := heq hh
              subst e
              refine ⟨(appendToCryptoBuffer w.hostMemory s2 a n).2, ?_, hfr.2.2.1, hfr.2.2.2⟩
              simp [C_SignUpdate, hc, hsf, hidle, hobj, hcap, World.session?_store, hfr.1, h1, hw]
            · have hne' : ¬ s2.handle = h := by rw [h2]; exact hh
              refine ⟨s, ?_, rfl, rfl⟩
              simp [C_SignUpdate, hc, hsf, hidle, hobj, hcap, World.session?_store, hfr.1, hne', hw]

theorem step_keeps_active (w : World) (h : CK_SESSION_HANDLE) (s : p11Session_t) (c : Call)
    (hw : w.session? h = some s) (hact : s.Active) (hc : c.mayEndOperation = false) :
    ∃ s', (step w c).2.session? h = some s' ∧
      s'.activeObjectHandle = s.activeObjectHandle ∧ s'.activeMechanism = s.activeMechanism := by
  cases c with
  | EncryptInit h' m k => exact ⟨s, C_EncryptInit_keeps w h s hw hact h' m k, rfl, rfl⟩
  | DecryptInit h' m k => exact ⟨s, C_DecryptInit_keeps w h s hw hact h' m k, rfl, rfl⟩
  | SignInit h' m k => exact ⟨s, C_SignInit_keeps w h s hw hact h' m k, rfl, rfl⟩
  | Encrypt h' a n b l =>
    exact ⟨s, (session?_congr (C_Encrypt_context w h' a n b l) h).trans hw, rfl, rfl⟩
  | EncryptUpdate h' a n b l =>
    exact ⟨s, (session?_congr (C_EncryptUpdate_context w h' a n b l) h).trans hw, rfl, rfl⟩
  | DecryptUpdate h' a n b l =>
    exact ⟨s, (session?_congr (C_DecryptUpdate_context w h' a n b l) h).trans hw, rfl, rfl⟩
  | Decrypt h' a n b l =>
    cases b with
    | none => exact ⟨s, (session?_congr (C_Decrypt_query_context w h' a n l) h).trans hw, rfl, rfl⟩
    | some x => simp [Call.mayEndOperation] at hc
  | Sign h' a n b l =>
    cases b with
    | none => exact ⟨s, (session?_congr (C_Sign_query_context w h' a n l) h).trans hw, rfl, rfl⟩
    | some x => simp [Call.mayEndOperation] at hc
  | SignUpdate h' a n => exact C_SignUpdate_keeps w h s hw h' a n
  | EncryptFinal h' b l => simp [Call.mayEndOperation] at hc
  | DecryptFinal h' b l => simp [Call.mayEndOperation] at hc
  | SignFinal h' b l => simp [Call.mayEndOperation] at hc
  | DigestInit =>
    simp only [step, C_DigestInit]
    cases w.context <;> exact ⟨s, hw, rfl, rfl⟩
  | Digest =>
    simp only [step, C_Digest]
    cases w.context <;> exact ⟨s, hw, rfl, rfl⟩
  | DigestUpdate =>
    simp only [step, C_DigestUpdate]
    cases w.context <;> exact ⟨s, hw, rfl, rfl⟩
  | DigestKey =>
    simp only [step, C_DigestKey]
    cases w.context <;> exact ⟨s, hw, rfl, rfl⟩
  | DigestFinal =>
    simp only [step, C_DigestFinal]
    cases w.context <;> exact ⟨s, hw, rfl, rfl⟩
  | SignRecoverInit =>
    simp only [step, C_SignRecoverInit]
    cases w.context <;> exact ⟨s, hw, rfl, rfl⟩
  | SignRecover =>
    simp only [step, C_SignRecover]
    cases w.context <;> exact ⟨s, hw, rfl, rfl⟩
  | VerifyInit =>
    simp only [step, C_VerifyInit]
    cases w.context <;> exact ⟨s, hw, rfl, rfl⟩
  | Verify =>
    simp only [step, C_Verify]
    cases w.context <;> exact ⟨s, hw, rfl, rfl⟩
  | VerifyUpdate =>
    simp only [step, C_VerifyUpdate]
    cases w.context <;> exact ⟨s, hw, rfl, rfl⟩
  | VerifyFinal =>
    simp only [step, C_VerifyFinal]
    cases w.context <;> exact ⟨s, hw, rfl, rfl⟩
  | VerifyRecoverInit =>
    simp only [step, C_VerifyRecoverInit]
    cases w.context <;> exact ⟨s, hw, rfl, rfl⟩
  | VerifyRecover =>
    simp only [step, C_VerifyRecover]
    cases w.context <;> exact ⟨s, hw, rfl, rfl⟩
  | DigestEncryptUpdate =>
    simp only [step, C_DigestEncryptUpdate]
    cases w.context <;> exact ⟨s, hw, rfl, rfl⟩
  | DecryptDigestUpdate =>
    simp only [step, C_DecryptDigestUpdate]
    cases w.context <;> exact ⟨s, hw, rfl, rfl⟩
  | SignEncryptUpdate =>
    simp only [step, C_SignEncryptUpdate]
    cases w.context <;> exact ⟨s, hw, rfl, rfl⟩
  | DecryptVerifyUpdate =>
    simp only [step, C_DecryptVerifyUpdate]
    cases w.context <;> exact ⟨s, hw, rfl, rfl⟩
  | GenerateKey =>
    simp only [step, C_GenerateKey]
    cases w.context <;> exact ⟨s, hw, rfl, rfl⟩
  | GenerateKeyPair =>
    simp only [step, C_GenerateKeyPair]
    cases w.context <;> exact ⟨s, hw, rfl, rfl⟩
  | WrapKey =>
    simp only [step, C_WrapKey]
    cases w.context <;> exact ⟨s, hw, rfl, rfl⟩
  | UnwrapKey =>
    simp only [step, C_UnwrapKey]
    cases w.context <;> exact ⟨s, hw, rfl, rfl⟩
  | DeriveKey =>
    simp only [step, C_DeriveKey]
    cases w.context <;> exact ⟨s, hw, rfl, rfl⟩
  | SeedRandom =>
    simp only [step, C_SeedRandom]
    cases w.context <;> exact ⟨s, hw, rfl, rfl⟩
  | GenerateRandom =>
    simp only [step, C_GenerateRandom]
    cases w.context <;> exact ⟨s, hw, rfl, rfl⟩
  | GetFunctionStatus =>
    simp only [step, C_GetFunctionStatus]
    cases w.context <;> exact ⟨s, hw, rfl, rfl⟩
  | CancelFunction =>
    simp only [step, C_CancelFunction]
    cases w.context <;> exact ⟨s, hw, rfl, rfl⟩

theorem run_keeps_active (h : CK_SESSION_HANDLE) (cs : List Call) :
    ∀ (w : World) (s : p11Session_t), w.session? h = some s → s.Active →
      (∀ c ∈ cs, c.mayEndOperation = false) →
      ∃ s', (run w cs).session? h = some s' ∧
        s'.activeObjectHandle = s.activeObjectHandle ∧ s'.activeMechanism = s.activeMechanism := by
  induction cs with
  | nil => intro w s hw _ _; exact ⟨s, hw, rfl, rfl⟩
  | cons c cs ih =>
    intro w s hw hact hall
    obtain ⟨s1, hs1, ha1, hm1⟩ := step_keeps_active w h s c hw hact (hall c (by simp))
    have hact1 : s1.Active := by unfold p11Session_t.Active; rw [ha1]; exact hact
    obtain ⟨s2, hs2, ha2, hm2⟩ := ih (step w c).2 s1 hs1 hact1 (fun c' hc' => hall c' (by simp [hc']))
    exact ⟨s2, hs2, ha2.trans ha1, hm2.trans hm1⟩

/-- C8, where the claim as stated fails: after C_EncryptInit on key 7 and a single-shot
C_Encrypt the example session is Active on key 7; a single-shot C_Decrypt with a
non-null output, which is not a Final, then returns CKR_FUNCTION_NOT_SUPPORTED (key 7
cannot decrypt) and leaves the session Idle. -/
theorem C8_decrypt_ends_encrypt_operation :
    (run (exWorld exSession) exEncryptCalls).session? 100 = some exAesActive ∧
    exAesActive.Active ∧
    (Call.Decrypt 100 (some [1]) 1 (some [0]) (some 1)).isFinal = false ∧
    (step (run (exWorld exSession) exEncryptCalls)
      (Call.Decrypt 100 (some [1]) 1 (some [0]) (some 1))).1 = CKR_FUNCTION_NOT_SUPPORTED ∧
    (step (run (exWorld exSession) exEncryptCalls)
      (Call.Decrypt 100 (some [1]) 1 (some [0]) (some 1))).2.session? 100 = some exSession ∧
    exSession.Idle := by
  decide

/-- C8 as amended (single-shot Encrypt never ends the operation): on an Active session
C_Encrypt leaves the session exactly as it was, so it is still Active with the same
activeObjectHandle and activeMechanism, for every object, result code and output
pointer; and after it, every sequence of calls that contains neither a Final nor a
single-shot C_Decrypt or C_Sign with a non-null output leaves the session Active with
the same activeObjectHandle and activeMechanism. -/
theorem C8_encrypt_keeps_operation (w : World) (hSession : CK_SESSION_HANDLE)
    (session : p11Session_t) (slot : p11Slot_t) (hr : w.Resolves hSession session slot)
    (hact : session.Active) (pData : CK_BYTE_PTR) (ulDataLen : CK_ULONG)
    (pEncryptedData : CK_BYTE_PTR) (pulEncryptedDataLen : CK_ULONG_PTR) (cs : List Call)
    (hcs : ∀ c ∈ cs, c.mayEndOperation = false) :
    (C_Encrypt w hSession pData ulDataLen pEncryptedData pulEncryptedDataLen).2.session? hSession
      = some session ∧
    ∃ s', (run (C_Encrypt w hSession pData ulDataLen pEncryptedData pulEncryptedDataLen).2
        cs).session? hSession = some s' ∧
      s'.activeObjectHandle = session.activeObjectHandle ∧
      s'.activeMechanism = session.activeMechanism ∧ s'.Active := by
  have h1 : (C_Encrypt w hSession pData ulDataLen pEncryptedData
      pulEncryptedDataLen).2.session? hSession = some session :=
    (session?_congr (C_Encrypt_context w hSession pData ulDataLen pEncryptedData
      pulEncryptedDataLen) hSession).trans hr.session?.1
  obtain ⟨s', hs', ha, hm⟩ := run_keeps_active hSession cs _ session h1 hact hcs
  refine ⟨h1, s', hs', ha, hm, ?_⟩
  unfold p11Session_t.Active
  rw [ha]
  exact hact

/-- Witness of C8: the example session Active on key 7; after C_Encrypt with a real
output buffer, a second C_EncryptInit, a C_EncryptUpdate and a length query by
C_Decrypt leave it Active on key 7. -/
theorem C8_encrypt_keeps_operation_witness :
    (C_Encrypt (exWorld exAesActive) 100 (some [65, 66]) 2 (some [0, 0]) (some 2)).2.session? 100
      = some exAesActive ∧
    ∃ s', (run (C_Encrypt (exWorld exAesActive) 100 (some [65, 66]) 2 (some [0, 0]) (some 2)).2
        [Call.EncryptInit 100 exMechAes 5, Call.EncryptUpdate 100 (some [67]) 1 none (some 0),
         Call.Decrypt 100 (some [1]) 1 none (some 0)]).session? 100 = some s' ∧
      s'.activeObjectHandle = exAesActive.activeObjectHandle ∧
      s'.activeMechanism = exAesActive.activeMechanism ∧ s'.Active :=
  C8_encrypt_keeps_operation (exWorld exAesActive) 100 exAesActive exSlot
    ⟨exContext exAesActive, rfl, rfl⟩ (by decide) (some [65, 66]) 2 (some [0, 0]) (some 2)
    [Call.EncryptInit 100 exMechAes 5, Call.EncryptUpdate 100 (some [67]) 1 none (some 0),
     Call.Decrypt 100 (some [1]) 1 none (some 0)] (by decide)

/-- C9 (Update keeps the operation): on an Active session each of C_EncryptUpdate,
C_DecryptUpdate and C_SignUpdate leaves activeObjectHandle and activeMechanism
unchanged, so the session stays Active on the same operation; this holds for every
module state, hence when the active object does not resolve, when the capability is
absent, when the native capability fails and when growing the crypto buffer fails. -/
theorem C9_update_keeps_operation (w : World) (hSession : CK_SESSION_HANDLE)
    (session : p11Session_t) (slot : p11Slot_t) (hr : w.Resolves hSession session slot)
    (hact : session.Active) (pIn : CK_BYTE_PTR) (ulInLen : CK_ULONG) (pOut : CK_BYTE_PTR)
    (pulOutLen : CK_ULONG_PTR) :
    (∃ s', (C_EncryptUpdate w hSession pIn ulInLen pOut pulOutLen).2.session? hSession = some s' ∧
      s'.activeObjectHandle = session.activeObjectHandle ∧
      s'.activeMechanism = session.activeMechanism ∧ s'.Active) ∧
    (∃ s', (C_DecryptUpdate w hSession pIn ulInLen pOut pulOutLen).2.session? hSession = some s' ∧
      s'.activeObjectHandle = session.activeObjectHandle ∧
      s'.activeMechanism = session.activeMechanism ∧ s'.Active) ∧
    (∃ s', (C_SignUpdate w hSession pIn ulInLen).2.session? hSession = some s' ∧
      s'.activeObjectHandle = session.activeObjectHandle ∧
      s'.activeMechanism = session.activeMechanism ∧ s'.Active) := by
  have hsess := hr.session?
  obtain ⟨ctx, hctx, hs⟩ := id hr
  have hact' : session.activeObjectHandle ≠ CK_INVALID_HANDLE := hact
  refine ⟨?_, ?_, ?_⟩
  · refine ⟨session, ?_, rfl, rfl, hact⟩
    cases hobj : findSlotObject slot (handleOfInt session.activeObjectHandle) false with
    | error e => simp [C_EncryptUpdate, hctx, hs, hact', hobj, hsess]
    | ok object =>
      cases hcap : object.C_EncryptUpdate <;>
        simp [C_EncryptUpdate, hctx, hs, hact', hobj, hcap, hsess]
  · refine ⟨session, ?_, rfl, rfl, hact⟩
    cases hobj : findSlotObject slot (handleOfInt session.activeObjectHandle) false with
    | error e => simp [C_DecryptUpdate, hctx, hs, hact', hobj, hsess]
    | ok object =>
      cases hcap : object.C_DecryptUpdate <;>
        simp [C_DecryptUpdate, hctx, hs, hact', hobj, hcap, hsess]
  · have hfr := appendToCryptoBuffer_frame w.hostMemory session pIn ulInLen
    cases hobj : findSlotObject slot (handleOfInt session.activeObjectHandle) false with
    | error e => exact ⟨session, by simp [C_SignUpdate, hctx, hs, hact', hobj, hsess], rfl, rfl, hact⟩
    | ok object =>
      cases hcap : object.C_SignUpdate with
      | some f => exact ⟨session, by simp [C_SignUpdate, hctx, hs, hact', hobj, hcap, hsess], rfl, rfl, hact⟩
      | none =>
        refine ⟨(appendToCryptoBuffer w.hostMemory session pIn ulInLen).2, ?_, hfr.2.2.1, hfr.2.2.2, ?_⟩
        · simp [C_SignUpdate, hctx, hs, hact', hobj, hcap, World.session?_store, hsess, hfr.1]
        · unfold p11Session_t.Active; rw [hfr.2.2.1]; exact hact

/-- Witness of C9: the example session signing with key 5, which has no native
SignUpdate, on a host that refuses every buffer growth: C_SignUpdate fails with
CKR_HOST_MEMORY and the session is still Active on key 5 with mechanism 1. -/
theorem C9_update_keeps_operation_witness :
    (C_SignUpdate { exWorld exRsaActive with hostMemory := fun _ => false } 100
      (some exHello) 6).1 = CKR_HOST_MEMORY ∧
    ∃ s', (C_SignUpdate { exWorld exRsaActive with hostMemory := fun _ => false } 100
        (some exHello) 6).2.session? 100 = some s' ∧
      s'.activeObjectHandle = exRsaActive.activeObjectHandle ∧
      s'.activeMechanism = exRsaActive.activeMechanism ∧ s'.Active :=
  ⟨by decide,
    (C9_update_keeps_operation { exWorld exRsaActive with hostMemory := fun _ => false } 100
      exRsaActive exSlot ⟨exContext exRsaActive, rfl, rfl⟩ (by decide) (some exHello) 6 none
      none).2.2⟩

/-- C10, where the claim as stated fails: after C_SignInit on key 5 and two C_SignUpdate
calls the example session is Active and its object resolves; C_SignFinal with a null
pSignature (a length query, as the decryption test makes with C_Decrypt) returns CKR_OK
and the session is
the same as before, Active on key 5, not Idle. -/
theorem C10_signFinal_query_stays_active :
    (run (exWorld exSession) exSignCalls).session? 100 = some exSigning ∧
    exSigning.Active ∧
    (activeObject exSlot exSigning).toOption.map (fun o => o.handle) = some 5 ∧
    (C_SignFinal (run (exWorld exSession) exSignCalls) 100 none (some 0)).1 = CKR_OK ∧
    (C_SignFinal (run (exWorld exSession) exSignCalls) 100 none (some 0)).2.session? 100
      = some exSigning ∧
    ¬ exSigning.Idle := by
  decide

/-- C10 as amended (successful Final ends the operation): on an Active session whose
active object resolves, if C_EncryptFinal or C_DecryptFinal returns CKR_OK the session
is Idle afterwards; if C_SignFinal returns CKR_OK the session is Idle afterwards
exactly when pSignature was non-null. -/
theorem C10_successful_final (w : World) (hSession : CK_SESSION_HANDLE)
    (session : p11Session_t) (slot : p11Slot_t) (hr : w.Resolves hSession session slot)
    (hact : session.Active) (object : p11Object_t)
    (hobj : activeObject slot session = .ok object)
    (pOut : CK_BYTE_PTR) (pulOutLen : CK_ULONG_PTR) :
    ((C_EncryptFinal w hSession pOut pulOutLen).1 = CKR_OK →
      ∃ s', (C_EncryptFinal w hSession pOut pulOutLen).2.session? hSession = some s' ∧ s'.Idle) ∧
    ((C_DecryptFinal w hSession pOut pulOutLen).1 = CKR_OK →
      ∃ s', (C_DecryptFinal w hSession pOut pulOutLen).2.session? hSession = some s' ∧ s'.Idle) ∧
    ((C_SignFinal w hSession pOut pulOutLen).1 = CKR_OK →
      ∃ s', (C_SignFinal w hSession pOut pulOutLen).2.session? hSession = some s' ∧
        (s'.Idle ↔ pOut ≠ none)) := by
  have hsess := hr.session?
  have hself := hr.store_self
  obtain ⟨ctx, hctx, hs⟩ := id hr
  have hact' : session.activeObjectHandle ≠ CK_INVALID_HANDLE := hact
  unfold activeObject at hobj
  have hns : CKR_FUNCTION_NOT_SUPPORTED ≠ CKR_OK := by decide
  refine ⟨?_, ?_, ?_⟩
  · cases hcap : object.C_EncryptFinal with
    | none => simp [C_EncryptFinal, hctx, hs, hact', hobj, hcap, hns]
    | some f =>
      by_cases hrv : f w.trace session.activeMechanism pOut pulOutLen = 0
      · intro _
        refine ⟨{ session with activeObjectHandle := CK_INVALID_HANDLE }, ?_, rfl⟩
        simp [C_EncryptFinal, hctx, hs, hact', hobj, hcap, hrv, World.session?_store, hsess]
      · simp [C_EncryptFinal, hctx, hs, hact', hobj, hcap, hrv, CKR_OK]
  · cases hcap : object.C_DecryptFinal with
    | none => simp [C_DecryptFinal, hctx, hs, hact', hobj, hcap, hns]
    | some f =>
      by_cases hrv : f w.trace session.activeMechanism pOut pulOutLen = 0
      · intro _
        refine ⟨{ session with activeObjectHandle := CK_INVALID_HANDLE }, ?_, rfl⟩
        simp [C_DecryptFinal, hctx, hs, hact', hobj, hcap, hrv, World.session?_store, hsess]
      · simp [C_DecryptFinal, hctx, hs, hact', hobj, hcap, hrv, CKR_OK]
  · intro _
    cases pOut with
    | none =>
      refine ⟨session, ?_, by simpa [p11Session_t.Idle] using hact'⟩
      cases hc1 : object.C_SignFinal <;> cases hc2 : object.C_Sign <;>
        simp [C_SignFinal, hctx, hs, hact', hobj, hc1, hc2, hself, hsess]
    | some buf =>
      cases hc1 : object.C_SignFinal <;> cases hc2 : object.C_Sign <;>
        simp [C_SignFinal, hctx, hs, hact', hobj, hc1, hc2, World.session?_store, hsess,
          clearCryptoBuffer, p11Session_t.Idle]

/-- Witness of C10: C_EncryptFinal on the example session Active on key 7 returns CKR_OK
and leaves it Idle; C_SignFinal with a real buffer on the session signing with key 5
returns CKR_OK and leaves it Idle. -/
theorem C10_successful_final_witness :
    (∃ s', (C_EncryptFinal (exWorld exAesActive) 100 (some [0, 0]) (some 2)).2.session? 100
      = some s' ∧ s'.Idle) ∧
    (∃ s', (C_SignFinal (exWorld exSigning) 100 (some [0, 0]) (some 2)).2.session? 100
      = some s' ∧ (s'.Idle ↔ (some [0, 0] : CK_BYTE_PTR) ≠ none)) :=
  ⟨(C10_successful_final (exWorld exAesActive) 100 exAesActive exSlot
      ⟨exContext exAesActive, rfl, rfl⟩ (by decide) exCipherKey rfl (some [0, 0]) (some 2)).1
      (by decide),
   (C10_successful_final (exWorld exSigning) 100 exSigning exSlot
      ⟨exContext exSigning, rfl, rfl⟩ (by decide) exSignKey rfl (some [0, 0]) (some 2)).2.2
      (by decide)⟩

/-! ## Lemmas for the claims on delegation, buffering and scenarios -/

theorem safeFind_unresolved {sp : List p11Session_t} {slp : List p11Slot_t}
    {h : CK_SESSION_HANDLE} (hn : ∀ s ∈ sp, s.handle ≠ h) :
    safeFindSessionAndLockSlot sp slp h = .error CKR_SESSION_HANDLE_INVALID := by
  have hnone : sp.find? (fun s => s.handle == h) = none := by
    rw [List.find?_eq_none]
    intro s hs
    simpa using hn s hs
  simp [safeFindSessionAndLockSlot, hnone]

theorem intOfHandle_small (n : Nat) (h1 : n < 2147483648) :
    intOfHandle n = (n : Int) ∧ handleOfInt (n : Int) = n := by
  have h31 : (2 : Nat) ^ 31 = 2147483648 := by norm_num
  have h32 : (2 : Nat) ^ 32 = 4294967296 := by norm_num
  refine ⟨?_, ?_⟩
  · unfold intOfHandle
    rw [h31, h32]
    have : (n + 2147483648) % 4294967296 = n + 2147483648 := Nat.mod_eq_of_lt (by omega)
    rw [this]
    push_cast
    norm_num
  · unfold handleOfInt
    have h64 : ((2 : Int) ^ 64) = 18446744073709551616 := by norm_num
    rw [h64]
    have : (n : Int) % 18446744073709551616 = n := Int.emod_eq_of_lt (by omega) (by omega)
    rw [this]
    simp

theorem fitsActiveHandle_spec {k : CK_OBJECT_HANDLE} (hk : fitsActiveHandle k) :
    intOfHandle k = (k : Int) ∧ handleOfInt (k : Int) = k ∧ (k : Int) ≠ CK_INVALID_HANDLE := by
  have h31 : (2 : Nat) ^ 31 = 2147483648 := by norm_num
  have h0 : (0 : Nat) < (k : Nat) := hk.1
  have h1 : (k : Nat) < 2147483648 := by
    have := hk.2
    rw [h31] at this
    exact this
  have h := intOfHandle_small k h1
  refine ⟨h.1, h.2, ?_⟩
  unfold CK_INVALID_HANDLE
  intro e
  have : (k : Nat) = 0 := by exact_mod_cast e
  omega

theorem findSlotObject_mem {slot : p11Slot_t} {k : CK_OBJECT_HANDLE} {flag : Bool}
    {object : p11Object_t} (h : findSlotObject slot k flag = .ok object) :
    object ∈ slot.objects := by
  unfold findSlotObject at h
  cases hf : slot.objects.find? (fun o => o.handle == k) with
  | none => simp [hf] at h
  | some o =>
    simp only [hf] at h
    injection h with h
    subst h
    exact List.mem_of_find?_eq_some hf

theorem findSlotObject_handle {slot : p11Slot_t} {k : CK_OBJECT_HANDLE} {flag : Bool}
    {object : p11Object_t} (h : findSlotObject slot k flag = .ok object) : object.handle = k := by
  unfold findSlotObject at h
  cases hf : slot.objects.find? (fun o => o.handle == k) with
  | none => simp [hf] at h
  | some o =>
    simp only [hf] at h
    injection h with h
    subst h
    simpa using List.find?_some hf

theorem fits_of_handlesFit {slot : p11Slot_t} {k : CK_OBJECT_HANDLE} {flag : Bool}
    {object : p11Object_t} (hwf : slot.handlesFit)
    (h : findSlotObject slot k flag = .ok object) : fitsActiveHandle k := by
  have := hwf object (findSlotObject_mem h)
  rwa [findSlotObject_handle h] at this

theorem appendToCryptoBuffer_cases (m : CK_ULONG → Bool) (s : p11Session_t) (d : CK_BYTE_PTR)
    (n : CK_ULONG) :
    (s.cryptoBufferSize + n > s.cryptoBufferMax ∧ m (s.cryptoBufferSize + n) = false ∧
      appendToCryptoBuffer m s d n = (CKR_HOST_MEMORY, s)) ∨
    (¬ (s.cryptoBufferSize + n > s.cryptoBufferMax ∧ m (s.cryptoBufferSize + n) = false) ∧
      ∃ M, appendToCryptoBuffer m s d n = (CKR_OK, { s with
        cryptoBuffer := s.cryptoBuffer ++ (d.getD []).take n
        cryptoBufferSize := s.cryptoBufferSize + n
        cryptoBufferMax := M })) := by
  unfold appendToCryptoBuffer
  by_cases hg : s.cryptoBufferSize + n > s.cryptoBufferMax
  · cases hm : m (s.cryptoBufferSize + n)
    · left; simp [hg, hm]
    · right; exact ⟨by simp [hm], s.cryptoBufferSize + n, by simp [hg, hm]⟩
  · right; exact ⟨by simp [hg], s.cryptoBufferMax, by simp [hg]⟩

theorem C_SignUpdate_buffered {w : World} {h : CK_SESSION_HANDLE} {s : p11Session_t}
    {slot : p11Slot_t} (hr : w.Resolves h s slot) (hact : s.Active) {object : p11Object_t}
    (hobj : activeObject slot s = .ok object) (hn : object.C_SignUpdate = none)
    (pPart : CK_BYTE_PTR) (n : CK_ULONG) :
    C_SignUpdate w h pPart n = ((appendToCryptoBuffer w.hostMemory s pPart n).1,
      w.store (appendToCryptoBuffer w.hostMemory s pPart n).2) := by
  obtain ⟨ctx, hctx, hs⟩ := hr
  have hact' : s.activeObjectHandle ≠ CK_INVALID_HANDLE := hact
  unfold activeObject at hobj
  simp [C_SignUpdate, hctx, hs, hact', hobj, hn]

theorem C_SignInit_ok {w : World} {h : CK_SESSION_HANDLE} {s : p11Session_t} {slot : p11Slot_t}
    (hr : w.Resolves h s slot) (hidle : s.Idle) {k : CK_OBJECT_HANDLE} {object : p11Object_t}
    {f : InitFn} {m : CK_MECHANISM} (hk : findSlotObject slot k false = .ok object)
    (hf : object.C_SignInit = some f) (hrv : f w.trace m = 0) :
    C_SignInit w h m k = (CKR_OK,
      (w.log ⟨object.handle, Capability.SignInit, CapArgs.init m⟩).store
        { s with activeObjectHandle := intOfHandle object.handle
                 activeMechanism := m.mechanism }) := by
  obtain ⟨ctx, hctx, hs⟩ := hr
  have hidle' : s.activeObjectHandle = CK_INVALID_HANDLE := hidle
  simp [C_SignInit, hctx, hs, hidle', hk, hf, hrv]

theorem C_EncryptInit_ok {w : World} {h : CK_SESSION_HANDLE} {s : p11Session_t}
    {slot : p11Slot_t} (hr : w.Resolves h s slot) (hidle : s.Idle) {k : CK_OBJECT_HANDLE}
    {object : p11Object_t} {f : InitFn} {m : CK_MECHANISM}
    (hk : findSlotObject slot k false = .ok object)
    (hf : object.C_EncryptInit = some f) (hrv : f w.trace m = 0) :
    C_EncryptInit w h m k = (CKR_OK,
      (w.log ⟨object.handle, Capability.EncryptInit, CapArgs.init m⟩).store
        { s with activeObjectHandle := intOfHandle object.handle }) := by
  obtain ⟨ctx, hctx, hs⟩ := hr
  have hidle' : s.activeObjectHandle = CK_INVALID_HANDLE := hidle
  simp [C_EncryptInit, hctx, hs, hidle', hk, hf, hrv]

theorem C_SignInit_code {w : World} {h : CK_SESSION_HANDLE} {s : p11Session_t} {slot : p11Slot_t}
    (hr : w.Resolves h s slot) (hidle : s.Idle) {k : CK_OBJECT_HANDLE} {object : p11Object_t}
    {f : InitFn} {m : CK_MECHANISM} (hk : findSlotObject slot k false = .ok object)
    (hf : object.C_SignInit = some f) : (C_SignInit w h m k).1 = f w.trace m := by
  obtain ⟨ctx, hctx, hs⟩ := hr
  have hidle' : s.activeObjectHandle = CK_INVALID_HANDLE := hidle
  by_cases hrv : f w.trace m = 0 <;>
    simp [C_SignInit, hctx, hs, hidle', hk, hf, hrv, CKR_OK]

/-- After a successful Init on a key whose handle fits, the stored handle leads back to
the same object. -/
theorem activeObject_of_fits {slot : p11Slot_t} {k : CK_OBJECT_HANDLE} {object : p11Object_t}
    (hfit : fitsActiveHandle k) (hk : findSlotObject slot k false = .ok object)
    (s : p11Session_t) (hs : s.activeObjectHandle = intOfHandle object.handle) :
    activeObject slot s = .ok object ∧ s.Active := by
  have hh := findSlotObject_handle hk
  have hsp := fitsActiveHandle_spec hfit
  rw [hh, hsp.1] at hs
  refine ⟨?_, ?_⟩
  · unfold activeObject
    rw [hs, hsp.2.1]
    exact hk
  · unfold p11Session_t.Active
    rw [hs]
    exact hsp.2.2

theorem run_signUpdates (h : CK_SESSION_HANDLE) (slot : p11Slot_t) (object : p11Object_t)
    (hn : object.C_SignUpdate = none) (parts : List (List CK_BYTE)) :
    ∀ (w : World) (s : p11Session_t), w.Resolves h s slot → s.Active →
      activeObject slot s = .ok object →
      (∀ r ∈ codes w (signUpdates h parts), r = CKR_OK) →
      ∃ s', (run w (signUpdates h parts)).Resolves h s' slot ∧
        s'.cryptoBuffer = s.cryptoBuffer ++ parts.flatten ∧
        s'.cryptoBufferSize = s.cryptoBufferSize + parts.flatten.length ∧
        s'.activeObjectHandle = s.activeObjectHandle ∧
        s'.activeMechanism = s.activeMechanism ∧
        (run w (signUpdates h parts)).trace = w.trace := by
  induction parts with
  | nil =>
    intro w s hr _ _ _
    exact ⟨s, by simpa [signUpdates, run] using hr, by simp, by simp, rfl, rfl, rfl⟩
  | cons p ps ih =>
    intro w s hr hact hobj hok
    have heq := C_SignUpdate_buffered hr hact hobj hn (some p) p.length
    have hcode : (C_SignUpdate w h (some p) p.length).1 = CKR_OK :=
      hok _ (by simp [signUpdates, codes, step])
    rcases appendToCryptoBuffer_cases w.hostMemory s (some p) p.length with
      ⟨_, _, ha⟩ | ⟨_, M1, ha⟩
    · rw [heq, ha] at hcode
      have hne : CKR_HOST_MEMORY ≠ CKR_OK := by decide
      exact absurd hcode hne
    · rw [ha] at heq
      have hr1 := hr.store { s with
          cryptoBuffer := s.cryptoBuffer ++ ((some p : CK_BYTE_PTR).getD []).take p.length
          cryptoBufferSize := s.cryptoBufferSize + p.length
          cryptoBufferMax := M1 } rfl rfl
      have hstep : (step w (Call.SignUpdate h (some p) p.length)).2 = w.store { s with
          cryptoBuffer := s.cryptoBuffer ++ ((some p : CK_BYTE_PTR).getD []).take p.length
          cryptoBufferSize := s.cryptoBufferSize + p.length
          cryptoBufferMax := M1 } := by
        simp only [step, heq]
      have hok' : ∀ r ∈ codes (w.store { s with
          cryptoBuffer := s.cryptoBuffer ++ ((some p : CK_BYTE_PTR).getD []).take p.length
          cryptoBufferSize := s.cryptoBufferSize + p.length
          cryptoBufferMax := M1 }) (signUpdates h ps), r = CKR_OK := by
        intro r hrin
        apply hok
        simp only [signUpdates, List.map_cons, codes, List.mem_cons]
        right
        rw [hstep]
        exact hrin
      obtain ⟨s', hres, hb, hsz, ha', hm', htr⟩ := ih _ _ hr1 hact hobj hok'
      refine ⟨s', ?_, ?_, ?_, ha', hm', ?_⟩
      · simp only [signUpdates, List.map_cons, run, hstep]
        exact hres
      · rw [hb]; simp [List.append_assoc]
      · rw [hsz]; simp [Nat.add_assoc]
      · simp only [signUpdates, List.map_cons, run, hstep]
        simpa [signUpdates] using htr

theorem C_SignFinal_fallback {w : World} {h : CK_SESSION_HANDLE} {s : p11Session_t}
    {slot : p11Slot_t} (hr : w.Resolves h s slot) (hact : s.Active) {object : p11Object_t}
    {g : SingleFn} (hobj : activeObject slot s = .ok object)
    (hnf : object.C_SignFinal = none) (hg : object.C_Sign = some g)
    (buf : List CK_BYTE) (pl : CK_ULONG_PTR) :
    (C_SignFinal w h (some buf) pl).1 =
      g w.trace s.activeMechanism (some s.cryptoBuffer) s.cryptoBufferSize (some buf) pl ∧
    (C_SignFinal w h (some buf) pl).2.trace = w.trace ++
      [⟨object.handle, Capability.Sign,
        CapArgs.single s.activeMechanism (some s.cryptoBuffer) s.cryptoBufferSize (some buf) pl⟩] ∧
    (C_SignFinal w h (some buf) pl).2.session? h =
      some (clearCryptoBuffer { s with activeObjectHandle := CK_INVALID_HANDLE }) := by
  have hsess := hr.session?
  obtain ⟨ctx, hctx, hs⟩ := id hr
  have hact' : s.activeObjectHandle ≠ CK_INVALID_HANDLE := hact
  unfold activeObject at hobj
  refine ⟨?_, ?_, ?_⟩
  · simp [C_SignFinal, hctx, hs, hact', hobj, hnf, hg]
  · simp [C_SignFinal, hctx, hs, hact', hobj, hnf, hg, World.log]
  · simp [C_SignFinal, hctx, hs, hact', hobj, hnf, hg, World.session?_store,
      clearCryptoBuffer, hsess.1, hsess.2]

theorem C_SignInit_buffer (w : World) (h : CK_SESSION_HANDLE) (s : p11Session_t)
    (slot : p11Slot_t) (hr : w.Resolves h s slot) (m : CK_MECHANISM) (k : CK_OBJECT_HANDLE) :
    (∃ s', (C_SignInit w h m k).2.session? h = some s' ∧
      s'.cryptoBuffer = s.cryptoBuffer ∧ s'.cryptoBufferSize = s.cryptoBufferSize ∧
      s'.cryptoBufferMax = s.cryptoBufferMax) ∧
    ((C_SignInit w h m k).2.trace = w.trace ∨
      ∃ o, (C_SignInit w h m k).2.trace = w.trace ++ [⟨o, Capability.SignInit, CapArgs.init m⟩]) := by
  have hsess := hr.session?
  obtain ⟨ctx, hctx, hs⟩ := id hr
  by_cases hidle : s.activeObjectHandle = CK_INVALID_HANDLE
  · cases hobj : findSlotObject slot k false with
    | error e =>
      exact ⟨⟨s, by simp [C_SignInit, hctx, hs, hidle, hobj, hsess.1], rfl, rfl, rfl⟩,
        Or.inl (by simp [C_SignInit, hctx, hs, hidle, hobj])⟩
    | ok object =>
      cases hcap : object.C_SignInit with
      | none =>
        exact ⟨⟨s, by simp [C_SignInit, hctx, hs, hidle, hobj, hcap, hsess.1], rfl, rfl, rfl⟩,
          Or.inl (by simp [C_SignInit, hctx, hs, hidle, hobj, hcap])⟩
      | some f =>
        by_cases hrv : f w.trace m = 0
        · refine ⟨⟨{ s with activeObjectHandle := intOfHandle object.handle
                            activeMechanism := m.mechanism }, ?_, rfl, rfl, rfl⟩,
            Or.inr ⟨object.handle, ?_⟩⟩
          · simp [C_SignInit, hctx, hs, hidle, hobj, hcap, hrv, World.session?_store, hsess.1,
              hsess.2]
          · simp [C_SignInit, hctx, hs, hidle, hobj, hcap, hrv, World.log]
        · refine ⟨⟨s, ?_, rfl, rfl, rfl⟩, Or.inr ⟨object.handle, ?_⟩⟩
          · simp [C_SignInit, hctx, hs, hidle, hobj, hcap, hrv, hsess.1]
          · simp [C_SignInit, hctx, hs, hidle, hobj, hcap, hrv, World.log]
  · exact ⟨⟨s, by simp [C_SignInit, hctx, hs, hidle, hsess.1], rfl, rfl, rfl⟩,
      Or.inl (by simp [C_SignInit, hctx, hs, hidle])⟩

/-! ## Claims C11 to C20 -/

/-- C11 (verbatim delegation): for each of the twelve Encrypt, Decrypt and Sign entry points,
when the session passes the state check (Idle for an Init, Active otherwise), the
target object resolves and the corresponding native capability is present, the entry
point invokes exactly that capability of that object with the caller's arguments
unchanged (the trace grows by this one invocation) and returns exactly the code the
capability returns, whatever that code is. -/
theorem C11_verbatim_delegation (w : World) (hSession : CK_SESSION_HANDLE)
    (session : p11Session_t) (slot : p11Slot_t) (hr : w.Resolves hSession session slot)
    (object : p11Object_t) (pMechanism : CK_MECHANISM) (hKey : CK_OBJECT_HANDLE)
    (pIn : CK_BYTE_PTR) (ulInLen : CK_ULONG) (pOut : CK_BYTE_PTR) (pulOutLen : CK_ULONG_PTR) :
    (session.Idle → findSlotObject slot hKey false = .ok object →
      (∀ f, object.C_EncryptInit = some f →
        (C_EncryptInit w hSession pMechanism hKey).1 = f w.trace pMechanism ∧
        (C_EncryptInit w hSession pMechanism hKey).2.trace = w.trace ++
          [⟨object.handle, Capability.EncryptInit, CapArgs.init pMechanism⟩]) ∧
      (∀ f, object.C_DecryptInit = some f →
        (C_DecryptInit w hSession pMechanism hKey).1 = f w.trace pMechanism ∧
        (C_DecryptInit w hSession pMechanism hKey).2.trace = w.trace ++
          [⟨object.handle, Capability.DecryptInit, CapArgs.init pMechanism⟩]) ∧
      (∀ f, object.C_SignInit = some f →
        (C_SignInit w hSession pMechanism hKey).1 = f w.trace pMechanism ∧
        (C_SignInit w hSession pMechanism hKey).2.trace = w.trace ++
          [⟨object.handle, Capability.SignInit, CapArgs.init pMechanism⟩])) ∧
    (session.Active → activeObject slot session = .ok object →
      (∀ f, object.C_Encrypt = some f →
        (C_Encrypt w hSession pIn ulInLen pOut pulOutLen).1 =
          f w.trace session.activeMechanism pIn ulInLen pOut pulOutLen ∧
        (C_Encrypt w hSession pIn ulInLen pOut pulOutLen).2.trace = w.trace ++
          [⟨object.handle, Capability.Encrypt,
            CapArgs.single session.activeMechanism pIn ulInLen pOut pulOutLen⟩]) ∧
      (∀ f, object.C_EncryptUpdate = some f →
        (C_EncryptUpdate w hSession pIn ulInLen pOut pulOutLen).1 =
          f w.trace session.activeMechanism pIn ulInLen pOut pulOutLen ∧
        (C_EncryptUpdate w hSession pIn ulInLen pOut pulOutLen).2.trace = w.trace ++
          [⟨object.handle, Capability.EncryptUpdate,
            CapArgs.single session.activeMechanism pIn ulInLen pOut pulOutLen⟩]) ∧
      (∀ f, object.C_Decrypt = some f →
        (C_Decrypt w hSession pIn ulInLen pOut pulOutLen).1 =
          f w.trace session.activeMechanism pIn ulInLen pOut pulOutLen ∧
        (C_Decrypt w hSession pIn ulInLen pOut pulOutLen).2.trace = w.trace ++
          [⟨object.handle, Capability.Decrypt,
            CapArgs.single session.activeMechanism pIn ulInLen pOut pulOutLen⟩]) ∧
      (∀ f, object.C_DecryptUpdate = some f →
        (C_DecryptUpdate w hSession pIn ulInLen pOut pulOutLen).1 =
          f w.trace session.activeMechanism pIn ulInLen pOut pulOutLen ∧
        (C_DecryptUpdate w hSession pIn ulInLen pOut pulOutLen).2.trace = w.trace ++
          [⟨object.handle, Capability.DecryptUpdate,
            CapArgs.single session.activeMechanism pIn ulInLen pOut pulOutLen⟩]) ∧
      (∀ f, object.C_Sign = some f →
        (C_Sign w hSession pIn ulInLen pOut pulOutLen).1 =
          f w.trace session.activeMechanism pIn ulInLen pOut pulOutLen ∧
        (C_Sign w hSession pIn ulInLen pOut pulOutLen).2.trace = w.trace ++
          [⟨object.handle, Capability.Sign,
            CapArgs.single session.activeMechanism pIn ulInLen pOut pulOutLen⟩]) ∧
      (∀ f, object.C_EncryptFinal = some f →
        (C_EncryptFinal w hSession pOut pulOutLen).1 = f w.trace session.activeMechanism pOut pulOutLen ∧
        (C_EncryptFinal w hSession pOut pulOutLen).2.trace = w.trace ++
          [⟨object.handle, Capability.EncryptFinal, CapArgs.final session.activeMechanism pOut pulOutLen⟩]) ∧
      (∀ f, object.C_DecryptFinal = some f →
        (C_DecryptFinal w hSession pOut pulOutLen).1 = f w.trace session.activeMechanism pOut pulOutLen ∧
        (C_DecryptFinal w hSession pOut pulOutLen).2.trace = w.trace ++
          [⟨object.handle, Capability.DecryptFinal, CapArgs.final session.activeMechanism pOut pulOutLen⟩]) ∧
      (∀ f, object.C_SignFinal = some f →
        (C_SignFinal w hSession pOut pulOutLen).1 = f w.trace session.activeMechanism pOut pulOutLen ∧
        (C_SignFinal w hSession pOut pulOutLen).2.trace = w.trace ++
          [⟨object.handle, Capability.SignFinal, CapArgs.final session.activeMechanism pOut pulOutLen⟩]) ∧
      (∀ f, object.C_SignUpdate = some f →
        (C_SignUpdate w hSession pIn ulInLen).1 = f w.trace session.activeMechanism pIn ulInLen ∧
        (C_SignUpdate w hSession pIn ulInLen).2.trace = w.trace ++
          [⟨object.handle, Capability.SignUpdate,
            CapArgs.part session.activeMechanism pIn ulInLen⟩])) := by
  obtain ⟨ctx, hctx, hs⟩ := id hr
  refine ⟨?_, ?_⟩
  · intro hidle hk
    unfold p11Session_t.Idle at hidle
    refine ⟨?_, ?_, ?_⟩
    · intro f hf
      by_cases hrv : f w.trace pMechanism = 0 <;>
        simp [C_EncryptInit, hctx, hs, hidle, hk, hf, hrv, World.log, CKR_OK]
    · intro f hf
      by_cases hrv : f w.trace pMechanism = 0 <;>
        simp [C_DecryptInit, hctx, hs, hidle, hk, hf, hrv, World.log, CKR_OK]
    · intro f hf
      by_cases hrv : f w.trace pMechanism = 0 <;>
        simp [C_SignInit, hctx, hs, hidle, hk, hf, hrv, World.log, CKR_OK]
  · intro hact hobj
    have hact' : session.activeObjectHandle ≠ CK_INVALID_HANDLE := hact
    unfold activeObject at hobj
    refine ⟨?_, ?_, ?_, ?_, ?_, ?_, ?_, ?_, ?_⟩
    · intro f hf; simp [C_Encrypt, hctx, hs, hact', hobj, hf, World.log]
    · intro f hf; simp [C_EncryptUpdate, hctx, hs, hact', hobj, hf, World.log]
    · intro f hf; cases pOut <;> simp [C_Decrypt, hctx, hs, hact', hobj, hf, World.log]
    · intro f hf; simp [C_DecryptUpdate, hctx, hs, hact', hobj, hf, World.log]
    · intro f hf; cases pOut <;> simp [C_Sign, hctx, hs, hact', hobj, hf, World.log]
    · intro f hf
      by_cases hrv : f w.trace session.activeMechanism pOut pulOutLen = 0 <;>
        simp [C_EncryptFinal, hctx, hs, hact', hobj, hf, hrv, World.log, CKR_OK]
    · intro f hf
      by_cases hrv : f w.trace session.activeMechanism pOut pulOutLen = 0 <;>
        simp [C_DecryptFinal, hctx, hs, hact', hobj, hf, hrv, World.log, CKR_OK]
    · intro f hf; cases pOut <;> simp [C_SignFinal, hctx, hs, hact', hobj, hf, World.log]
    · intro f hf; simp [C_SignUpdate, hctx, hs, hact', hobj, hf, World.log]

/-- Witness of C11: single-shot C_Sign on the example session signing with key 5, and
C_SignInit on the fresh example session. -/
theorem C11_verbatim_delegation_witness :
    (C_Sign (exWorld exRsaActive) 100 (some exHello) 6 exOut (some 2)).1 = 0 ∧
    (C_Sign (exWorld exRsaActive) 100 (some exHello) 6 exOut (some 2)).2.trace =
      [⟨5, Capability.Sign, CapArgs.single 1 (some exHello) 6 exOut (some 2)⟩] ∧
    (C_SignInit (exWorld exSession) 100 exMechRsa 5).1 = 0 ∧
    (C_SignInit (exWorld exSession) 100 exMechRsa 5).2.trace =
      [⟨5, Capability.SignInit, CapArgs.init exMechRsa⟩] :=
  have hs := (C11_verbatim_delegation (exWorld exRsaActive) 100 exRsaActive exSlot
    ⟨exContext exRsaActive, rfl, rfl⟩ exSignKey exMechRsa 5 (some exHello) 6 exOut (some 2)).2
    (by decide) rfl
  have hi := (C11_verbatim_delegation (exWorld exSession) 100 exSession exSlot
    ⟨exContext exSession, rfl, rfl⟩ exSignKey exMechRsa 5 (some exHello) 6 exOut (some 2)).1
    (by decide) rfl
  ⟨(hs.2.2.2.2.1 _ rfl).1, (hs.2.2.2.2.1 _ rfl).2, (hi.2.2 _ rfl).1, (hi.2.2 _ rfl).2⟩

/-- C12 (no streaming fallback for Encrypt and Decrypt): on an Active session whose active
object resolves, each of C_EncryptUpdate, C_EncryptFinal, C_DecryptUpdate and
C_DecryptFinal for which the object has no native capability returns
CKR_FUNCTION_NOT_SUPPORTED and leaves the whole module state unchanged, so no capability
is invoked (the single-shot one neither) and the session stays Active as it was;
likewise C_Encrypt and C_Decrypt return CKR_FUNCTION_NOT_SUPPORTED when the single-shot
capability is absent, without invoking a capability. -/
theorem C12_no_streaming_fallback (w : World) (hSession : CK_SESSION_HANDLE)
    (session : p11Session_t) (slot : p11Slot_t) (hr : w.Resolves hSession session slot)
    (hact : session.Active) (object : p11Object_t)
    (hobj : activeObject slot session = .ok object)
    (pIn : CK_BYTE_PTR) (ulInLen : CK_ULONG) (pOut : CK_BYTE_PTR) (pulOutLen : CK_ULONG_PTR) :
    (object.C_EncryptUpdate = none →
      C_EncryptUpdate w hSession pIn ulInLen pOut pulOutLen = (CKR_FUNCTION_NOT_SUPPORTED, w)) ∧
    (object.C_EncryptFinal = none →
      C_EncryptFinal w hSession pOut pulOutLen = (CKR_FUNCTION_NOT_SUPPORTED, w)) ∧
    (object.C_DecryptUpdate = none →
      C_DecryptUpdate w hSession pIn ulInLen pOut pulOutLen = (CKR_FUNCTION_NOT_SUPPORTED, w)) ∧
    (object.C_DecryptFinal = none →
      C_DecryptFinal w hSession pOut pulOutLen = (CKR_FUNCTION_NOT_SUPPORTED, w)) ∧
    (object.C_Encrypt = none →
      C_Encrypt w hSession pIn ulInLen pOut pulOutLen = (CKR_FUNCTION_NOT_SUPPORTED, w)) ∧
    (object.C_Decrypt = none →
      (C_Decrypt w hSession pIn ulInLen pOut pulOutLen).1 = CKR_FUNCTION_NOT_SUPPORTED ∧
      (C_Decrypt w hSession pIn ulInLen pOut pulOutLen).2.trace = w.trace) ∧
    w.session? hSession = some session := by
  have hsess := hr.session?
  obtain ⟨ctx, hctx, hs⟩ := id hr
  have hact' : session.activeObjectHandle ≠ CK_INVALID_HANDLE := hact
  unfold activeObject at hobj
  refine ⟨?_, ?_, ?_, ?_, ?_, ?_, hsess.1⟩
  · intro hn; simp [C_EncryptUpdate, hctx, hs, hact', hobj, hn]
  · intro hn; simp [C_EncryptFinal, hctx, hs, hact', hobj, hn]
  · intro hn; simp [C_DecryptUpdate, hctx, hs, hact', hobj, hn]
  · intro hn; simp [C_DecryptFinal, hctx, hs, hact', hobj, hn]
  · intro hn; simp [C_Encrypt, hctx, hs, hact', hobj, hn]
  · intro hn; simp [C_Decrypt, hctx, hs, hact', hobj, hn]

/-- Witness of C12: the example session Active on key 5, which has no native
EncryptUpdate and no native DecryptFinal (it does have single-shot Decrypt). -/
theorem C12_no_streaming_fallback_witness :
    C_EncryptUpdate (exWorld exRsaActive) 100 (some exHello) 6 exOut (some 2)
      = (CKR_FUNCTION_NOT_SUPPORTED, exWorld exRsaActive) ∧
    C_DecryptFinal (exWorld exRsaActive) 100 exOut (some 2)
      = (CKR_FUNCTION_NOT_SUPPORTED, exWorld exRsaActive) :=
  have h := C12_no_streaming_fallback (exWorld exRsaActive) 100 exRsaActive exSlot
    ⟨exContext exRsaActive, rfl, rfl⟩ (by decide) exSignKey rfl (some exHello) 6 exOut (some 2)
  ⟨h.1 rfl, h.2.2.2.1 rfl⟩

/-- C13 (sign buffering round-trip): on an Idle session with an empty crypto buffer, for a
key whose object has native SignInit and Sign but neither native SignUpdate nor native
SignFinal, and for parts p1..pn such that C_SignInit and every C_SignUpdate return
CKR_OK: the calls C_SignInit(m, key), C_SignUpdate(p1), ..., C_SignUpdate(pn),
C_SignFinal(non-null output) invoke, after the native SignInit, the native single-shot
Sign exactly once and nothing else, with mechanism m and the concatenation p1 ++ ... ++ pn
as message; C_SignFinal returns the code of that invocation, and afterwards the crypto
buffer is empty and the session is Idle.  The registry is well-formed: its handles fit the
int field activeObjectHandle. -/
theorem C13_sign_buffering_round_trip (w : World) (hSession : CK_SESSION_HANDLE)
    (session : p11Session_t) (slot : p11Slot_t) (hr : w.Resolves hSession session slot)
    (hidle : session.Idle)
    (hempty : session.cryptoBuffer = [] ∧ session.cryptoBufferSize = 0)
    (hwf : slot.handlesFit) (pMechanism : CK_MECHANISM) (hKey : CK_OBJECT_HANDLE)
    (object : p11Object_t) (hk : findSlotObject slot hKey false = .ok object)
    (fi : InitFn) (g : SingleFn) (hInit : object.C_SignInit = some fi)
    (hSign : object.C_Sign = some g) (hNoUpdate : object.C_SignUpdate = none)
    (hNoFinal : object.C_SignFinal = none) (parts : List (List CK_BYTE))
    (hok : ∀ r ∈ codes w (Call.SignInit hSession pMechanism hKey :: signUpdates hSession parts),
      r = CKR_OK)
    (buf : List CK_BYTE) (pulSignatureLen : CK_ULONG_PTR) :
    (C_SignFinal (run w (Call.SignInit hSession pMechanism hKey :: signUpdates hSession parts))
        hSession (some buf) pulSignatureLen).2.trace =
      w.trace ++
        [⟨hKey, Capability.SignInit, CapArgs.init pMechanism⟩,
         ⟨hKey, Capability.Sign, CapArgs.single pMechanism.mechanism (some parts.flatten)
            parts.flatten.length (some buf) pulSignatureLen⟩] ∧
    (C_SignFinal (run w (Call.SignInit hSession pMechanism hKey :: signUpdates hSession parts))
        hSession (some buf) pulSignatureLen).1 =
      g (w.trace ++ [⟨hKey, Capability.SignInit, CapArgs.init pMechanism⟩])
        pMechanism.mechanism (some parts.flatten) parts.flatten.length (some buf)
        pulSignatureLen ∧
    ∃ s', (C_SignFinal (run w (Call.SignInit hSession pMechanism hKey ::
          signUpdates hSession parts)) hSession (some buf) pulSignatureLen).2.session? hSession
        = some s' ∧
      s'.cryptoBuffer = [] ∧ s'.cryptoBufferSize = 0 ∧ s'.Idle := by
  have hfit := fits_of_handlesFit hwf hk
  have hh := findSlotObject_handle hk
  subst hh
  have hcode : (C_SignInit w hSession pMechanism object.handle).1 = CKR_OK :=
    hok _ (by simp [codes, step])
  have hrv : fi w.trace pMechanism = 0 := by
    rw [C_SignInit_code hr hidle hk hInit] at hcode
    exact hcode
  have heq := C_SignInit_ok hr hidle hk hInit hrv
  have hr1 := (hr.log ⟨object.handle, Capability.SignInit, CapArgs.init pMechanism⟩).store
    { session with activeObjectHandle := intOfHandle object.handle
                   activeMechanism := pMechanism.mechanism } rfl rfl
  obtain ⟨hobj1, hact1⟩ := activeObject_of_fits hfit hk
    { session with activeObjectHandle := intOfHandle object.handle
                   activeMechanism := pMechanism.mechanism } rfl
  have hstep : (step w (Call.SignInit hSession pMechanism object.handle)).2 =
      (w.log ⟨object.handle, Capability.SignInit, CapArgs.init pMechanism⟩).store
        { session with activeObjectHandle := intOfHandle object.handle
                       activeMechanism := pMechanism.mechanism } := by
    simp only [step, heq]
  have hok1 : ∀ r ∈ codes ((w.log ⟨object.handle, Capability.SignInit,
      CapArgs.init pMechanism⟩).store
        { session with activeObjectHandle := intOfHandle object.handle
                       activeMechanism := pMechanism.mechanism })
      (signUpdates hSession parts), r = CKR_OK := by
    intro r hrin
    apply hok
    simp only [codes, List.mem_cons]
    right
    rw [hstep]
    exact hrin
  obtain ⟨s2, hr2, hb2, hsz2, ha2, hm2, htr2⟩ := run_signUpdates hSession slot object hNoUpdate
    parts _ _ hr1 hact1 hobj1 hok1
  have hact2 : s2.Active := by
    unfold p11Session_t.Active at hact1 ⊢
    rw [ha2]
    exact hact1
  have hobj2 : activeObject slot s2 = .ok object := by
    unfold activeObject at hobj1 ⊢
    rw [ha2]
    exact hobj1
  have hrun : run w (Call.SignInit hSession pMechanism object.handle :: signUpdates hSession parts) =
      run ((w.log ⟨object.handle, Capability.SignInit, CapArgs.init pMechanism⟩).store
        { session with activeObjectHandle := intOfHandle object.handle
                       activeMechanism := pMechanism.mechanism })
        (signUpdates hSession parts) := by
    simp only [run, hstep]
  rw [hrun]
  obtain ⟨hf1, hf2, hf3⟩ := C_SignFinal_fallback hr2 hact2 hobj2 hNoFinal hSign buf
    pulSignatureLen
  have hb2' : s2.cryptoBuffer = parts.flatten := by rw [hb2]; simp [hempty.1]
  have hsz2' : s2.cryptoBufferSize = parts.flatten.length := by rw [hsz2]; simp [hempty.2]
  have hm2' : s2.activeMechanism = pMechanism.mechanism := hm2
  rw [htr2, hb2', hsz2', hm2'] at hf1 hf2
  refine ⟨?_, ?_, _, hf3, rfl, rfl, rfl⟩
  · rw [hf2]
    simp [World.log]
  · rw [hf1]
    simp [World.log]

/-- Witness of C13: the parts "Hello " and "World" signed with key 5 on the fresh example
session give one native Sign over the eleven bytes of "Hello World". -/
theorem C13_sign_buffering_round_trip_witness :
    (C_SignFinal (run (exWorld exSession)
        (Call.SignInit 100 exMechRsa 5 :: signUpdates 100 [exHello, exWorldText]))
        100 (some [0, 0]) (some 2)).2.trace =
      [] ++
        [⟨5, Capability.SignInit, CapArgs.init exMechRsa⟩,
         ⟨5, Capability.Sign, CapArgs.single exMechRsa.mechanism
            (some [exHello, exWorldText].flatten) [exHello, exWorldText].flatten.length
            (some [0, 0]) (some 2)⟩] ∧
    [exHello, exWorldText].flatten = [72, 101, 108, 108, 111, 32, 87, 111, 114, 108, 100] ∧
    ∃ s', (C_SignFinal (run (exWorld exSession)
        (Call.SignInit 100 exMechRsa 5 :: signUpdates 100 [exHello, exWorldText]))
        100 (some [0, 0]) (some 2)).2.session? 100 = some s' ∧
      s'.cryptoBuffer = [] ∧ s'.cryptoBufferSize = 0 ∧ s'.Idle :=
  have h := C13_sign_buffering_round_trip (exWorld exSession) 100 exSession exSlot
    ⟨exContext exSession, rfl, rfl⟩ (by decide) ⟨rfl, rfl⟩ (by decide) exMechRsa 5 exSignKey rfl
    _ _ rfl rfl rfl rfl [exHello, exWorldText] (by decide) [0, 0] (some 2)
  ⟨h.1, by decide, h.2.2⟩

/-- C14 (buffer growth failure is atomic): on an Active session whose active object
resolves and has no native SignUpdate, if the crypto buffer has to grow and the host
refuses, C_SignUpdate returns CKR_HOST_MEMORY and the whole module state is unchanged (no
byte appended, no capability invoked, session still Active); otherwise it returns CKR_OK,
invokes no capability, and the crypto buffer is its old content followed by the
ulPartLen bytes at pPart, the recorded operation being unchanged. -/
theorem C14_growth_failure_atomic (w : World) (hSession : CK_SESSION_HANDLE)
    (session : p11Session_t) (slot : p11Slot_t) (hr : w.Resolves hSession session slot)
    (hact : session.Active) (object : p11Object_t)
    (hobj : activeObject slot session = .ok object) (hn : object.C_SignUpdate = none)
    (pPart : CK_BYTE_PTR) (ulPartLen : CK_ULONG) :
    ((session.cryptoBufferSize + ulPartLen > session.cryptoBufferMax ∧
        w.hostMemory (session.cryptoBufferSize + ulPartLen) = false) →
      C_SignUpdate w hSession pPart ulPartLen = (CKR_HOST_MEMORY, w) ∧
      w.session? hSession = some session) ∧
    (¬ (session.cryptoBufferSize + ulPartLen > session.cryptoBufferMax ∧
        w.hostMemory (session.cryptoBufferSize + ulPartLen) = false) →
      (C_SignUpdate w hSession pPart ulPartLen).1 = CKR_OK ∧
      (C_SignUpdate w hSession pPart ulPartLen).2.trace = w.trace ∧
      ∃ s', (C_SignUpdate w hSession pPart ulPartLen).2.session? hSession = some s' ∧
        s'.cryptoBuffer = session.cryptoBuffer ++ (pPart.getD []).take ulPartLen ∧
        s'.cryptoBufferSize = session.cryptoBufferSize + ulPartLen ∧
        s'.activeObjectHandle = session.activeObjectHandle ∧
        s'.activeMechanism = session.activeMechanism) := by
  have hsess := hr.session?
  have heq := C_SignUpdate_buffered hr hact hobj hn pPart ulPartLen
  rcases appendToCryptoBuffer_cases w.hostMemory session pPart ulPartLen with
    ⟨hg, hm, ha⟩ | ⟨hng, M, ha⟩
  · refine ⟨fun _ => ⟨?_, hsess.1⟩, fun hc => absurd ⟨hg, hm⟩ hc⟩
    rw [heq, ha]
    simp [hr.store_self]
  · refine ⟨fun hc => absurd hc hng, fun _ => ?_⟩
    rw [heq, ha]
    refine ⟨rfl, by simp, { session with
        cryptoBuffer := session.cryptoBuffer ++ (pPart.getD []).take ulPartLen
        cryptoBufferSize := session.cryptoBufferSize + ulPartLen
        cryptoBufferMax := M }, ?_, rfl, rfl, rfl, rfl⟩
    simp [World.session?_store, hsess.1, hsess.2]

/-- Witness of C14: "Hello " appended on the example session signing with key 5, once on a
host that refuses every growth and once on a host that grants it. -/
theorem C14_growth_failure_atomic_witness :
    C_SignUpdate { exWorld exRsaActive with hostMemory := fun _ => false } 100 (some exHello) 6
      = (CKR_HOST_MEMORY, { exWorld exRsaActive with hostMemory := fun _ => false }) ∧
    (C_SignUpdate (exWorld exRsaActive) 100 (some exHello) 6).1 = CKR_OK ∧
    ∃ s', (C_SignUpdate (exWorld exRsaActive) 100 (some exHello) 6).2.session? 100 = some s' ∧
      s'.cryptoBuffer = exRsaActive.cryptoBuffer ++ ((some exHello : CK_BYTE_PTR).getD []).take 6 ∧
      s'.cryptoBufferSize = exRsaActive.cryptoBufferSize + 6 ∧
      s'.activeObjectHandle = exRsaActive.activeObjectHandle ∧
      s'.activeMechanism = exRsaActive.activeMechanism :=
  have hf := (C14_growth_failure_atomic { exWorld exRsaActive with hostMemory := fun _ => false }
    100 exRsaActive exSlot ⟨exContext exRsaActive, rfl, rfl⟩ (by decide) exSignKey rfl rfl
    (some exHello) 6).1 (by decide)
  have hs := (C14_growth_failure_atomic (exWorld exRsaActive) 100 exRsaActive exSlot
    ⟨exContext exRsaActive, rfl, rfl⟩ (by decide) exSignKey rfl rfl (some exHello) 6).2
    (by decide)
  ⟨hf.1, hs.1, hs.2.2⟩

/-- C15, where the claim as stated fails: with key 4, which accepts SignInit but has neither
native SignFinal nor native Sign, C_SignInit and C_SignUpdate("Hello ") succeed, the
session is Active, and C_SignFinal with a non-null pSignature returns
CKR_FUNCTION_NOT_SUPPORTED while the crypto buffer still holds the six bytes; and on a
session whose active object (handle 99) does not resolve, C_SignFinal with a non-null
pSignature returns the resolver's error and the crypto buffer keeps its eleven bytes. -/
theorem C15_signFinal_early_return_keeps_buffer :
    codes (exWorldB exSession)
      [Call.SignInit 100 exMechRsa 4, Call.SignUpdate 100 (some exHello) 6,
       Call.SignFinal 100 exOut (some 2)] = [CKR_OK, CKR_OK, CKR_FUNCTION_NOT_SUPPORTED] ∧
    ((run (exWorldB exSession)
      [Call.SignInit 100 exMechRsa 4, Call.SignUpdate 100 (some exHello) 6]).session? 100).map
        (fun s => decide s.Active) = some true ∧
    ((run (exWorldB exSession)
      [Call.SignInit 100 exMechRsa 4, Call.SignUpdate 100 (some exHello) 6,
       Call.SignFinal 100 exOut (some 2)]).session? 100).map
        (fun s => (s.cryptoBuffer, s.cryptoBufferSize)) = some (exHello, 6) ∧
    (C_SignFinal (exWorld { exSigning with activeObjectHandle := 99 }) 100 exOut (some 2)).1
      = CKR_OBJECT_HANDLE_INVALID ∧
    ((C_SignFinal (exWorld { exSigning with activeObjectHandle := 99 }) 100 exOut
        (some 2)).2.session? 100).map (fun s => s.cryptoBufferSize) = some 11 := by
  decide

/-- C15 as amended (buffer cleared by a committed SignFinal): on an Active session, after
C_SignFinal with a non-null pSignature the crypto buffer is empty with length zero
whenever the active object resolves and has native SignFinal or native Sign, whatever the
capability returns; when the active object does not resolve, the call returns the
resolver's error and leaves the module state, the crypto buffer included, unchanged. -/
theorem C15_committed_signFinal_clears_buffer (w : World) (hSession : CK_SESSION_HANDLE)
    (session : p11Session_t) (slot : p11Slot_t) (hr : w.Resolves hSession session slot)
    (hact : session.Active) (buf : List CK_BYTE) (pulSignatureLen : CK_ULONG_PTR) :
    (∀ object, activeObject slot session = .ok object →
      (object.C_SignFinal ≠ none ∨ object.C_Sign ≠ none) →
      ∃ s', (C_SignFinal w hSession (some buf) pulSignatureLen).2.session? hSession = some s' ∧
        s'.cryptoBuffer = [] ∧ s'.cryptoBufferSize = 0) ∧
    (∀ e, activeObject slot session = .error e →
      C_SignFinal w hSession (some buf) pulSignatureLen = (e, w) ∧
      w.session? hSession = some session) := by
  have hsess := hr.session?
  obtain ⟨ctx, hctx, hs⟩ := id hr
  have hact' : session.activeObjectHandle ≠ CK_INVALID_HANDLE := hact
  refine ⟨?_, ?_⟩
  · intro object hobj hcap
    unfold activeObject at hobj
    refine ⟨clearCryptoBuffer { session with activeObjectHandle := CK_INVALID_HANDLE }, ?_,
      rfl, rfl⟩
    cases hc1 : object.C_SignFinal with
    | some f =>
      simp [C_SignFinal, hctx, hs, hact', hobj, hc1, World.session?_store, hsess.1, hsess.2,
        clearCryptoBuffer]
    | none =>
      cases hc2 : object.C_Sign with
      | some g =>
        simp [C_SignFinal, hctx, hs, hact', hobj, hc1, hc2, World.session?_store, hsess.1,
          hsess.2, clearCryptoBuffer]
      | none => simp [hc1, hc2] at hcap
  · intro e hobj
    unfold activeObject at hobj
    exact ⟨by simp [C_SignFinal, hctx, hs, hact', hobj], hsess.1⟩

/-- Witness of C15: C_SignFinal with a real buffer on the example session that holds
"Hello World" for key 5. -/
theorem C15_committed_signFinal_clears_buffer_witness :
    ∃ s', (C_SignFinal (exWorld exSigning) 100 (some [0, 0]) (some 2)).2.session? 100 = some s' ∧
      s'.cryptoBuffer = [] ∧ s'.cryptoBufferSize = 0 :=
  (C15_committed_signFinal_clears_buffer (exWorld exSigning) 100 exSigning exSlot
    ⟨exContext exSigning, rfl, rfl⟩ (by decide) [0, 0] (some 2)).1 exSignKey rfl
    (Or.inr (by simp [exSignKey]))

/-- C16, where the claim as stated fails: the calls `exStaleCalls` all return CKR_OK and
lead to a session Active on key 6, which has native SignUpdate and SignFinal, with
"Hello " left in the crypto buffer; C_SignFinal with a non-null output then returns
CKR_OK and the crypto buffer is empty, so its content and length have changed.  Also,
C_SignUpdate on the fresh Idle session is not delegated: it returns
CKR_OPERATION_NOT_INITIALIZED without invoking a capability. -/
theorem C16_native_signFinal_clears_buffer :
    codes (exWorldB exSession) exStaleCalls = [CKR_OK, CKR_OK, CKR_OK, CKR_OK] ∧
    (run (exWorldB exSession) exStaleCalls).session? 100 = some exStale ∧
    (activeObject exSlotB exStale).toOption.map
      (fun o => (o.handle, o.C_SignUpdate.isSome, o.C_SignFinal.isSome)) = some (6, true, true) ∧
    (exStale.cryptoBuffer, exStale.cryptoBufferSize) = (exHello, 6) ∧
    (C_SignFinal (run (exWorldB exSession) exStaleCalls) 100 exOut (some 2)).1 = CKR_OK ∧
    ((C_SignFinal (run (exWorldB exSession) exStaleCalls) 100 exOut (some 2)).2.session? 100).map
      (fun s => (s.cryptoBuffer, s.cryptoBufferSize)) = some ([], 0) ∧
    (C_SignUpdate (exWorldB exSession) 100 (some exHello) 6).1 = CKR_OPERATION_NOT_INITIALIZED ∧
    (C_SignUpdate (exWorldB exSession) 100 (some exHello) 6).2.trace = [] := by
  decide

/-- C16 as amended (native streaming and the crypto buffer): C_SignInit never changes the
crypto buffer and invokes at most the native SignInit, with the mechanism as argument.
On an Active session whose active object resolves: if the object has native SignUpdate,
C_SignUpdate is delegated to it with the caller's part and leaves the session unchanged;
if the object has native SignFinal, C_SignFinal is delegated to it with the caller's
output arguments, never the crypto buffer, and leaves the session unchanged when
pSignature is null, but clears the crypto buffer (and the recorded operation) when
pSignature is non-null. -/
theorem C16_native_streaming_buffer (w : World) (hSession : CK_SESSION_HANDLE)
    (session : p11Session_t) (slot : p11Slot_t) (hr : w.Resolves hSession session slot)
    (pMechanism : CK_MECHANISM) (hKey : CK_OBJECT_HANDLE)
    (pPart : CK_BYTE_PTR) (ulPartLen : CK_ULONG)
    (pSignature : CK_BYTE_PTR) (pulSignatureLen : CK_ULONG_PTR) :
    ((∃ s', (C_SignInit w hSession pMechanism hKey).2.session? hSession = some s' ∧
        s'.cryptoBuffer = session.cryptoBuffer ∧
        s'.cryptoBufferSize = session.cryptoBufferSize ∧
        s'.cryptoBufferMax = session.cryptoBufferMax) ∧
      ((C_SignInit w hSession pMechanism hKey).2.trace = w.trace ∨
        ∃ o, (C_SignInit w hSession pMechanism hKey).2.trace =
          w.trace ++ [⟨o, Capability.SignInit, CapArgs.init pMechanism⟩])) ∧
    (session.Active → ∀ object, activeObject slot session = .ok object →
      (∀ f, object.C_SignUpdate = some f →
        (C_SignUpdate w hSession pPart ulPartLen).1 =
          f w.trace session.activeMechanism pPart ulPartLen ∧
        (C_SignUpdate w hSession pPart ulPartLen).2.trace = w.trace ++
          [⟨object.handle, Capability.SignUpdate,
            CapArgs.part session.activeMechanism pPart ulPartLen⟩] ∧
        (C_SignUpdate w hSession pPart ulPartLen).2.session? hSession = some session) ∧
      (∀ f, object.C_SignFinal = some f →
        (C_SignFinal w hSession pSignature pulSignatureLen).1 =
          f w.trace session.activeMechanism pSignature pulSignatureLen ∧
        (C_SignFinal w hSession pSignature pulSignatureLen).2.trace = w.trace ++
          [⟨object.handle, Capability.SignFinal,
            CapArgs.final session.activeMechanism pSignature pulSignatureLen⟩] ∧
        (pSignature = none →
          (C_SignFinal w hSession pSignature pulSignatureLen).2.session? hSession
            = some session) ∧
        (pSignature ≠ none →
          (C_SignFinal w hSession pSignature pulSignatureLen).2.session? hSession = some
            { session with activeObjectHandle := CK_INVALID_HANDLE
                           cryptoBuffer := [], cryptoBufferSize := 0 }))) := by
  have hsess := hr.session?
  have hself := hr.store_self
  refine ⟨C_SignInit_buffer w hSession session slot hr pMechanism hKey, ?_⟩
  obtain ⟨ctx, hctx, hs⟩ := id hr
  intro hact object hobj
  have hact' : session.activeObjectHandle ≠ CK_INVALID_HANDLE := hact
  unfold activeObject at hobj
  refine ⟨?_, ?_⟩
  · intro f hf
    refine ⟨?_, ?_, ?_⟩
    · simp [C_SignUpdate, hctx, hs, hact', hobj, hf]
    · simp [C_SignUpdate, hctx, hs, hact', hobj, hf, World.log]
    · simp [C_SignUpdate, hctx, hs, hact', hobj, hf, hsess.1]
  · intro f hf
    refine ⟨?_, ?_, ?_, ?_⟩
    · cases pSignature <;> simp [C_SignFinal, hctx, hs, hact', hobj, hf]
    · cases pSignature <;> simp [C_SignFinal, hctx, hs, hact', hobj, hf, World.log]
    · intro hnull
      subst hnull
      simp [C_SignFinal, hctx, hs, hact', hobj, hf, hself, hsess.1]
    · intro hnn
      cases pSignature with
      | none => exact absurd rfl hnn
      | some b =>
        simp [C_SignFinal, hctx, hs, hact', hobj, hf, World.session?_store, hsess.1, hsess.2,
          clearCryptoBuffer]

/-- Witness of C16: the example session Active on the streaming key 6 with "Hello " in the
crypto buffer: C_SignUpdate and the length query of C_SignFinal leave it as it is. -/
theorem C16_native_streaming_buffer_witness :
    (C_SignUpdate (exWorldB exStale) 100 (some exWorldText) 5).2.session? 100 = some exStale ∧
    (C_SignFinal (exWorldB exStale) 100 none (some 0)).2.session? 100 = some exStale ∧
    (C_SignFinal (exWorldB exStale) 100 none (some 0)).2.trace =
      [] ++ [⟨6, Capability.SignFinal, CapArgs.final 1 none (some 0)⟩] :=
  have h := (C16_native_streaming_buffer (exWorldB exStale) 100 exStale exSlotB
    ⟨_, rfl, rfl⟩ exMechRsa 6 (some exWorldText) 5 none (some 0)).2 (by decide) exStreamKey rfl
  ⟨(h.1 _ rfl).2.2, (h.2 _ rfl).2.2.1 rfl, (h.2 _ rfl).2.1⟩

/-- C17 (unsupported families are unconditional): with the module initialized, every entry
point of the digest, verify, sign-recover, verify-recover, combined-update, key
generation, wrap, unwrap, derive and random families returns
CKR_FUNCTION_NOT_SUPPORTED, which is not CKR_OK, for every argument and every module
state, and leaves the module state unchanged. -/
theorem C17_unsupported_families (w : World) (ctx : p11Context_t) (c : Call)
    (hctx : w.context = some ctx) (hc : c.isUnsupportedFamily = true) :
    step w c = (CKR_FUNCTION_NOT_SUPPORTED, w) ∧ (step w c).1 ≠ CKR_OK := by
  have hne : CKR_FUNCTION_NOT_SUPPORTED ≠ CKR_OK := by decide
  cases c <;> simp [Call.isUnsupportedFamily] at hc <;>
    simp [step, C_DigestInit, C_Digest,
    C_DigestUpdate, C_DigestKey, C_DigestFinal,
    C_SignRecoverInit, C_SignRecover, C_VerifyInit, C_Verify, C_VerifyUpdate, C_VerifyFinal,
    C_VerifyRecoverInit, C_VerifyRecover, C_DigestEncryptUpdate, C_DecryptDigestUpdate,
    C_SignEncryptUpdate, C_DecryptVerifyUpdate, C_GenerateKey, C_GenerateKeyPair, C_WrapKey,
    C_UnwrapKey, C_DeriveKey, C_SeedRandom, C_GenerateRandom, hctx, hne]

/-- Witness of C17: C_GenerateRandom with a session handle that does not resolve, while
the only session is Active. -/
theorem C17_unsupported_families_witness :
    step (exWorld (exActive 5)) (Call.GenerateRandom 4711 none 16)
      = (CKR_FUNCTION_NOT_SUPPORTED, exWorld (exActive 5)) ∧
    (step (exWorld (exActive 5)) (Call.GenerateRandom 4711 none 16)).1 ≠ CKR_OK :=
  C17_unsupported_families (exWorld (exActive 5)) (exContext (exActive 5))
    (Call.GenerateRandom 4711 none 16) rfl rfl

/-- C18 (legacy no-op): with the module initialized, C_GetFunctionStatus and
C_CancelFunction return CKR_FUNCTION_NOT_PARALLEL for every session handle and every
module state, and leave the module state unchanged. -/
theorem C18_legacy_no_op (w : World) (ctx : p11Context_t) (c : Call)
    (hctx : w.context = some ctx) (hc : c.isLegacy = true) :
    step w c = (CKR_FUNCTION_NOT_PARALLEL, w) := by
  cases c <;> simp [Call.isLegacy] at hc <;>
    simp [step, C_GetFunctionStatus, C_CancelFunction, hctx]

/-- Witness of C18: C_CancelFunction with a session handle that does not resolve. -/
theorem C18_legacy_no_op_witness :
    step (exWorld (exActive 5)) (Call.CancelFunction 4711)
      = (CKR_FUNCTION_NOT_PARALLEL, exWorld (exActive 5)) :=
  C18_legacy_no_op (exWorld (exActive 5)) (exContext (exActive 5)) (Call.CancelFunction 4711)
    rfl rfl

/-- C19 (invalid session handle): with the module initialized, each of the twelve Encrypt,
Decrypt and Sign entry points called with a session handle that no session of the pool
carries returns CKR_SESSION_HANDLE_INVALID and leaves the whole module state unchanged:
no operation state is looked at, no object is looked up, no capability is invoked. -/
theorem C19_invalid_session_handle (w : World) (ctx : p11Context_t)
    (hSession : CK_SESSION_HANDLE) (hctx : w.context = some ctx)
    (hn : ∀ s ∈ ctx.sessionPool, s.handle ≠ hSession)
    (pMechanism : CK_MECHANISM) (hKey : CK_OBJECT_HANDLE)
    (pIn : CK_BYTE_PTR) (ulInLen : CK_ULONG) (pOut : CK_BYTE_PTR) (pulOutLen : CK_ULONG_PTR) :
    C_EncryptInit w hSession pMechanism hKey = (CKR_SESSION_HANDLE_INVALID, w) ∧
    C_Encrypt w hSession pIn ulInLen pOut pulOutLen = (CKR_SESSION_HANDLE_INVALID, w) ∧
    C_EncryptUpdate w hSession pIn ulInLen pOut pulOutLen = (CKR_SESSION_HANDLE_INVALID, w) ∧
    C_EncryptFinal w hSession pOut pulOutLen = (CKR_SESSION_HANDLE_INVALID, w) ∧
    C_DecryptInit w hSession pMechanism hKey = (CKR_SESSION_HANDLE_INVALID, w) ∧
    C_Decrypt w hSession pIn ulInLen pOut pulOutLen = (CKR_SESSION_HANDLE_INVALID, w) ∧
    C_DecryptUpdate w hSession pIn ulInLen pOut pulOutLen = (CKR_SESSION_HANDLE_INVALID, w) ∧
    C_DecryptFinal w hSession pOut pulOutLen = (CKR_SESSION_HANDLE_INVALID, w) ∧
    C_SignInit w hSession pMechanism hKey = (CKR_SESSION_HANDLE_INVALID, w) ∧
    C_Sign w hSession pIn ulInLen pOut pulOutLen = (CKR_SESSION_HANDLE_INVALID, w) ∧
    C_SignUpdate w hSession pIn ulInLen = (CKR_SESSION_HANDLE_INVALID, w) ∧
    C_SignFinal w hSession pOut pulOutLen = (CKR_SESSION_HANDLE_INVALID, w) := by
  have hs : safeFindSessionAndLockSlot ctx.sessionPool ctx.slotPool hSession =
      .error CKR_SESSION_HANDLE_INVALID := safeFind_unresolved hn
  simp [C_EncryptInit, C_Encrypt, C_EncryptUpdate, C_EncryptFinal, C_DecryptInit, C_Decrypt,
    C_DecryptUpdate, C_DecryptFinal, C_SignInit, C_Sign, C_SignUpdate, C_SignFinal, hctx, hs]

/-- Witness of C19: session handle 4711 while the pool holds only session 100. -/
theorem C19_invalid_session_handle_witness :
    C_EncryptInit (exWorld exSession) 4711 exMechAes 7
      = (CKR_SESSION_HANDLE_INVALID, exWorld exSession) ∧
    C_SignFinal (exWorld exSession) 4711 exOut (some 2)
      = (CKR_SESSION_HANDLE_INVALID, exWorld exSession) :=
  have h := C19_invalid_session_handle (exWorld exSession) (exContext exSession) 4711 rfl
    (by decide) exMechAes 7 (some exHello) 6 exOut (some 2)
  ⟨h.1, h.2.2.2.2.2.2.2.2.2.2.2⟩

/-- C20 (Encrypt scenario): on an Idle session, for a key whose object has native
EncryptInit, Encrypt and EncryptFinal that always return OK: C_EncryptInit returns
CKR_OK, the following C_Encrypt returns CKR_OK and the session is Active after it, a
second C_EncryptInit (any mechanism, any key) returns CKR_OPERATION_ACTIVE, and the
following C_EncryptFinal returns CKR_OK and leaves the session Idle.  The registry is
well-formed: its handles fit the int field activeObjectHandle. -/
theorem C20_encrypt_scenario (w : World) (hSession : CK_SESSION_HANDLE)
    (session : p11Session_t) (slot : p11Slot_t) (hr : w.Resolves hSession session slot)
    (hidle : session.Idle) (hwf : slot.handlesFit) (hKey : CK_OBJECT_HANDLE)
    (object : p11Object_t) (hk : findSlotObject slot hKey false = .ok object)
    (fi : InitFn) (fe : SingleFn) (ff : FinalFn)
    (hInit : object.C_EncryptInit = some fi) (hEnc : object.C_Encrypt = some fe)
    (hFin : object.C_EncryptFinal = some ff)
    (hokInit : ∀ t m, fi t m = CKR_OK) (hokEnc : ∀ t m a n b l, fe t m a n b l = CKR_OK)
    (hokFin : ∀ t m b l, ff t m b l = CKR_OK)
    (pMechanism pMechanism2 : CK_MECHANISM) (hKey2 : CK_OBJECT_HANDLE)
    (pData : CK_BYTE_PTR) (ulDataLen : CK_ULONG) (pEncryptedData : CK_BYTE_PTR)
    (pulEncryptedDataLen : CK_ULONG_PTR) (pLastEncryptedPart : CK_BYTE_PTR)
    (pulLastEncryptedPartLen : CK_ULONG_PTR) :
    codes w
      [Call.EncryptInit hSession pMechanism hKey,
       Call.Encrypt hSession pData ulDataLen pEncryptedData pulEncryptedDataLen,
       Call.EncryptInit hSession pMechanism2 hKey2,
       Call.EncryptFinal hSession pLastEncryptedPart pulLastEncryptedPartLen]
      = [CKR_OK, CKR_OK, CKR_OPERATION_ACTIVE, CKR_OK] ∧
    (∃ s2, (run w
      [Call.EncryptInit hSession pMechanism hKey,
       Call.Encrypt hSession pData ulDataLen pEncryptedData pulEncryptedDataLen]).session?
        hSession = some s2 ∧ s2.Active) ∧
    (∃ s4, (run w
      [Call.EncryptInit hSession pMechanism hKey,
       Call.Encrypt hSession pData ulDataLen pEncryptedData pulEncryptedDataLen,
       Call.EncryptInit hSession pMechanism2 hKey2,
       Call.EncryptFinal hSession pLastEncryptedPart pulLastEncryptedPartLen]).session?
        hSession = some s4 ∧ s4.Idle) := by
  have hfit := fits_of_handlesFit hwf hk
  have heq1 := C_EncryptInit_ok hr hidle hk hInit (hokInit w.trace pMechanism)
  have hr1 := (hr.log ⟨object.handle, Capability.EncryptInit, CapArgs.init pMechanism⟩).store
    { session with activeObjectHandle := intOfHandle object.handle } rfl rfl
  obtain ⟨hobj1, hact1⟩ := activeObject_of_fits hfit hk
    { session with activeObjectHandle := intOfHandle object.handle } rfl
  generalize hs1 : ({ session with activeObjectHandle := intOfHandle object.handle }
    : p11Session_t) = s1 at heq1 hr1 hobj1 hact1
  generalize hw1 : (w.log ⟨object.handle, Capability.EncryptInit,
    CapArgs.init pMechanism⟩).store s1 = w1 at heq1 hr1
  have hsess1 := hr1.session?
  obtain ⟨ctx1, hctx1, hsf1⟩ := id hr1
  have hact1' : s1.activeObjectHandle ≠ CK_INVALID_HANDLE := hact1
  unfold activeObject at hobj1
  have heq2 : C_Encrypt w1 hSession pData ulDataLen pEncryptedData pulEncryptedDataLen =
      (CKR_OK, w1.log ⟨object.handle, Capability.Encrypt,
        CapArgs.single s1.activeMechanism pData ulDataLen pEncryptedData
          pulEncryptedDataLen⟩) := by
    simp [C_Encrypt, hctx1, hsf1, hact1', hobj1, hEnc, hokEnc]
  generalize hw2 : w1.log ⟨object.handle, Capability.Encrypt,
    CapArgs.single s1.activeMechanism pData ulDataLen pEncryptedData pulEncryptedDataLen⟩
    = w2 at heq2
  have hr2 : w2.Resolves hSession s1 slot := by rw [← hw2]; exact hr1.log _
  have hsess2 := hr2.session?
  obtain ⟨ctx2, hctx2, hsf2⟩ := id hr2
  have heq3 : C_EncryptInit w2 hSession pMechanism2 hKey2 = (CKR_OPERATION_ACTIVE, w2) := by
    simp [C_EncryptInit, hctx2, hsf2, hact1']
  have heq4 : (C_EncryptFinal w2 hSession pLastEncryptedPart pulLastEncryptedPartLen).1 = CKR_OK ∧
      (C_EncryptFinal w2 hSession pLastEncryptedPart pulLastEncryptedPartLen).2.session? hSession
        = some { s1 with activeObjectHandle := CK_INVALID_HANDLE } := by
    have hz : ∀ t m b l, ff t m b l = 0 := hokFin
    refine ⟨?_, ?_⟩
    · simp [C_EncryptFinal, hctx2, hsf2, hact1', hobj1, hFin, hz]
    · simp [C_EncryptFinal, hctx2, hsf2, hact1', hobj1, hFin, hz, World.session?_store,
        hsess2.1, hsess2.2]
  refine ⟨?_, ⟨s1, ?_, hact1⟩, ⟨{ s1 with activeObjectHandle := CK_INVALID_HANDLE }, ?_, rfl⟩⟩
  · simp only [codes, step, heq1, heq2, heq3, heq4.1]
  · simp only [run, step, heq1, heq2]
    exact hsess2.1
  · simp only [run, step, heq1, heq2, heq3]
    exact heq4.2

/-- Witness of C20: key 7 of the example slot on the fresh example session, "AB" as
data. -/
theorem C20_encrypt_scenario_witness :
    codes (exWorld exSession)
      [Call.EncryptInit 100 exMechAes 7,
       Call.Encrypt 100 (some [65, 66]) 2 exOut (some 2),
       Call.EncryptInit 100 exMechAes 7,
       Call.EncryptFinal 100 exOut (some 2)]
      = [CKR_OK, CKR_OK, CKR_OPERATION_ACTIVE, CKR_OK] ∧
    (∃ s2, (run (exWorld exSession)
      [Call.EncryptInit 100 exMechAes 7,
       Call.Encrypt 100 (some [65, 66]) 2 exOut (some 2)]).session? 100 = some s2 ∧ s2.Active) ∧
    (∃ s4, (run (exWorld exSession)
      [Call.EncryptInit 100 exMechAes 7,
       Call.Encrypt 100 (some [65, 66]) 2 exOut (some 2),
       Call.EncryptInit 100 exMechAes 7,
       Call.EncryptFinal 100 exOut (some 2)]).session? 100 = some s4 ∧ s4.Idle) :=
  C20_encrypt_scenario (exWorld exSession) 100 exSession exSlot ⟨exContext exSession, rfl, rfl⟩
    (by decide) (by decide) 7 exCipherKey rfl _ _ _ rfl rfl rfl (fun _ _ => rfl)
    (fun _ _ _ _ _ _ => rfl) (fun _ _ _ _ => rfl) exMechAes exMechAes 7 (some [65, 66]) 2 exOut
    (some 2) exOut (some 2)

/-! ## How one call changes a session, the trace and the host

Frame lemmas per entry point, assembled into lemmas on `step`. -/

set_option linter.unusedTactic false
set_option linter.unreachableTactic false

@[simp] theorem World.hostMemory_store (w : World) (s : p11Session_t) :
    (w.store s).hostMemory = w.hostMemory := by
  unfold World.store; cases w.context <;> rfl

@[simp] theorem World.hostMemory_log (w : World) (c : CapCall) :
    (w.log c).hostMemory = w.hostMemory := rfl

theorem resolves_or_not {w : World} {h : CK_SESSION_HANDLE} {s : p11Session_t}
    (hs : w.session? h = some s) :
    (∃ slot, w.Resolves h s slot) ∨
    (∃ ctx e, w.context = some ctx ∧
      safeFindSessionAndLockSlot ctx.sessionPool ctx.slotPool h = .error e) := by
  cases hc : w.context with
  | none => simp [World.session?, hc] at hs
  | some ctx =>
    cases hsf : safeFindSessionAndLockSlot ctx.sessionPool ctx.slotPool h with
    | error e => exact Or.inr ⟨ctx, e, rfl, hsf⟩
    | ok p =>
      obtain ⟨s2, sl2⟩ := p
      have := (resolved_vs_found hc hsf hs).2.2 rfl
      subst this
      exact Or.inl ⟨sl2, ctx, hc, hsf⟩

theorem C_EncryptInit_hostMemory (w : World) (h' : CK_SESSION_HANDLE) (m : CK_MECHANISM) (k : CK_OBJECT_HANDLE) :
    (C_EncryptInit w h' m k).2.hostMemory = w.hostMemory := by
  unfold C_EncryptInit
  repeat' split
  all_goals first
    | rfl
    | (simp; done)
    | (dsimp only; split <;> simp)

theorem C_EncryptInit_trace (w : World) (h' : CK_SESSION_HANDLE) (m : CK_MECHANISM) (k : CK_OBJECT_HANDLE) :
    ∃ es, (C_EncryptInit w h' m k).2.trace = w.trace ++ es ∧ es.length ≤ 1 := by
  unfold C_EncryptInit
  repeat' split
  all_goals first
    | (simp [World.log]; done)
    | (dsimp only; split <;> simp [World.log])

theorem C_EncryptInit_other (w : World) (h h' : CK_SESSION_HANDLE) (hne : h' ≠ h) (m : CK_MECHANISM) (k : CK_OBJECT_HANDLE) :
    (C_EncryptInit w h' m k).2.session? h = w.session? h := by
  cases hc : w.context with
  | none => simp [C_EncryptInit, hc]
  | some ctx =>
    cases hsf : safeFindSessionAndLockSlot ctx.sessionPool ctx.slotPool h' with
    | error e => simp [C_EncryptInit, hc, hsf]
    | ok p =>
      obtain ⟨s2, sl2⟩ := p
      have h2 := (safeFind_ok hsf).2
      have hne' : ¬ s2.handle = h := by rw [h2]; exact hne
      simp only [C_EncryptInit, hc, hsf]
      repeat' split
      all_goals first
        | (simp [World.session?_store, hne', clearCryptoBuffer,
            (appendToCryptoBuffer_frame _ _ _ _).1]; done)
        | (dsimp only; split <;> simp [World.session?_store, hne'])

theorem C_EncryptInit_effect (w : World) (h : CK_SESSION_HANDLE) (s : p11Session_t)
    (hs : w.session? h = some s) (h' : CK_SESSION_HANDLE) (m : CK_MECHANISM) (k : CK_OBJECT_HANDLE) :
    (C_EncryptInit w h' m k).2.session? h = some s ∨
    (h' = h ∧ s.Idle ∧ (C_EncryptInit w h' m k).1 = CKR_OK ∧
      ∃ s', (C_EncryptInit w h' m k).2.session? h = some s' ∧
        s'.cryptoBuffer = s.cryptoBuffer ∧ s'.cryptoBufferSize = s.cryptoBufferSize ∧
        s'.cryptoBufferMax = s.cryptoBufferMax) := by
  by_cases hh : h' = h
  · subst hh
    rcases resolves_or_not hs with ⟨slot, hr⟩ | ⟨ctx, e, hc, hsf⟩
    · have hsess := hr.session?
      obtain ⟨ctx, hctx, hsf⟩ := id hr
      simp only [C_EncryptInit, hctx, hsf]
      repeat' split
      all_goals first
        | (left; simp [World.session?_store, hsess.1, hsess.2, *]; done)
        | (right; simp_all [World.session?_store, p11Session_t.Idle, CKR_OK]; done)
    · left; simp [C_EncryptInit, hc, hsf, hs]
  · left; rw [C_EncryptInit_other w h h' hh]; exact hs

theorem C_Encrypt_hostMemory (w : World) (h' : CK_SESSION_HANDLE) (a : CK_BYTE_PTR) (n : CK_ULONG) (o : CK_BYTE_PTR) (l : CK_ULONG_PTR) :
    (C_Encrypt w h' a n o l).2.hostMemory = w.hostMemory := by
  unfold C_Encrypt
  repeat' split
  all_goals first
    | rfl
    | (simp; done)
    | (dsimp only; split <;> simp)

theorem C_Encrypt_trace (w : World) (h' : CK_SESSION_HANDLE) (a : CK_BYTE_PTR) (n : CK_ULONG) (o : CK_BYTE_PTR) (l : CK_ULONG_PTR) :
    ∃ es, (C_Encrypt w h' a n o l).2.trace = w.trace ++ es ∧ es.length ≤ 1 := by
  unfold C_Encrypt
  repeat' split
  all_goals first
    | (simp [World.log]; done)
    | (dsimp only; split <;> simp [World.log])

theorem C_Encrypt_other (w : World) (h h' : CK_SESSION_HANDLE) (hne : h' ≠ h) (a : CK_BYTE_PTR) (n : CK_ULONG) (o : CK_BYTE_PTR) (l : CK_ULONG_PTR) :
    (C_Encrypt w h' a n o l).2.session? h = w.session? h := by
  cases hc : w.context with
  | none => simp [C_Encrypt, hc]
  | some ctx =>
    cases hsf : safeFindSessionAndLockSlot ctx.sessionPool ctx.slotPool h' with
    | error e => simp [C_Encrypt, hc, hsf]
    | ok p =>
      obtain ⟨s2, sl2⟩ := p
      have h2 := (safeFind_ok hsf).2
      have hne' : ¬ s2.handle = h := by rw [h2]; exact hne
      simp only [C_Encrypt, hc, hsf]
      repeat' split
      all_goals first
        | (simp [World.session?_store, hne', clearCryptoBuffer,
            (appendToCryptoBuffer_frame _ _ _ _).1]; done)
        | (dsimp only; split <;> simp [World.session?_store, hne'])

theorem C_Encrypt_effect (w : World) (h : CK_SESSION_HANDLE) (s : p11Session_t)
    (hs : w.session? h = some s) (h' : CK_SESSION_HANDLE) (a : CK_BYTE_PTR) (n : CK_ULONG) (o : CK_BYTE_PTR) (l : CK_ULONG_PTR) :
    (C_Encrypt w h' a n o l).2.session? h = some s := by
  rw [session?_congr (C_Encrypt_context w h' a n o l) h]
  exact hs

theorem C_EncryptUpdate_hostMemory (w : World) (h' : CK_SESSION_HANDLE) (a : CK_BYTE_PTR) (n : CK_ULONG) (o : CK_BYTE_PTR) (l : CK_ULONG_PTR) :
    (C_EncryptUpdate w h' a n o l).2.hostMemory = w.hostMemory := by
  unfold C_EncryptUpdate
  repeat' split
  all_goals first
    | rfl
    | (simp; done)
    | (dsimp only; split <;> simp)

theorem C_EncryptUpdate_trace (w : World) (h' : CK_SESSION_HANDLE) (a : CK_BYTE_PTR) (n : CK_ULONG) (o : CK_BYTE_PTR) (l : CK_ULONG_PTR) :
    ∃ es, (C_EncryptUpdate w h' a n o l).2.trace = w.trace ++ es ∧ es.length ≤ 1 := by
  unfold C_EncryptUpdate
  repeat' split
  all_goals first
    | (simp [World.log]; done)
    | (dsimp only; split <;> simp [World.log])

theorem C_EncryptUpdate_other (w : World) (h h' : CK_SESSION_HANDLE) (hne : h' ≠ h) (a : CK_BYTE_PTR) (n : CK_ULONG) (o : CK_BYTE_PTR) (l : CK_ULONG_PTR) :
    (C_EncryptUpdate w h' a n o l).2.session? h = w.session? h := by
  cases hc : w.context with
  | none => simp [C_EncryptUpdate, hc]
  | some ctx =>
    cases hsf : safeFindSessionAndLockSlot ctx.sessionPool ctx.slotPool h' with
    | error e => simp [C_EncryptUpdate, hc, hsf]
    | ok p =>
      obtain ⟨s2, sl2⟩ := p
      have h2 := (safeFind_ok hsf).2
      have hne' : ¬ s2.handle = h := by rw [h2]; exact hne
      simp only [C_EncryptUpdate, hc, hsf]
      repeat' split
      all_goals first
        | (simp [World.session?_store, hne', clearCryptoBuffer,
            (appendToCryptoBuffer_frame _ _ _ _).1]; done)
        | (dsimp only; split <;> simp [World.session?_store, hne'])

theorem C_EncryptUpdate_effect (w : World) (h : CK_SESSION_HANDLE) (s : p11Session_t)
    (hs : w.session? h = some s) (h' : CK_SESSION_HANDLE) (a : CK_BYTE_PTR) (n : CK_ULONG) (o : CK_BYTE_PTR) (l : CK_ULONG_PTR) :
    (C_EncryptUpdate w h' a n o l).2.session? h = some s := by
  rw [session?_congr (C_EncryptUpdate_context w h' a n o l) h]
  exact hs

theorem C_EncryptFinal_hostMemory (w : World) (h' : CK_SESSION_HANDLE) (o : CK_BYTE_PTR) (l : CK_ULONG_PTR) :
    (C_EncryptFinal w h' o l).2.hostMemory = w.hostMemory := by
  unfold C_EncryptFinal
  repeat' split
  all_goals first
    | rfl
    | (simp; done)
    | (dsimp only; split <;> simp)

theorem C_EncryptFinal_trace (w : World) (h' : CK_SESSION_HANDLE) (o : CK_BYTE_PTR) (l : CK_ULONG_PTR) :
    ∃ es, (C_EncryptFinal w h' o l).2.trace = w.trace ++ es ∧ es.length ≤ 1 := by
  unfold C_EncryptFinal
  repeat' split
  all_goals first
    | (simp [World.log]; done)
    | (dsimp only; split <;> simp [World.log])

theorem C_EncryptFinal_other (w : World) (h h' : CK_SESSION_HANDLE) (hne : h' ≠ h) (o : CK_BYTE_PTR) (l : CK_ULONG_PTR) :
    (C_EncryptFinal w h' o l).2.session? h = w.session? h := by
  cases hc : w.context with
  | none => simp [C_EncryptFinal, hc]
  | some ctx =>
    cases hsf : safeFindSessionAndLockSlot ctx.sessionPool ctx.slotPool h' with
    | error e => simp [C_EncryptFinal, hc, hsf]
    | ok p =>
      obtain ⟨s2, sl2⟩ := p
      have h2 := (safeFind_ok hsf).2
      have hne' : ¬ s2.handle = h := by rw [h2]; exact hne
      simp only [C_EncryptFinal, hc, hsf]
      repeat' split
      all_goals first
        | (simp [World.session?_store, hne', clearCryptoBuffer,
            (appendToCryptoBuffer_frame _ _ _ _).1]; done)
        | (dsimp only; split <;> simp [World.session?_store, hne'])

theorem C_EncryptFinal_effect (w : World) (h : CK_SESSION_HANDLE) (s : p11Session_t)
    (hs : w.session? h = some s) (h' : CK_SESSION_HANDLE) (o : CK_BYTE_PTR) (l : CK_ULONG_PTR) :
    (C_EncryptFinal w h' o l).2.session? h = some s ∨
    (h' = h ∧ s.Active ∧ (C_EncryptFinal w h' o l).2.session? h =
      some { s with activeObjectHandle := CK_INVALID_HANDLE }) := by
  by_cases hh : h' = h
  · subst hh
    rcases resolves_or_not hs with ⟨slot, hr⟩ | ⟨ctx, e, hc, hsf⟩
    · have hsess := hr.session?
      obtain ⟨ctx, hctx, hsf⟩ := id hr
      simp only [C_EncryptFinal, hctx, hsf]
      repeat' split
      all_goals first
        | (left; simp [World.session?_store, hsess.1, hsess.2, *]; done)
        | (right; simp_all [World.session?_store, p11Session_t.Active]; done)
    · left; simp [C_EncryptFinal, hc, hsf, hs]
  · left; rw [C_EncryptFinal_other w h h' hh]; exact hs

theorem C_DecryptInit_hostMemory (w : World) (h' : CK_SESSION_HANDLE) (m : CK_MECHANISM) (k : CK_OBJECT_HANDLE) :
    (C_DecryptInit w h' m k).2.hostMemory = w.hostMemory := by
  unfold C_DecryptInit
  repeat' split
  all_goals first
    | rfl
    | (simp; done)
    | (dsimp only; split <;> simp)

theorem C_DecryptInit_trace (w : World) (h' : CK_SESSION_HANDLE) (m : CK_MECHANISM) (k : CK_OBJECT_HANDLE) :
    ∃ es, (C_DecryptInit w h' m k).2.trace = w.trace ++ es ∧ es.length ≤ 1 := by
  unfold C_DecryptInit
  repeat' split
  all_goals first
    | (simp [World.log]; done)
    | (dsimp only; split <;> simp [World.log])

theorem C_DecryptInit_other (w : World) (h h' : CK_SESSION_HANDLE) (hne : h' ≠ h) (m : CK_MECHANISM) (k : CK_OBJECT_HANDLE) :
    (C_DecryptInit w h' m k).2.session? h = w.session? h := by
  cases hc : w.context with
  | none => simp [C_DecryptInit, hc]
  | some ctx =>
    cases hsf : safeFindSessionAndLockSlot ctx.sessionPool ctx.slotPool h' with
    | error e => simp [C_DecryptInit, hc, hsf]
    | ok p =>
      obtain ⟨s2, sl2⟩ := p
      have h2 := (safeFind_ok hsf).2
      have hne' : ¬ s2.handle = h := by rw [h2]; exact hne
      simp only [C_DecryptInit, hc, hsf]
      repeat' split
      all_goals first
        | (simp [World.session?_store, hne', clearCryptoBuffer,
            (appendToCryptoBuffer_frame _ _ _ _).1]; done)
        | (dsimp only; split <;> simp [World.session?_store, hne'])

theorem C_DecryptInit_effect (w : World) (h : CK_SESSION_HANDLE) (s : p11Session_t)
    (hs : w.session? h = some s) (h' : CK_SESSION_HANDLE) (m : CK_MECHANISM) (k : CK_OBJECT_HANDLE) :
    (C_DecryptInit w h' m k).2.session? h = some s ∨
    (h' = h ∧ s.Idle ∧ (C_DecryptInit w h' m k).1 = CKR_OK ∧
      ∃ s', (C_DecryptInit w h' m k).2.session? h = some s' ∧
        s'.cryptoBuffer = s.cryptoBuffer ∧ s'.cryptoBufferSize = s.cryptoBufferSize ∧
        s'.cryptoBufferMax = s.cryptoBufferMax) := by
  by_cases hh : h' = h
  · subst hh
    rcases resolves_or_not hs with ⟨slot, hr⟩ | ⟨ctx, e, hc, hsf⟩
    · have hsess := hr.session?
      obtain ⟨ctx, hctx, hsf⟩ := id hr
      simp only [C_DecryptInit, hctx, hsf]
      repeat' split
      all_goals first
        | (left; simp [World.session?_store, hsess.1, hsess.2, *]; done)
        | (right; simp_all [World.session?_store, p11Session_t.Idle, CKR_OK]; done)
    · left; simp [C_DecryptInit, hc, hsf, hs]
  · left; rw [C_DecryptInit_other w h h' hh]; exact hs

theorem C_Decrypt_hostMemory (w : World) (h' : CK_SESSION_HANDLE) (a : CK_BYTE_PTR) (n : CK_ULONG) (o : CK_BYTE_PTR) (l : CK_ULONG_PTR) :
    (C_Decrypt w h' a n o l).2.hostMemory = w.hostMemory := by
  unfold C_Decrypt
  repeat' split
  all_goals first
    | rfl
    | (simp; done)
    | (dsimp only; split <;> simp)

theorem C_Decrypt_trace (w : World) (h' : CK_SESSION_HANDLE) (a : CK_BYTE_PTR) (n : CK_ULONG) (o : CK_BYTE_PTR) (l : CK_ULONG_PTR) :
    ∃ es, (C_Decrypt w h' a n o l).2.trace = w.trace ++ es ∧ es.length ≤ 1 := by
  unfold C_Decrypt
  repeat' split
  all_goals first
    | (simp [World.log]; done)
    | (dsimp only; split <;> simp [World.log])

theorem C_Decrypt_other (w : World) (h h' : CK_SESSION_HANDLE) (hne : h' ≠ h) (a : CK_BYTE_PTR) (n : CK_ULONG) (o : CK_BYTE_PTR) (l : CK_ULONG_PTR) :
    (C_Decrypt w h' a n o l).2.session? h = w.session? h := by
  cases hc : w.context with
  | none => simp [C_Decrypt, hc]
  | some ctx =>
    cases hsf : safeFindSessionAndLockSlot ctx.sessionPool ctx.slotPool h' with
    | error e => simp [C_Decrypt, hc, hsf]
    | ok p =>
      obtain ⟨s2, sl2⟩ := p
      have h2 := (safeFind_ok hsf).2
      have hne' : ¬ s2.handle = h := by rw [h2]; exact hne
      simp only [C_Decrypt, hc, hsf]
      repeat' split
      all_goals first
        | (simp [World.session?_store, hne', clearCryptoBuffer,
            (appendToCryptoBuffer_frame _ _ _ _).1]; done)
        | (dsimp only; split <;> simp [World.session?_store, hne'])

theorem C_Decrypt_effect (w : World) (h : CK_SESSION_HANDLE) (s : p11Session_t)
    (hs : w.session? h = some s) (h' : CK_SESSION_HANDLE) (a : CK_BYTE_PTR) (n : CK_ULONG) (o : CK_BYTE_PTR) (l : CK_ULONG_PTR) :
    (C_Decrypt w h' a n o l).2.session? h = some s ∨
    (h' = h ∧ o.isSome = true ∧ s.Active ∧ (C_Decrypt w h' a n o l).2.session? h =
      some { s with activeObjectHandle := CK_INVALID_HANDLE }) := by
  by_cases hh : h' = h
  · subst hh
    rcases resolves_or_not hs with ⟨slot, hr⟩ | ⟨ctx, e, hc, hsf⟩
    · have hsess := hr.session?
      obtain ⟨ctx, hctx, hsf⟩ := id hr
      simp only [C_Decrypt, hctx, hsf]
      repeat' split
      all_goals first
        | (left; simp [World.session?_store, hsess.1, hsess.2, *]; done)
        | (right; simp [World.session?_store, hsess.1, hsess.2, p11Session_t.Active, *]; done)
    · left; simp [C_Decrypt, hc, hsf, hs]
  · left; rw [C_Decrypt_other w h h' hh]; exact hs

theorem C_DecryptUpdate_hostMemory (w : World) (h' : CK_SESSION_HANDLE) (a : CK_BYTE_PTR) (n : CK_ULONG) (o : CK_BYTE_PTR) (l : CK_ULONG_PTR) :
    (C_DecryptUpdate w h' a n o l).2.hostMemory = w.hostMemory := by
  unfold C_DecryptUpdate
  repeat' split
  all_goals first
    | rfl
    | (simp; done)
    | (dsimp only; split <;> simp)

theorem C_DecryptUpdate_trace (w : World) (h' : CK_SESSION_HANDLE) (a : CK_BYTE_PTR) (n : CK_ULONG) (o : CK_BYTE_PTR) (l : CK_ULONG_PTR) :
    ∃ es, (C_DecryptUpdate w h' a n o l).2.trace = w.trace ++ es ∧ es.length ≤ 1 := by
  unfold C_DecryptUpdate
  repeat' split
  all_goals first
    | (simp [World.log]; done)
    | (dsimp only; split <;> simp [World.log])

theorem C_DecryptUpdate_other (w : World) (h h' : CK_SESSION_HANDLE) (hne : h' ≠ h) (a : CK_BYTE_PTR) (n : CK_ULONG) (o : CK_BYTE_PTR) (l : CK_ULONG_PTR) :
    (C_DecryptUpdate w h' a n o l).2.session? h = w.session? h := by
  cases hc : w.context with
  | none => simp [C_DecryptUpdate, hc]
  | some ctx =>
    cases hsf : safeFindSessionAndLockSlot ctx.sessionPool ctx.slotPool h' with
    | error e => simp [C_DecryptUpdate, hc, hsf]
    | ok p =>
      obtain ⟨s2, sl2⟩ := p
      have h2 := (safeFind_ok hsf).2
      have hne' : ¬ s2.handle = h := by rw [h2]; exact hne
      simp only [C_DecryptUpdate, hc, hsf]
      repeat' split
      all_goals first
        | (simp [World.session?_store, hne', clearCryptoBuffer,
            (appendToCryptoBuffer_frame _ _ _ _).1]; done)
        | (dsimp only; split <;> simp [World.session?_store, hne'])

theorem C_DecryptUpdate_effect (w : World) (h : CK_SESSION_HANDLE) (s : p11Session_t)
    (hs : w.session? h = some s) (h' : CK_SESSION_HANDLE) (a : CK_BYTE_PTR) (n : CK_ULONG) (o : CK_BYTE_PTR) (l : CK_ULONG_PTR) :
    (C_DecryptUpdate w h' a n o l).2.session? h = some s := by
  rw [session?_congr (C_DecryptUpdate_context w h' a n o l) h]
  exact hs

theorem C_DecryptFinal_hostMemory (w : World) (h' : CK_SESSION_HANDLE) (o : CK_BYTE_PTR) (l : CK_ULONG_PTR) :
    (C_DecryptFinal w h' o l).2.hostMemory = w.hostMemory := by
  unfold C_DecryptFinal
  repeat' split
  all_goals first
    | rfl
    | (simp; done)
    | (dsimp only; split <;> simp)

theorem C_DecryptFinal_trace (w : World) (h' : CK_SESSION_HANDLE) (o : CK_BYTE_PTR) (l : CK_ULONG_PTR) :
    ∃ es, (C_DecryptFinal w h' o l).2.trace = w.trace ++ es ∧ es.length ≤ 1 := by
  unfold C_DecryptFinal
  repeat' split
  all_goals first
    | (simp [World.log]; done)
    | (dsimp only; split <;> simp [World.log])

theorem C_DecryptFinal_other (w : World) (h h' : CK_SESSION_HANDLE) (hne : h' ≠ h) (o : CK_BYTE_PTR) (l : CK_ULONG_PTR) :
    (C_DecryptFinal w h' o l).2.session? h = w.session? h := by
  cases hc : w.context with
  | none => simp [C_DecryptFinal, hc]
  | some ctx =>
    cases hsf : safeFindSessionAndLockSlot ctx.sessionPool ctx.slotPool h' with
    | error e => simp [C_DecryptFinal, hc, hsf]
    | ok p =>
      obtain ⟨s2, sl2⟩ := p
      have h2 := (safeFind_ok hsf).2
      have hne' : ¬ s2.handle = h := by rw [h2]; exact hne
      simp only [C_DecryptFinal, hc, hsf]
      repeat' split
      all_goals first
        | (simp [World.session?_store, hne', clearCryptoBuffer,
            (appendToCryptoBuffer_frame _ _ _ _).1]; done)
        | (dsimp only; split <;> simp [World.session?_store, hne'])

theorem C_DecryptFinal_effect (w : World) (h : CK_SESSION_HANDLE) (s : p11Session_t)
    (hs : w.session? h = some s) (h' : CK_SESSION_HANDLE) (o : CK_BYTE_PTR) (l : CK_ULONG_PTR) :
    (C_DecryptFinal w h' o l).2.session? h = some s ∨
    (h' = h ∧ s.Active ∧ (C_DecryptFinal w h' o l).2.session? h =
      some { s with activeObjectHandle := CK_INVALID_HANDLE }) := by
  by_cases hh : h' = h
  · subst hh
    rcases resolves_or_not hs with ⟨slot, hr⟩ | ⟨ctx, e, hc, hsf⟩
    · have hsess := hr.session?
      obtain ⟨ctx, hctx, hsf⟩ := id hr
      simp only [C_DecryptFinal, hctx, hsf]
      repeat' split
      all_goals first
        | (left; simp [World.session?_store, hsess.1, hsess.2, *]; done)
        | (right; simp_all [World.session?_store, p11Session_t.Active]; done)
    · left; simp [C_DecryptFinal, hc, hsf, hs]
  · left; rw [C_DecryptFinal_other w h h' hh]; exact hs

theorem C_SignInit_hostMemory (w : World) (h' : CK_SESSION_HANDLE) (m : CK_MECHANISM) (k : CK_OBJECT_HANDLE) :
    (C_SignInit w h' m k).2.hostMemory = w.hostMemory := by
  unfold C_SignInit
  repeat' split
  all_goals first
    | rfl
    | (simp; done)
    | (dsimp only; split <;> simp)

theorem C_SignInit_trace (w : World) (h' : CK_SESSION_HANDLE) (m : CK_MECHANISM) (k : CK_OBJECT_HANDLE) :
    ∃ es, (C_SignInit w h' m k).2.trace = w.trace ++ es ∧ es.length ≤ 1 := by
  unfold C_SignInit
  repeat' split
  all_goals first
    | (simp [World.log]; done)
    | (dsimp only; split <;> simp [World.log])

theorem C_SignInit_other (w : World) (h h' : CK_SESSION_HANDLE) (hne : h' ≠ h) (m : CK_MECHANISM) (k : CK_OBJECT_HANDLE) :
    (C_SignInit w h' m k).2.session? h = w.session? h := by
  cases hc : w.context with
  | none => simp [C_SignInit, hc]
  | some ctx =>
    cases hsf : safeFindSessionAndLockSlot ctx.sessionPool ctx.slotPool h' with
    | error e => simp [C_SignInit, hc, hsf]
    | ok p =>
      obtain ⟨s2, sl2⟩ := p
      have h2 := (safeFind_ok hsf).2
      have hne' : ¬ s2.handle = h := by rw [h2]; exact hne
      simp only [C_SignInit, hc, hsf]
      repeat' split
      all_goals first
        | (simp [World.session?_store, hne', clearCryptoBuffer,
            (appendToCryptoBuffer_frame _ _ _ _).1]; done)
        | (dsimp only; split <;> simp [World.session?_store, hne'])

theorem C_SignInit_effect (w : World) (h : CK_SESSION_HANDLE) (s : p11Session_t)
    (hs : w.session? h = some s) (h' : CK_SESSION_HANDLE) (m : CK_MECHANISM) (k : CK_OBJECT_HANDLE) :
    (C_SignInit w h' m k).2.session? h = some s ∨
    (h' = h ∧ s.Idle ∧ (C_SignInit w h' m k).1 = CKR_OK ∧
      ∃ s', (C_SignInit w h' m k).2.session? h = some s' ∧
        s'.cryptoBuffer = s.cryptoBuffer ∧ s'.cryptoBufferSize = s.cryptoBufferSize ∧
        s'.cryptoBufferMax = s.cryptoBufferMax) := by
  by_cases hh : h' = h
  · subst hh
    rcases resolves_or_not hs with ⟨slot, hr⟩ | ⟨ctx, e, hc, hsf⟩
    · have hsess := hr.session?
      obtain ⟨ctx, hctx, hsf⟩ := id hr
      simp only [C_SignInit, hctx, hsf]
      repeat' split
      all_goals first
        | (left; simp [World.session?_store, hsess.1, hsess.2, *]; done)
        | (right; simp_all [World.session?_store, p11Session_t.Idle, CKR_OK]; done)
    · left; simp [C_SignInit, hc, hsf, hs]
  · left; rw [C_SignInit_other w h h' hh]; exact hs

theorem C_Sign_hostMemory (w : World) (h' : CK_SESSION_HANDLE) (a : CK_BYTE_PTR) (n : CK_ULONG) (o : CK_BYTE_PTR) (l : CK_ULONG_PTR) :
    (C_Sign w h' a n o l).2.hostMemory = w.hostMemory := by
  unfold C_Sign
  repeat' split
  all_goals first
    | rfl
    | (simp; done)
    | (dsimp only; split <;> simp)

theorem C_Sign_trace (w : World) (h' : CK_SESSION_HANDLE) (a : CK_BYTE_PTR) (n : CK_ULONG) (o : CK_BYTE_PTR) (l : CK_ULONG_PTR) :
    ∃ es, (C_Sign w h' a n o l).2.trace = w.trace ++ es ∧ es.length ≤ 1 := by
  unfold C_Sign
  repeat' split
  all_goals first
    | (simp [World.log]; done)
    | (dsimp only; split <;> simp [World.log])

theorem C_Sign_other (w : World) (h h' : CK_SESSION_HANDLE) (hne : h' ≠ h) (a : CK_BYTE_PTR) (n : CK_ULONG) (o : CK_BYTE_PTR) (l : CK_ULONG_PTR) :
    (C_Sign w h' a n o l).2.session? h = w.session? h := by
  cases hc : w.context with
  | none => simp [C_Sign, hc]
  | some ctx =>
    cases hsf : safeFindSessionAndLockSlot ctx.sessionPool ctx.slotPool h' with
    | error e => simp [C_Sign, hc, hsf]
    | ok p =>
      obtain ⟨s2, sl2⟩ := p
      have h2 := (safeFind_ok hsf).2
      have hne' : ¬ s2.handle = h := by rw [h2]; exact hne
      simp only [C_Sign, hc, hsf]
      repeat' split
      all_goals first
        | (simp [World.session?_store, hne', clearCryptoBuffer,
            (appendToCryptoBuffer_frame _ _ _ _).1]; done)
        | (dsimp only; split <;> simp [World.session?_store, hne'])

theorem C_Sign_effect (w : World) (h : CK_SESSION_HANDLE) (s : p11Session_t)
    (hs : w.session? h = some s) (h' : CK_SESSION_HANDLE) (a : CK_BYTE_PTR) (n : CK_ULONG) (o : CK_BYTE_PTR) (l : CK_ULONG_PTR) :
    (C_Sign w h' a n o l).2.session? h = some s ∨
    (h' = h ∧ o.isSome = true ∧ s.Active ∧ (C_Sign w h' a n o l).2.session? h =
      some { s with activeObjectHandle := CK_INVALID_HANDLE }) := by
  by_cases hh : h' = h
  · subst hh
    rcases resolves_or_not hs with ⟨slot, hr⟩ | ⟨ctx, e, hc, hsf⟩
    · have hsess := hr.session?
      obtain ⟨ctx, hctx, hsf⟩ := id hr
      simp only [C_Sign, hctx, hsf]
      repeat' split
      all_goals first
        | (left; simp [World.session?_store, hsess.1, hsess.2, *]; done)
        | (right; simp [World.session?_store, hsess.1, hsess.2, p11Session_t.Active, *]; done)
    · left; simp [C_Sign, hc, hsf, hs]
  · left; rw [C_Sign_other w h h' hh]; exact hs

theorem C_SignUpdate_hostMemory (w : World) (h' : CK_SESSION_HANDLE) (a : CK_BYTE_PTR) (n : CK_ULONG) :
    (C_SignUpdate w h' a n).2.hostMemory = w.hostMemory := by
  unfold C_SignUpdate
  repeat' split
  all_goals first
    | rfl
    | (simp; done)
    | (dsimp only; split <;> simp)

theorem C_SignUpdate_trace (w : World) (h' : CK_SESSION_HANDLE) (a : CK_BYTE_PTR) (n : CK_ULONG) :
    ∃ es, (C_SignUpdate w h' a n).2.trace = w.trace ++ es ∧ es.length ≤ 1 := by
  unfold C_SignUpdate
  repeat' split
  all_goals first
    | (simp [World.log]; done)
    | (dsimp only; split <;> simp [World.log])

theorem C_SignUpdate_other (w : World) (h h' : CK_SESSION_HANDLE) (hne : h' ≠ h) (a : CK_BYTE_PTR) (n : CK_ULONG) :
    (C_SignUpdate w h' a n).2.session? h = w.session? h := by
  cases hc : w.context with
  | none => simp [C_SignUpdate, hc]
  | some ctx =>
    cases hsf : safeFindSessionAndLockSlot ctx.sessionPool ctx.slotPool h' with
    | error e => simp [C_SignUpdate, hc, hsf]
    | ok p =>
      obtain ⟨s2, sl2⟩ := p
      have h2 := (safeFind_ok hsf).2
      have hne' : ¬ s2.handle = h := by rw [h2]; exact hne
      simp only [C_SignUpdate, hc, hsf]
      repeat' split
      all_goals first
        | (simp [World.session?_store, hne', clearCryptoBuffer,
            (appendToCryptoBuffer_frame _ _ _ _).1]; done)
        | (dsimp only; split <;> simp [World.session?_store, hne'])

theorem C_SignFinal_hostMemory (w : World) (h' : CK_SESSION_HANDLE) (o : CK_BYTE_PTR) (l : CK_ULONG_PTR) :
    (C_SignFinal w h' o l).2.hostMemory = w.hostMemory := by
  unfold C_SignFinal
  repeat' split
  all_goals first
    | rfl
    | (simp; done)
    | (dsimp only; split <;> simp)

theorem C_SignFinal_trace (w : World) (h' : CK_SESSION_HANDLE) (o : CK_BYTE_PTR) (l : CK_ULONG_PTR) :
    ∃ es, (C_SignFinal w h' o l).2.trace = w.trace ++ es ∧ es.length ≤ 1 := by
  unfold C_SignFinal
  repeat' split
  all_goals first
    | (simp [World.log]; done)
    | (dsimp only; split <;> simp [World.log])

theorem C_SignFinal_other (w : World) (h h' : CK_SESSION_HANDLE) (hne : h' ≠ h) (o : CK_BYTE_PTR) (l : CK_ULONG_PTR) :
    (C_SignFinal w h' o l).2.session? h = w.session? h := by
  cases hc : w.context with
  | none => simp [C_SignFinal, hc]
  | some ctx =>
    cases hsf : safeFindSessionAndLockSlot ctx.sessionPool ctx.slotPool h' with
    | error e => simp [C_SignFinal, hc, hsf]
    | ok p =>
      obtain ⟨s2, sl2⟩ := p
      have h2 := (safeFind_ok hsf).2
      have hne' : ¬ s2.handle = h := by rw [h2]; exact hne
      simp only [C_SignFinal, hc, hsf]
      repeat' split
      all_goals first
        | (simp [World.session?_store, hne', clearCryptoBuffer,
            (appendToCryptoBuffer_frame _ _ _ _).1]; done)
        | (dsimp only; split <;> simp [World.session?_store, hne'])

theorem C_SignFinal_effect (w : World) (h : CK_SESSION_HANDLE) (s : p11Session_t)
    (hs : w.session? h = some s) (h' : CK_SESSION_HANDLE) (o : CK_BYTE_PTR) (l : CK_ULONG_PTR) :
    (C_SignFinal w h' o l).2.session? h = some s ∨
    (h' = h ∧ o.isSome = true ∧ s.Active ∧ (C_SignFinal w h' o l).2.session? h =
      some { s with activeObjectHandle := CK_INVALID_HANDLE }) ∨
    (h' = h ∧ o.isSome = true ∧ s.Active ∧ (C_SignFinal w h' o l).2.session? h =
      some (clearCryptoBuffer { s with activeObjectHandle := CK_INVALID_HANDLE })) := by
  by_cases hh : h' = h
  · subst hh
    rcases resolves_or_not hs with ⟨slot, hr⟩ | ⟨ctx, e, hc, hsf⟩
    · have hsess := hr.session?
      obtain ⟨ctx, hctx, hsf⟩ := id hr
      simp only [C_SignFinal, hctx, hsf]
      repeat' split
      all_goals first
        | (left; simp [World.session?_store, hsess.1, hsess.2, *]; done)
        | (right; left; simp [World.session?_store, hsess.1, hsess.2, p11Session_t.Active, *]; done)
        | (right; right; simp [World.session?_store, hsess.1, hsess.2, p11Session_t.Active,
            clearCryptoBuffer, *]; done)
    · left; simp [C_SignFinal, hc, hsf, hs]
  · left; rw [C_SignFinal_other w h h' hh]; exact hs

theorem C_SignUpdate_effect (w : World) (h : CK_SESSION_HANDLE) (s : p11Session_t)
    (hs : w.session? h = some s) (h' : CK_SESSION_HANDLE) (a : CK_BYTE_PTR) (n : CK_ULONG) :
    (C_SignUpdate w h' a n).2.session? h = some s ∨
    (h' = h ∧ s.Active ∧ ∃ slot object, w.Resolves h s slot ∧
      activeObject slot s = .ok object ∧ object.C_SignUpdate = none ∧
      (C_SignUpdate w h' a n).1 = (appendToCryptoBuffer w.hostMemory s a n).1 ∧
      (C_SignUpdate w h' a n).2.session? h =
        some (appendToCryptoBuffer w.hostMemory s a n).2) := by
  by_cases hh : h' = h
  · subst hh
    rcases resolves_or_not hs with ⟨slot, hr⟩ | ⟨ctx, e, hc, hsf⟩
    · have hsess := hr.session?
      obtain ⟨ctx, hctx, hsf⟩ := id hr
      by_cases hact : s.activeObjectHandle = CK_INVALID_HANDLE
      · left; simp [C_SignUpdate, hctx, hsf, hact, hs]
      · cases hobj : findSlotObject slot (handleOfInt s.activeObjectHandle) false with
        | error e => left; simp [C_SignUpdate, hctx, hsf, hact, hobj, hs]
        | ok object =>
          cases hcap : object.C_SignUpdate with
          | some f => left; simp [C_SignUpdate, hctx, hsf, hact, hobj, hcap, hs]
          | none =>
            right
            have heq := C_SignUpdate_buffered hr hact hobj hcap a n
            refine ⟨rfl, hact, slot, object, hr, hobj, hcap, ?_, ?_⟩
            · rw [heq]
            · rw [heq]
              simp [World.session?_store, (appendToCryptoBuffer_frame _ _ _ _).1, hsess.1,
                hsess.2]
    · left; simp [C_SignUpdate, hc, hsf, hs]
  · left; rw [C_SignUpdate_other w h h' hh]; exact hs

theorem step_same_world (w : World) (c : Call)
    (hc : c.isUnsupportedFamily = true ∨ c.isLegacy = true) : (step w c).2 = w := by
  cases c <;> simp [Call.isUnsupportedFamily, Call.isLegacy] at hc <;>
    (simp only [step, C_DigestInit, C_Digest, C_DigestUpdate, C_DigestKey, C_DigestFinal,
      C_SignRecoverInit, C_SignRecover, C_VerifyInit, C_Verify, C_VerifyUpdate, C_VerifyFinal,
      C_VerifyRecoverInit, C_VerifyRecover, C_DigestEncryptUpdate, C_DecryptDigestUpdate,
      C_SignEncryptUpdate, C_DecryptVerifyUpdate, C_GenerateKey, C_GenerateKeyPair, C_WrapKey,
      C_UnwrapKey, C_DeriveKey, C_SeedRandom, C_GenerateRandom, C_GetFunctionStatus,
      C_CancelFunction]
     cases w.context <;> rfl)

theorem step_hostMemory (w : World) (c : Call) : (step w c).2.hostMemory = w.hostMemory := by
  cases c with
  | EncryptInit h' m k => exact C_EncryptInit_hostMemory _ _ _ _
  | Encrypt h' a n o l => exact C_Encrypt_hostMemory _ _ _ _ _ _
  | EncryptUpdate h' a n o l => exact C_EncryptUpdate_hostMemory _ _ _ _ _ _
  | EncryptFinal h' o l => exact C_EncryptFinal_hostMemory _ _ _ _
  | DecryptInit h' m k => exact C_DecryptInit_hostMemory _ _ _ _
  | Decrypt h' a n o l => exact C_Decrypt_hostMemory _ _ _ _ _ _
  | DecryptUpdate h' a n o l => exact C_DecryptUpdate_hostMemory _ _ _ _ _ _
  | DecryptFinal h' o l => exact C_DecryptFinal_hostMemory _ _ _ _
  | SignInit h' m k => exact C_SignInit_hostMemory _ _ _ _
  | Sign h' a n o l => exact C_Sign_hostMemory _ _ _ _ _ _
  | SignUpdate h' a n => exact C_SignUpdate_hostMemory _ _ _ _
  | SignFinal h' o l => exact C_SignFinal_hostMemory _ _ _ _
  | _ =>
    rw [step_same_world w _ (by simp [Call.isUnsupportedFamily, Call.isLegacy])]

theorem step_trace (w : World) (c : Call) :
    ∃ es, (step w c).2.trace = w.trace ++ es ∧ es.length ≤ 1 := by
  cases c with
  | EncryptInit h' m k => exact C_EncryptInit_trace _ _ _ _
  | Encrypt h' a n o l => exact C_Encrypt_trace _ _ _ _ _ _
  | EncryptUpdate h' a n o l => exact C_EncryptUpdate_trace _ _ _ _ _ _
  | EncryptFinal h' o l => exact C_EncryptFinal_trace _ _ _ _
  | DecryptInit h' m k => exact C_DecryptInit_trace _ _ _ _
  | Decrypt h' a n o l => exact C_Decrypt_trace _ _ _ _ _ _
  | DecryptUpdate h' a n o l => exact C_DecryptUpdate_trace _ _ _ _ _ _
  | DecryptFinal h' o l => exact C_DecryptFinal_trace _ _ _ _
  | SignInit h' m k => exact C_SignInit_trace _ _ _ _
  | Sign h' a n o l => exact C_Sign_trace _ _ _ _ _ _
  | SignUpdate h' a n => exact C_SignUpdate_trace _ _ _ _
  | SignFinal h' o l => exact C_SignFinal_trace _ _ _ _
  | _ =>
    rw [step_same_world w _ (by simp [Call.isUnsupportedFamily, Call.isLegacy])]
    exact ⟨[], by simp, by simp⟩

theorem step_effect (w : World) (h : CK_SESSION_HANDLE) (s : p11Session_t) (c : Call)
    (hs : w.session? h = some s) :
    (step w c).2.session? h = some s ∨
    (c.isInit = true ∧ s.Idle ∧ (step w c).1 = CKR_OK ∧
      ∃ s', (step w c).2.session? h = some s' ∧ s'.cryptoBuffer = s.cryptoBuffer ∧
        s'.cryptoBufferSize = s.cryptoBufferSize ∧ s'.cryptoBufferMax = s.cryptoBufferMax) ∨
    (c.mayEndOperation = true ∧ s.Active ∧
      (step w c).2.session? h = some { s with activeObjectHandle := CK_INVALID_HANDLE }) ∨
    (∃ b l, c = Call.SignFinal h (some b) l ∧ s.Active ∧
      (step w c).2.session? h =
        some (clearCryptoBuffer { s with activeObjectHandle := CK_INVALID_HANDLE })) ∨
    (∃ p n slot object, c = Call.SignUpdate h p n ∧ s.Active ∧ w.Resolves h s slot ∧
      activeObject slot s = .ok object ∧ object.C_SignUpdate = none ∧
      (step w c).1 = (appendToCryptoBuffer w.hostMemory s p n).1 ∧
      (step w c).2.session? h = some (appendToCryptoBuffer w.hostMemory s p n).2) := by
  cases c with
  | EncryptInit h' m k =>
    simp only [step]
    rcases C_EncryptInit_effect w h s hs h' m k with e | ⟨_, hi, hcode, hex⟩
    · exact Or.inl e
    · exact Or.inr (Or.inl ⟨rfl, hi, hcode, hex⟩)
  | DecryptInit h' m k =>
    simp only [step]
    rcases C_DecryptInit_effect w h s hs h' m k with e | ⟨_, hi, hcode, hex⟩
    · exact Or.inl e
    · exact Or.inr (Or.inl ⟨rfl, hi, hcode, hex⟩)
  | SignInit h' m k =>
    simp only [step]
    rcases C_SignInit_effect w h s hs h' m k with e | ⟨_, hi, hcode, hex⟩
    · exact Or.inl e
    · exact Or.inr (Or.inl ⟨rfl, hi, hcode, hex⟩)
  | Encrypt h' a n o l => simp only [step]; exact Or.inl (C_Encrypt_effect w h s hs h' a n o l)
  | EncryptUpdate h' a n o l => simp only [step]; exact Or.inl (C_EncryptUpdate_effect w h s hs h' a n o l)
  | DecryptUpdate h' a n o l => simp only [step]; exact Or.inl (C_DecryptUpdate_effect w h s hs h' a n o l)
  | Decrypt h' a n o l =>
    simp only [step]
    rcases C_Decrypt_effect w h s hs h' a n o l with e | ⟨_, ho, ha, e⟩
    · exact Or.inl e
    · exact Or.inr (Or.inr (Or.inl ⟨by simpa [Call.mayEndOperation] using ho, ha, e⟩))
  | Sign h' a n o l =>
    simp only [step]
    rcases C_Sign_effect w h s hs h' a n o l with e | ⟨_, ho, ha, e⟩
    · exact Or.inl e
    · exact Or.inr (Or.inr (Or.inl ⟨by simpa [Call.mayEndOperation] using ho, ha, e⟩))
  | EncryptFinal h' o l =>
    simp only [step]
    rcases C_EncryptFinal_effect w h s hs h' o l with e | ⟨_, ha, e⟩
    · exact Or.inl e
    · exact Or.inr (Or.inr (Or.inl ⟨rfl, ha, e⟩))
  | DecryptFinal h' o l =>
    simp only [step]
    rcases C_DecryptFinal_effect w h s hs h' o l with e | ⟨_, ha, e⟩
    · exact Or.inl e
    · exact Or.inr (Or.inr (Or.inl ⟨rfl, ha, e⟩))
  | SignFinal h' o l =>
    simp only [step]
    rcases C_SignFinal_effect w h s hs h' o l with e | ⟨_, _, ha, e⟩ | ⟨hh, ho, ha, e⟩
    · exact Or.inl e
    · exact Or.inr (Or.inr (Or.inl ⟨rfl, ha, e⟩))
    · subst hh
      cases o with
      | none => simp at ho
      | some b => exact Or.inr (Or.inr (Or.inr (Or.inl ⟨b, l, rfl, ha, e⟩)))
  | SignUpdate h' a n =>
    simp only [step]
    rcases C_SignUpdate_effect w h s hs h' a n with e | ⟨hh, ha, slot, object, hr, ho, hn, hc1, e⟩
    · exact Or.inl e
    · subst hh
      exact Or.inr (Or.inr (Or.inr (Or.inr ⟨a, n, slot, object, rfl, ha, hr, ho, hn, hc1, e⟩)))
  | _ =>
    left
    rw [step_same_world w _ (by simp [Call.isUnsupportedFamily, Call.isLegacy])]
    exact hs

/-! ## Lemmas for the claims on repeated sequences and on the crypto buffer -/

theorem step_uninitialized (w : World) (c : Call) (h : w.context = none) :
    (step w c).2 = w := by
  cases c <;> simp [step, C_EncryptInit, C_Encrypt, C_EncryptUpdate, C_EncryptFinal,
    C_DecryptInit, C_Decrypt, C_DecryptUpdate, C_DecryptFinal, C_DigestInit, C_Digest,
    C_DigestUpdate, C_DigestKey, C_DigestFinal, C_SignInit, C_Sign, C_SignUpdate, C_SignFinal,
    C_SignRecoverInit, C_SignRecover, C_VerifyInit, C_Verify, C_VerifyUpdate, C_VerifyFinal,
    C_VerifyRecoverInit, C_VerifyRecover, C_DigestEncryptUpdate, C_DecryptDigestUpdate,
    C_SignEncryptUpdate, C_DecryptVerifyUpdate, C_GenerateKey, C_GenerateKeyPair, C_WrapKey,
    C_UnwrapKey, C_DeriveKey, C_SeedRandom, C_GenerateRandom, C_GetFunctionStatus,
    C_CancelFunction, h]

/-- The crypto buffer of the session after one call: kept, cleared or extended. -/
theorem step_buffer (w : World) (h : CK_SESSION_HANDLE) (s : p11Session_t) (c : Call)
    (hs : w.session? h = some s) :
    ∃ s', (step w c).2.session? h = some s' ∧
      ((s'.cryptoBuffer = s.cryptoBuffer ∧ s'.cryptoBufferSize = s.cryptoBufferSize) ∨
       (∃ b l, c = Call.SignFinal h (some b) l ∧ s.Active ∧
          s'.cryptoBuffer = [] ∧ s'.cryptoBufferSize = 0) ∨
       (∃ p n slot object, c = Call.SignUpdate h p n ∧ s.Active ∧ w.Resolves h s slot ∧
          activeObject slot s = .ok object ∧ object.C_SignUpdate = none ∧
          (step w c).1 = CKR_OK ∧
          s'.cryptoBuffer = s.cryptoBuffer ++ (p.getD []).take n ∧
          s'.cryptoBufferSize = s.cryptoBufferSize + n)) := by
  rcases step_effect w h s c hs with e | ⟨_, _, _, s', e, hb, hn, _⟩ | ⟨_, _, e⟩ |
      ⟨b, l, hc, ha, e⟩ | ⟨p, n, slot, object, hc, ha, hr, ho, hcap, hcode, e⟩
  · exact ⟨s, e, Or.inl ⟨rfl, rfl⟩⟩
  · exact ⟨s', e, Or.inl ⟨hb, hn⟩⟩
  · exact ⟨_, e, Or.inl ⟨rfl, rfl⟩⟩
  · exact ⟨_, e, Or.inr (Or.inl ⟨b, l, hc, ha, rfl, rfl⟩)⟩
  · rcases appendToCryptoBuffer_cases w.hostMemory s p n with ⟨_, _, hap⟩ | ⟨_, M, hap⟩
    · rw [hap] at e
      exact ⟨s, e, Or.inl ⟨rfl, rfl⟩⟩
    · rw [hap] at e hcode
      exact ⟨_, e, Or.inr (Or.inr ⟨p, n, slot, object, hc, ha, hr, ho, hcap, hcode, rfl, rfl⟩)⟩

theorem run_session (h : CK_SESSION_HANDLE) (cs : List Call) :
    ∀ (w : World) (s : p11Session_t), w.session? h = some s →
      ∃ s', (run w cs).session? h = some s' := by
  induction cs with
  | nil => intro w s hs; exact ⟨s, hs⟩
  | cons c cs ih =>
    intro w s hs
    obtain ⟨s1, e1, _⟩ := step_buffer w h s c hs
    exact ih _ s1 e1

theorem run_buffer_provenance (h : CK_SESSION_HANDLE) (cs : List Call) :
    ∀ (w : World) (s : p11Session_t), w.session? h = some s → s.cryptoBuffer = [] →
      ∀ s', (run w cs).session? h = some s' → s'.cryptoBuffer ≠ [] →
        ∃ pre p n post s0 slot object, cs = pre ++ Call.SignUpdate h p n :: post ∧
          (run w pre).Resolves h s0 slot ∧ s0.Active ∧ activeObject slot s0 = .ok object ∧
          object.C_SignUpdate = none ∧
          (step (run w pre) (Call.SignUpdate h p n)).1 = CKR_OK := by
  induction cs with
  | nil =>
    intro w s hs he s' hs' hne
    simp only [run] at hs'
    rw [hs] at hs'
    injection hs' with hs'
    subst hs'
    exact absurd he hne
  | cons c cs ih =>
    intro w s hs he s' hs' hne
    obtain ⟨s1, e1, hcase⟩ := step_buffer w h s c hs
    have hrec : s1.cryptoBuffer = [] →
        ∃ pre p n post s0 slot object, c :: cs = pre ++ Call.SignUpdate h p n :: post ∧
          (run w pre).Resolves h s0 slot ∧ s0.Active ∧ activeObject slot s0 = .ok object ∧
          object.C_SignUpdate = none ∧
          (step (run w pre) (Call.SignUpdate h p n)).1 = CKR_OK := by
      intro h1
      obtain ⟨pre, p, n, post, s0, slot, object, hcs, hr, ha, ho, hcap, hcode⟩ :=
        ih _ s1 e1 h1 s' hs' hne
      exact ⟨c :: pre, p, n, post, s0, slot, object, by rw [hcs]; rfl, hr, ha, ho, hcap, hcode⟩
    rcases hcase with ⟨hb, _⟩ | ⟨_, _, _, _, hb, _⟩ |
        ⟨p, n, slot, object, hc, ha, hr, ho, hcap, hcode, _, _⟩
    · exact hrec (hb.trans he)
    · exact hrec hb
    · exact ⟨[], p, n, cs, s, slot, object, by rw [hc]; rfl, hr, ha, ho, hcap,
        by rw [← hc]; exact hcode⟩

theorem activeObject_congr (slot : p11Slot_t) {s s' : p11Session_t}
    (h : s'.activeObjectHandle = s.activeObjectHandle) :
    activeObject slot s' = activeObject slot s := by
  unfold activeObject; rw [h]

theorem sign_init_step {w : World} {h : CK_SESSION_HANDLE} {s : p11Session_t}
    {slot : p11Slot_t} (hr : w.Resolves h s slot) (hidle : s.Idle) (hfit : slot.handlesFit)
    {k : CK_OBJECT_HANDLE} {object : p11Object_t}
    (hk : findSlotObject slot k false = .ok object) {fi : InitFn}
    (hfi : object.C_SignInit = some fi) (m : CK_MECHANISM) (hrv : fi w.trace m = 0) :
    (step w (Call.SignInit h m k)).1 = CKR_OK ∧
    ∃ s1, (step w (Call.SignInit h m k)).2.Resolves h s1 slot ∧ s1.Active ∧
      activeObject slot s1 = .ok object := by
  have heq := C_SignInit_ok hr hidle hk hfi hrv
  have hao := activeObject_of_fits (fits_of_handlesFit hfit hk) hk
    { s with activeObjectHandle := intOfHandle object.handle
             activeMechanism := m.mechanism } rfl
  simp only [step]
  rw [heq]
  exact ⟨rfl, _, (hr.log _).store _ rfl rfl, hao.2, hao.1⟩

theorem sign_single_step {w : World} {h : CK_SESSION_HANDLE} {s : p11Session_t}
    {slot : p11Slot_t} (hr : w.Resolves h s slot) (hact : s.Active) {object : p11Object_t}
    (hobj : activeObject slot s = .ok object) {g : SingleFn} (hg : object.C_Sign = some g)
    (d : CK_BYTE_PTR) (n : CK_ULONG) (sig : List CK_BYTE) (l : CK_ULONG_PTR) :
    (step w (Call.Sign h d n (some sig) l)).1 = g w.trace s.activeMechanism d n (some sig) l ∧
    ∃ s1, (step w (Call.Sign h d n (some sig) l)).2.Resolves h s1 slot ∧ s1.Idle := by
  have hst := hr.store { s with activeObjectHandle := CK_INVALID_HANDLE } rfl rfl
  obtain ⟨ctx, hctx, hs⟩ := id hr
  have hact' : s.activeObjectHandle ≠ CK_INVALID_HANDLE := hact
  unfold activeObject at hobj
  refine ⟨by simp [step, C_Sign, hctx, hs, hact', hobj, hg],
    { s with activeObjectHandle := CK_INVALID_HANDLE }, ?_, rfl⟩
  have : (step w (Call.Sign h d n (some sig) l)).2 =
      (w.store { s with activeObjectHandle := CK_INVALID_HANDLE }).log
        ⟨object.handle, Capability.Sign, CapArgs.single s.activeMechanism d n (some sig) l⟩ := by
    simp [step, C_Sign, hctx, hs, hact', hobj, hg]
  rw [this]
  exact hst.log _

theorem sign_update_step {w : World} {h : CK_SESSION_HANDLE} {s : p11Session_t}
    {slot : p11Slot_t} (hr : w.Resolves h s slot) (hact : s.Active) {object : p11Object_t}
    (hobj : activeObject slot s = .ok object)
    (hu : ∀ f, object.C_SignUpdate = some f → ∀ t m d n, f t m d n = CKR_OK)
    (hmem : ∀ n, w.hostMemory n = true) (p : CK_BYTE_PTR) (n : CK_ULONG) :
    (step w (Call.SignUpdate h p n)).1 = CKR_OK ∧
    ∃ s1, (step w (Call.SignUpdate h p n)).2.Resolves h s1 slot ∧ s1.Active ∧
      activeObject slot s1 = .ok object := by
  cases hcap : object.C_SignUpdate with
  | some f =>
    obtain ⟨ctx, hctx, hs⟩ := id hr
    have hact' : s.activeObjectHandle ≠ CK_INVALID_HANDLE := hact
    have hobj' := hobj
    unfold activeObject at hobj'
    have hw : step w (Call.SignUpdate h p n) = (f w.trace s.activeMechanism p n,
        w.log ⟨object.handle, Capability.SignUpdate, CapArgs.part s.activeMechanism p n⟩) := by
      simp [step, C_SignUpdate, hctx, hs, hact', hobj', hcap]
    rw [hw]
    exact ⟨hu f hcap _ _ _ _, s, hr.log _, hact, hobj⟩
  | none =>
    have heq := C_SignUpdate_buffered hr hact hobj hcap p n
    simp only [step]
    rw [heq]
    rcases appendToCryptoBuffer_cases w.hostMemory s p n with ⟨_, hm, _⟩ | ⟨_, M, hap⟩
    · rw [hmem] at hm; exact Bool.noConfusion hm
    · rw [hap]
      have ha1 : ({ s with
          cryptoBuffer := s.cryptoBuffer ++ (p.getD []).take n
          cryptoBufferSize := s.cryptoBufferSize + n
          cryptoBufferMax := M } : p11Session_t).activeObjectHandle = s.activeObjectHandle := rfl
      refine ⟨rfl, _, hr.store _ rfl rfl, ?_, ?_⟩
      · exact hact
      · rw [activeObject_congr slot ha1]; exact hobj

theorem sign_final_step {w : World} {h : CK_SESSION_HANDLE} {s : p11Session_t}
    {slot : p11Slot_t} (hr : w.Resolves h s slot) (hact : s.Active) {object : p11Object_t}
    (hobj : activeObject slot s = .ok object) {g : SingleFn} (hg : object.C_Sign = some g)
    (hgOK : ∀ t m d n o l, g t m d n o l = CKR_OK)
    (hf : ∀ f, object.C_SignFinal = some f → ∀ t m o l, f t m o l = CKR_OK)
    (sig : List CK_BYTE) (l : CK_ULONG_PTR) :
    (step w (Call.SignFinal h (some sig) l)).1 = CKR_OK ∧
    ∃ s1, (step w (Call.SignFinal h (some sig) l)).2.Resolves h s1 slot ∧ s1.Idle := by
  have hst := hr.store { s with activeObjectHandle := CK_INVALID_HANDLE } rfl rfl
  have hst2 := hst.store (clearCryptoBuffer { s with activeObjectHandle := CK_INVALID_HANDLE })
    rfl rfl
  obtain ⟨ctx, hctx, hs⟩ := id hr
  have hact' : s.activeObjectHandle ≠ CK_INVALID_HANDLE := hact
  unfold activeObject at hobj
  cases hcap : object.C_SignFinal with
  | some f =>
    have hw : step w (Call.SignFinal h (some sig) l) = (f w.trace s.activeMechanism (some sig) l,
        ((w.store { s with activeObjectHandle := CK_INVALID_HANDLE }).log
          ⟨object.handle, Capability.SignFinal,
            CapArgs.final s.activeMechanism (some sig) l⟩).store
          (clearCryptoBuffer { s with activeObjectHandle := CK_INVALID_HANDLE })) := by
      simp [step, C_SignFinal, hctx, hs, hact', hobj, hcap]
    rw [hw]
    exact ⟨hf f hcap _ _ _ _,
      clearCryptoBuffer { s with activeObjectHandle := CK_INVALID_HANDLE },
      (hst.log _).store _ rfl rfl, rfl⟩
  | none =>
    have hw : step w (Call.SignFinal h (some sig) l) =
        (g w.trace s.activeMechanism (some s.cryptoBuffer) s.cryptoBufferSize (some sig) l,
        ((w.store { s with activeObjectHandle := CK_INVALID_HANDLE }).log
          ⟨object.handle, Capability.Sign,
            CapArgs.single s.activeMechanism (some s.cryptoBuffer) s.cryptoBufferSize
              (some sig) l⟩).store
          (clearCryptoBuffer { s with activeObjectHandle := CK_INVALID_HANDLE })) := by
      simp [step, C_SignFinal, hctx, hs, hact', hobj, hcap, hg]
    rw [hw]
    exact ⟨hgOK _ _ _ _ _ _,
      clearCryptoBuffer { s with activeObjectHandle := CK_INVALID_HANDLE },
      (hst.log _).store _ rfl rfl, rfl⟩

theorem step_hostMemory_all {w : World} (hmem : ∀ n, w.hostMemory n = true) (c : Call) :
    ∀ n, (step w c).2.hostMemory n = true := by
  intro n; rw [step_hostMemory]; exact hmem n

/-! ## Claims C21 to C30 -/

/-- C21 (sign sequences can be repeated on one session): on an Idle session, with a key
whose object has native SignInit and native Sign that return CKR_OK, the six calls of the
signing test, C_SignInit, single-shot C_Sign with a non-null signature buffer, C_SignInit
again, C_SignUpdate, C_SignUpdate and C_SignFinal with a non-null buffer, each return
CKR_OK; in particular the second C_SignInit is not rejected with CKR_OPERATION_ACTIVE.
Assumed: the object handles of the slot fit the `int` field activeObjectHandle, the host
grants every growth of the crypto buffer, and a native SignUpdate or SignFinal, when the
object has one, returns CKR_OK as well. -/
theorem C21_sign_sequences_repeat (w : World) (hSession : CK_SESSION_HANDLE)
    (session : p11Session_t) (slot : p11Slot_t) (hr : w.Resolves hSession session slot)
    (hidle : session.Idle) (hfit : slot.handlesFit) (hmem : ∀ n, w.hostMemory n = true)
    (hKey : CK_OBJECT_HANDLE) (object : p11Object_t)
    (hk : findSlotObject slot hKey false = .ok object) (fi : InitFn) (g : SingleFn)
    (hfi : object.C_SignInit = some fi) (hg : object.C_Sign = some g)
    (hfiOK : ∀ t m, fi t m = CKR_OK) (hgOK : ∀ t m d n o l, g t m d n o l = CKR_OK)
    (hu : ∀ f, object.C_SignUpdate = some f → ∀ t m d n, f t m d n = CKR_OK)
    (hf : ∀ f, object.C_SignFinal = some f → ∀ t m o l, f t m o l = CKR_OK)
    (m1 m2 : CK_MECHANISM) (pData p1 p2 : CK_BYTE_PTR) (n n1 n2 : CK_ULONG)
    (sig1 sig2 : List CK_BYTE) (l1 l2 : CK_ULONG_PTR) :
    codes w
      [Call.SignInit hSession m1 hKey, Call.Sign hSession pData n (some sig1) l1,
       Call.SignInit hSession m2 hKey, Call.SignUpdate hSession p1 n1,
       Call.SignUpdate hSession p2 n2, Call.SignFinal hSession (some sig2) l2]
      = [CKR_OK, CKR_OK, CKR_OK, CKR_OK, CKR_OK, CKR_OK] := by
  obtain ⟨e1, s1, r1, a1, o1⟩ := sign_init_step hr hidle hfit hk hfi m1 (hfiOK _ _)
  obtain ⟨e2, s2, r2, i2⟩ := sign_single_step r1 a1 o1 hg pData n sig1 l1
  obtain ⟨e3, s3, r3, a3, o3⟩ := sign_init_step r2 i2 hfit hk hfi m2 (hfiOK _ _)
  have hm3 := step_hostMemory_all (step_hostMemory_all (step_hostMemory_all hmem
    (Call.SignInit hSession m1 hKey)) (Call.Sign hSession pData n (some sig1) l1))
    (Call.SignInit hSession m2 hKey)
  obtain ⟨e4, s4, r4, a4, o4⟩ := sign_update_step r3 a3 o3 hu hm3 p1 n1
  have hm4 := step_hostMemory_all hm3 (Call.SignUpdate hSession p1 n1)
  obtain ⟨e5, s5, r5, a5, o5⟩ := sign_update_step r4 a4 o4 hu hm4 p2 n2
  obtain ⟨e6, _⟩ := sign_final_step r5 a5 o5 hg hgOK hf sig2 l2
  rw [hgOK] at e2
  simp only [codes, e1, e2, e3, e4, e5, e6]

/-- Witness of C21: key 5 of the example slot on the fresh example session, with the two
parts "Hello " and "World" of the signing test. -/
theorem C21_sign_sequences_repeat_witness :
    codes (exWorld exSession)
      [Call.SignInit 100 exMechRsa 5, Call.Sign 100 (some exHello) 6 (some [0, 0]) (some 2),
       Call.SignInit 100 exMechRsa 5, Call.SignUpdate 100 (some exHello) 6,
       Call.SignUpdate 100 (some exWorldText) 5, Call.SignFinal 100 (some [0, 0]) (some 2)]
      = [CKR_OK, CKR_OK, CKR_OK, CKR_OK, CKR_OK, CKR_OK] :=
  C21_sign_sequences_repeat (exWorld exSession) 100 exSession exSlot
    ⟨exContext exSession, rfl, rfl⟩ (by decide) (by decide) (fun _ => rfl) 5 exSignKey rfl
    _ _ rfl rfl (fun _ _ => rfl) (fun _ _ _ _ _ _ => rfl)
    (fun f hf => by simp [exSignKey, exBare] at hf)
    (fun f hf => by simp [exSignKey, exBare] at hf)
    exMechRsa exMechRsa (some exHello) (some exHello) (some exWorldText) 6 6 5 [0, 0] [0, 0]
    (some 2) (some 2)

/-- C22 (no internal retry): every call of an entry point, in any module state and with
any arguments, appends at most one invocation to the trace of capability invocations:
at most one capability of one object is invoked, at most once.  So C_SignFinal never
invokes both the native SignFinal and the native Sign, and a capability that returned an
error is not invoked again within the call. -/
theorem C22_at_most_one_invocation (w : World) (c : Call) :
    ∃ es, (step w c).2.trace = w.trace ++ es ∧ es.length ≤ 1 :=
  step_trace w c

/-- C24, where the claim as stated fails: on the fresh example session C_EncryptInit on
key 7 and C_SignUpdate("Hello ") both return CKR_OK; afterwards the session is Active on
key 7 and the crypto buffer holds the six bytes, although no C_SignInit was called: the
operation that is active was started by C_EncryptInit. -/
theorem C24_buffer_without_signInit :
    codes (exWorld exSession)
      [Call.EncryptInit 100 exMechAes 7, Call.SignUpdate 100 (some exHello) 6]
      = [CKR_OK, CKR_OK] ∧
    (run (exWorld exSession)
      [Call.EncryptInit 100 exMechAes 7, Call.SignUpdate 100 (some exHello) 6]).session? 100
      = some { exAesActive with
          cryptoBuffer := exHello, cryptoBufferSize := 6, cryptoBufferMax := 6 } := by
  decide

/-- C24 as amended (where the bytes of the crypto buffer come from): starting from a
session whose crypto buffer is empty, after any finite sequence of entry-point calls the
session still exists, and if its crypto buffer is non-empty then the sequence contains a
C_SignUpdate call on this session that returned CKR_OK and was made while the session
was Active on an object without native SignUpdate. -/
theorem C24_buffer_provenance (w : World) (hSession : CK_SESSION_HANDLE)
    (session : p11Session_t) (hs : w.session? hSession = some session)
    (hempty : session.cryptoBuffer = []) (cs : List Call) :
    ∃ s', (run w cs).session? hSession = some s' ∧
      (s'.cryptoBuffer ≠ [] →
        ∃ pre p n post s0 slot object, cs = pre ++ Call.SignUpdate hSession p n :: post ∧
          (run w pre).Resolves hSession s0 slot ∧ s0.Active ∧
          activeObject slot s0 = .ok object ∧ object.C_SignUpdate = none ∧
          (step (run w pre) (Call.SignUpdate hSession p n)).1 = CKR_OK) := by
  obtain ⟨s', hs'⟩ := run_session hSession cs w session hs
  exact ⟨s', hs', run_buffer_provenance hSession cs w session hs hempty s' hs'⟩

/-- Witness of C24 as amended: the fresh example session and the calls C_EncryptInit on
key 7, C_SignUpdate("Hello "). -/
theorem C24_buffer_provenance_witness :
    ∃ s', (run (exWorld exSession)
        [Call.EncryptInit 100 exMechAes 7, Call.SignUpdate 100 (some exHello) 6]).session? 100
        = some s' ∧
      (s'.cryptoBuffer ≠ [] →
        ∃ pre p n post s0 slot object,
          [Call.EncryptInit 100 exMechAes 7, Call.SignUpdate 100 (some exHello) 6]
            = pre ++ Call.SignUpdate 100 p n :: post ∧
          (run (exWorld exSession) pre).Resolves 100 s0 slot ∧ s0.Active ∧
          activeObject slot s0 = .ok object ∧ object.C_SignUpdate = none ∧
          (step (run (exWorld exSession) pre) (Call.SignUpdate 100 p n)).1 = CKR_OK) :=
  C24_buffer_provenance (exWorld exSession) 100 exSession rfl rfl
    [Call.EncryptInit 100 exMechAes 7, Call.SignUpdate 100 (some exHello) 6]

/-- C25 (failing input): on the fresh example session the calls `exRepeatCalls` all
return CKR_OK.  The second signature is started by C_SignInit on key 5, which has no
native SignUpdate and no native SignFinal, and is fed the single part "World"; the
message its C_SignFinal passes to the native Sign is "Hello World" with length 11,
because the "Hello " of the first operation, which the single-shot C_Sign ended, is
still in the crypto buffer. -/
theorem C25_stale_bytes_signed :
    codes (exWorld exSession) exRepeatCalls
      = [CKR_OK, CKR_OK, CKR_OK, CKR_OK, CKR_OK, CKR_OK] ∧
    (run (exWorld exSession) exRepeatCalls).trace.getLast? =
      some ⟨5, Capability.Sign,
        CapArgs.single 1 (some (exHello ++ exWorldText)) 11 exOut (some 2)⟩ := by
  decide

/-- C26 (only a successful Init activates a session): for every Idle session and every
call of an entry point, the session still exists after the call, and if it is Active
then the call was C_EncryptInit, C_DecryptInit or C_SignInit and returned CKR_OK; so
every other call, and every Init that returns an error, leaves the Idle session Idle. -/
theorem C26_only_init_activates (w : World) (hSession : CK_SESSION_HANDLE)
    (session : p11Session_t) (c : Call) (hs : w.session? hSession = some session)
    (hidle : session.Idle) :
    ∃ s', (step w c).2.session? hSession = some s' ∧
      (s'.Active → c.isInit = true ∧ (step w c).1 = CKR_OK) ∧
      ((c.isInit = false ∨ (step w c).1 ≠ CKR_OK) → s'.Idle) := by
  have key : ∃ s', (step w c).2.session? hSession = some s' ∧
      (s'.Active → c.isInit = true ∧ (step w c).1 = CKR_OK) := by
    rcases step_effect w hSession session c hs with e | ⟨hi, _, hcode, s', e, _⟩ |
        ⟨_, ha, _⟩ | ⟨_, _, _, ha, _⟩ | ⟨_, _, _, _, _, ha, _⟩
    · exact ⟨session, e, fun ha => absurd hidle ha⟩
    · exact ⟨s', e, fun _ => ⟨hi, hcode⟩⟩
    · exact absurd hidle ha
    · exact absurd hidle ha
    · exact absurd hidle ha
  obtain ⟨s', e, hk⟩ := key
  refine ⟨s', e, hk, ?_⟩
  intro hno
  by_contra hna
  have ha : s'.Active := hna
  obtain ⟨h1, h2⟩ := hk ha
  rcases hno with h | h
  · rw [h1] at h; exact Bool.noConfusion h
  · exact h h2

/-- Witness of C26: C_SignInit on key 5 on the fresh example session. -/
theorem C26_only_init_activates_witness :
    ∃ s', (step (exWorld exSession) (Call.SignInit 100 exMechRsa 5)).2.session? 100 = some s' ∧
      (s'.Active → (Call.SignInit 100 exMechRsa 5).isInit = true ∧
        (step (exWorld exSession) (Call.SignInit 100 exMechRsa 5)).1 = CKR_OK) ∧
      (((Call.SignInit 100 exMechRsa 5).isInit = false ∨
        (step (exWorld exSession) (Call.SignInit 100 exMechRsa 5)).1 ≠ CKR_OK) → s'.Idle) :=
  C26_only_init_activates (exWorld exSession) 100 exSession (Call.SignInit 100 exMechRsa 5) rfl
    (by decide)

/-- C27, where the claim as stated fails: on the fresh example session the calls
C_SignInit on key 5, C_SignUpdate("Hello "), C_SignUpdate("World"), C_SignFinal with a
non-null output and C_SignInit again all return CKR_OK: the last C_SignInit is not
rejected with CKR_OPERATION_ACTIVE, and after the C_SignFinal the session is Idle. -/
theorem C27_signFinal_ends_operation :
    codes (exWorld exSession)
      (exSignCalls ++ [Call.SignFinal 100 exOut (some 2), Call.SignInit 100 exMechRsa 5])
      = [CKR_OK, CKR_OK, CKR_OK, CKR_OK, CKR_OK] ∧
    ((run (exWorld exSession)
      (exSignCalls ++ [Call.SignFinal 100 exOut (some 2)])).session? 100).map
        (fun s => decide s.Idle) = some true := by
  decide

/-- C27 as amended (a committed SignFinal ends the operation): on an Idle session, with a
key whose object signs successfully (native SignInit and Sign return CKR_OK, as do a
native SignUpdate or SignFinal when present), the calls C_SignInit, C_SignUpdate,
C_SignUpdate and C_SignFinal with a non-null output each return CKR_OK, the session is
Idle after them, and a subsequent C_SignInit on the same session returns CKR_OK.
Assumed: the object handles of the slot fit the `int` field activeObjectHandle and the
host grants every growth of the crypto buffer. -/
theorem C27_signFinal_clears_marker (w : World) (hSession : CK_SESSION_HANDLE)
    (session : p11Session_t) (slot : p11Slot_t) (hr : w.Resolves hSession session slot)
    (hidle : session.Idle) (hfit : slot.handlesFit) (hmem : ∀ n, w.hostMemory n = true)
    (hKey : CK_OBJECT_HANDLE) (object : p11Object_t)
    (hk : findSlotObject slot hKey false = .ok object) (fi : InitFn) (g : SingleFn)
    (hfi : object.C_SignInit = some fi) (hg : object.C_Sign = some g)
    (hfiOK : ∀ t m, fi t m = CKR_OK) (hgOK : ∀ t m d n o l, g t m d n o l = CKR_OK)
    (hu : ∀ f, object.C_SignUpdate = some f → ∀ t m d n, f t m d n = CKR_OK)
    (hf : ∀ f, object.C_SignFinal = some f → ∀ t m o l, f t m o l = CKR_OK)
    (m1 m2 : CK_MECHANISM) (p1 p2 : CK_BYTE_PTR) (n1 n2 : CK_ULONG)
    (sig : List CK_BYTE) (l : CK_ULONG_PTR) :
    codes w
      [Call.SignInit hSession m1 hKey, Call.SignUpdate hSession p1 n1,
       Call.SignUpdate hSession p2 n2, Call.SignFinal hSession (some sig) l,
       Call.SignInit hSession m2 hKey]
      = [CKR_OK, CKR_OK, CKR_OK, CKR_OK, CKR_OK] ∧
    ∃ s4, (run w
      [Call.SignInit hSession m1 hKey, Call.SignUpdate hSession p1 n1,
       Call.SignUpdate hSession p2 n2, Call.SignFinal hSession (some sig) l]).session? hSession
        = some s4 ∧ s4.Idle := by
  obtain ⟨e1, s1, r1, a1, o1⟩ := sign_init_step hr hidle hfit hk hfi m1 (hfiOK _ _)
  have hm1 := step_hostMemory_all hmem (Call.SignInit hSession m1 hKey)
  obtain ⟨e2, s2, r2, a2, o2⟩ := sign_update_step r1 a1 o1 hu hm1 p1 n1
  have hm2 := step_hostMemory_all hm1 (Call.SignUpdate hSession p1 n1)
  obtain ⟨e3, s3, r3, a3, o3⟩ := sign_update_step r2 a2 o2 hu hm2 p2 n2
  obtain ⟨e4, s4, r4, i4⟩ := sign_final_step r3 a3 o3 hg hgOK hf sig l
  obtain ⟨e5, _⟩ := sign_init_step r4 i4 hfit hk hfi m2 (hfiOK _ _)
  refine ⟨?_, s4, ?_, i4⟩
  · simp only [codes, e1, e2, e3, e4, e5]
  · simp only [run]
    exact r4.session?.1

/-- Witness of C27 as amended: key 5 of the example slot on the fresh example session. -/
theorem C27_signFinal_clears_marker_witness :
    codes (exWorld exSession)
      [Call.SignInit 100 exMechRsa 5, Call.SignUpdate 100 (some exHello) 6,
       Call.SignUpdate 100 (some exWorldText) 5, Call.SignFinal 100 (some [0, 0]) (some 2),
       Call.SignInit 100 exMechRsa 5]
      = [CKR_OK, CKR_OK, CKR_OK, CKR_OK, CKR_OK] ∧
    ∃ s4, (run (exWorld exSession)
      [Call.SignInit 100 exMechRsa 5, Call.SignUpdate 100 (some exHello) 6,
       Call.SignUpdate 100 (some exWorldText) 5,
       Call.SignFinal 100 (some [0, 0]) (some 2)]).session? 100 = some s4 ∧ s4.Idle :=
  C27_signFinal_clears_marker (exWorld exSession) 100 exSession exSlot
    ⟨exContext exSession, rfl, rfl⟩ (by decide) (by decide) (fun _ => rfl) 5 exSignKey rfl
    _ _ rfl rfl (fun _ _ => rfl) (fun _ _ _ _ _ _ => rfl)
    (fun f hf => by simp [exSignKey, exBare] at hf)
    (fun f hf => by simp [exSignKey, exBare] at hf)
    exMechRsa exMechRsa (some exHello) (some exWorldText) 6 5 [0, 0] (some 2)

/-- C28 (end condition of EncryptFinal and DecryptFinal): on an Active session whose
active object resolves, after C_EncryptFinal (C_DecryptFinal) the session is Idle if and
only if the object has the native EncryptFinal (DecryptFinal) and it returned 0; when
the session is not Idle afterwards its activeObjectHandle is unchanged.  The output
pointer is arbitrary, null included. -/
theorem C28_final_end_condition (w : World) (hSession : CK_SESSION_HANDLE)
    (session : p11Session_t) (slot : p11Slot_t) (hr : w.Resolves hSession session slot)
    (hact : session.Active) (object : p11Object_t)
    (hobj : activeObject slot session = .ok object) (pOut : CK_BYTE_PTR)
    (pulLen : CK_ULONG_PTR) :
    (∃ s', (C_EncryptFinal w hSession pOut pulLen).2.session? hSession = some s' ∧
      (s'.Idle ↔ ∃ f, object.C_EncryptFinal = some f ∧
        f w.trace session.activeMechanism pOut pulLen = 0) ∧
      (¬ s'.Idle → s'.activeObjectHandle = session.activeObjectHandle)) ∧
    (∃ s', (C_DecryptFinal w hSession pOut pulLen).2.session? hSession = some s' ∧
      (s'.Idle ↔ ∃ f, object.C_DecryptFinal = some f ∧
        f w.trace session.activeMechanism pOut pulLen = 0) ∧
      (¬ s'.Idle → s'.activeObjectHandle = session.activeObjectHandle)) := by
  have hsess := hr.session?
  obtain ⟨ctx, hctx, hs⟩ := id hr
  have hact' : session.activeObjectHandle ≠ CK_INVALID_HANDLE := hact
  have hnidle : ¬ session.Idle := fun h => hact h
  unfold activeObject at hobj
  constructor
  · cases hcap : object.C_EncryptFinal with
    | none =>
      refine ⟨session, by simp [C_EncryptFinal, hctx, hs, hact', hobj, hcap, hsess.1], ?_,
        fun _ => rfl⟩
      simp [hnidle]
    | some f =>
      by_cases hrv : f w.trace session.activeMechanism pOut pulLen = 0
      · refine ⟨{ session with activeObjectHandle := CK_INVALID_HANDLE }, ?_, ?_, ?_⟩
        · simp [C_EncryptFinal, hctx, hs, hact', hobj, hcap, hrv, World.session?_store,
            hsess.1, hsess.2]
        · simp [p11Session_t.Idle, hrv]
        · intro hn; exact absurd rfl hn
      · refine ⟨session, ?_, ?_, fun _ => rfl⟩
        · simp [C_EncryptFinal, hctx, hs, hact', hobj, hcap, hrv, hsess.1]
        · simp [hnidle, hrv]
  · cases hcap : object.C_DecryptFinal with
    | none =>
      refine ⟨session, by simp [C_DecryptFinal, hctx, hs, hact', hobj, hcap, hsess.1], ?_,
        fun _ => rfl⟩
      simp [hnidle]
    | some f =>
      by_cases hrv : f w.trace session.activeMechanism pOut pulLen = 0
      · refine ⟨{ session with activeObjectHandle := CK_INVALID_HANDLE }, ?_, ?_, ?_⟩
        · simp [C_DecryptFinal, hctx, hs, hact', hobj, hcap, hrv, World.session?_store,
            hsess.1, hsess.2]
        · simp [p11Session_t.Idle, hrv]
        · intro hn; exact absurd rfl hn
      · refine ⟨session, ?_, ?_, fun _ => rfl⟩
        · simp [C_DecryptFinal, hctx, hs, hact', hobj, hcap, hrv, hsess.1]
        · simp [hnidle, hrv]

/-- Witness of C28: the example session Active on key 7, whose native EncryptFinal
succeeds, and a null output pointer: the length query ends the operation. -/
theorem C28_final_end_condition_witness :
    ∃ s', (C_EncryptFinal (exWorld exAesActive) 100 none (some 0)).2.session? 100 = some s' ∧
      (s'.Idle ↔ ∃ f, exCipherKey.C_EncryptFinal = some f ∧
        f (exWorld exAesActive).trace exAesActive.activeMechanism none (some 0) = 0) ∧
      (¬ s'.Idle → s'.activeObjectHandle = exAesActive.activeObjectHandle) :=
  (C28_final_end_condition (exWorld exAesActive) 100 exAesActive exSlot
    ⟨exContext exAesActive, rfl, rfl⟩ (by decide) exCipherKey rfl none (some 0)).1

/-- C29 (who may change the crypto buffer): a call on an uninitialized module leaves the
module state unchanged.  For a session found for a handle, after any call of an entry
point the session still exists and either its crypto buffer and length are unchanged, or
the call was C_SignFinal on this session with a non-null output, made while the session
was Active, and the buffer is empty with length 0, or the call was C_SignUpdate on this
session, made while it was Active on an object without native SignUpdate, it returned
CKR_OK, and the buffer is the old one extended by the part.  So a call that fails the
Idle/Active check, and every call on an unresolved session, changes nothing of it. -/
theorem C29_who_changes_buffer (w : World) (hSession : CK_SESSION_HANDLE) (c : Call) :
    (w.context = none → (step w c).2 = w) ∧
    (∀ session, w.session? hSession = some session →
      ∃ s', (step w c).2.session? hSession = some s' ∧
        ((s'.cryptoBuffer = session.cryptoBuffer ∧
          s'.cryptoBufferSize = session.cryptoBufferSize) ∨
         (∃ b l, c = Call.SignFinal hSession (some b) l ∧ session.Active ∧
            s'.cryptoBuffer = [] ∧ s'.cryptoBufferSize = 0) ∨
         (∃ p n slot object, c = Call.SignUpdate hSession p n ∧ session.Active ∧
            w.Resolves hSession session slot ∧ activeObject slot session = .ok object ∧
            object.C_SignUpdate = none ∧ (step w c).1 = CKR_OK ∧
            s'.cryptoBuffer = session.cryptoBuffer ++ (p.getD []).take n ∧
            s'.cryptoBufferSize = session.cryptoBufferSize + n))) :=
  ⟨step_uninitialized w c, fun session hs => step_buffer w hSession session c hs⟩

/-- Witness of C29: C_SignFinal with a non-null output on the uninitialized module, and on
the example session that holds "Hello World" in its crypto buffer. -/
theorem C29_who_changes_buffer_witness :
    (step exUninitialized (Call.SignFinal 100 exOut (some 2))).2 = exUninitialized ∧
    ∃ s', (step (exWorld exSigning) (Call.SignFinal 100 exOut (some 2))).2.session? 100
        = some s' ∧
      ((s'.cryptoBuffer = exSigning.cryptoBuffer ∧
        s'.cryptoBufferSize = exSigning.cryptoBufferSize) ∨
       (∃ b l, Call.SignFinal 100 exOut (some 2) = Call.SignFinal 100 (some b) l ∧
          exSigning.Active ∧ s'.cryptoBuffer = [] ∧ s'.cryptoBufferSize = 0) ∨
       (∃ p n slot object, Call.SignFinal 100 exOut (some 2) = Call.SignUpdate 100 p n ∧
          exSigning.Active ∧ (exWorld exSigning).Resolves 100 exSigning slot ∧
          activeObject slot exSigning = .ok object ∧ object.C_SignUpdate = none ∧
          (step (exWorld exSigning) (Call.SignFinal 100 exOut (some 2))).1 = CKR_OK ∧
          s'.cryptoBuffer = exSigning.cryptoBuffer ++ (p.getD []).take n ∧
          s'.cryptoBufferSize = exSigning.cryptoBufferSize + n)) :=
  ⟨(C29_who_changes_buffer exUninitialized 100 (Call.SignFinal 100 exOut (some 2))).1 rfl,
   (C29_who_changes_buffer (exWorld exSigning) 100 (Call.SignFinal 100 exOut (some 2))).2
     exSigning rfl⟩

/-- C30 (end condition of SignFinal): on an Active session whose active object resolves,
after C_SignFinal the session is Idle if and only if pSignature was non-null, for every
object and whatever a native capability returns; when the object has neither native
SignFinal nor native Sign the call returns CKR_FUNCTION_NOT_SUPPORTED, and the same
condition holds. -/
theorem C30_signFinal_end_condition (w : World) (hSession : CK_SESSION_HANDLE)
    (session : p11Session_t) (slot : p11Slot_t) (hr : w.Resolves hSession session slot)
    (hact : session.Active) (object : p11Object_t)
    (hobj : activeObject slot session = .ok object) (pSignature : CK_BYTE_PTR)
    (pulSignatureLen : CK_ULONG_PTR) :
    (∃ s', (C_SignFinal w hSession pSignature pulSignatureLen).2.session? hSession = some s' ∧
      (s'.Idle ↔ pSignature.isSome = true)) ∧
    (object.C_SignFinal = none → object.C_Sign = none →
      (C_SignFinal w hSession pSignature pulSignatureLen).1 = CKR_FUNCTION_NOT_SUPPORTED) := by
  have hsess := hr.session?
  obtain ⟨ctx, hctx, hs⟩ := id hr
  have hact' : session.activeObjectHandle ≠ CK_INVALID_HANDLE := hact
  have hnidle : ¬ session.Idle := fun h => hact h
  unfold activeObject at hobj
  constructor
  · cases pSignature with
    | none =>
      refine ⟨session, ?_, by simp [hnidle]⟩
      cases hf : object.C_SignFinal <;> cases hg : object.C_Sign <;>
        simp [C_SignFinal, hctx, hs, hact', hobj, hf, hg, World.session?_store, hsess.1,
          hsess.2]
    | some buf =>
      cases hf : object.C_SignFinal with
      | some f =>
        exact ⟨clearCryptoBuffer { session with activeObjectHandle := CK_INVALID_HANDLE },
          by simp [C_SignFinal, hctx, hs, hact', hobj, hf, World.session?_store,
            clearCryptoBuffer, hsess.1, hsess.2],
          by simp [p11Session_t.Idle, clearCryptoBuffer]⟩
      | none =>
        cases hg : object.C_Sign with
        | some g =>
          exact ⟨clearCryptoBuffer { session with activeObjectHandle := CK_INVALID_HANDLE },
            by simp [C_SignFinal, hctx, hs, hact', hobj, hf, hg, World.session?_store,
              clearCryptoBuffer, hsess.1, hsess.2],
            by simp [p11Session_t.Idle, clearCryptoBuffer]⟩
        | none =>
          exact ⟨{ session with activeObjectHandle := CK_INVALID_HANDLE },
            by simp [C_SignFinal, hctx, hs, hact', hobj, hf, hg, World.session?_store,
              hsess.1, hsess.2],
            by simp [p11Session_t.Idle]⟩
  · intro hf hg
    simp [C_SignFinal, hctx, hs, hact', hobj, hf, hg]

/-- Witness of C30: the example session with "Hello World" buffered for key 5, once with
a null and once with a non-null pSignature. -/
theorem C30_signFinal_end_condition_witness :
    (∃ s', (C_SignFinal (exWorld exSigning) 100 none (some 0)).2.session? 100 = some s' ∧
      (s'.Idle ↔ (none : CK_BYTE_PTR).isSome = true)) ∧
    (∃ s', (C_SignFinal (exWorld exSigning) 100 exOut (some 2)).2.session? 100 = some s' ∧
      (s'.Idle ↔ exOut.isSome = true)) :=
  ⟨(C30_signFinal_end_condition (exWorld exSigning) 100 exSigning exSlot
      ⟨exContext exSigning, rfl, rfl⟩ (by decide) exSignKey rfl none (some 0)).1,
   (C30_signFinal_end_condition (exWorld exSigning) 100 exSigning exSlot
      ⟨exContext exSigning, rfl, rfl⟩ (by decide) exSignKey rfl exOut (some 2)).1⟩

/-! ## Lemmas for the claims on stuck sessions, operation families and the mechanism -/

@[simp] theorem World.slotPool?_store (w : World) (s : p11Session_t) :
    (w.store s).slotPool? = w.slotPool? := by
  unfold World.store World.slotPool?
  cases hc : w.context <;> simp [hc]

@[simp] theorem World.slotPool?_log (w : World) (c : CapCall) :
    (w.log c).slotPool? = w.slotPool? := rfl

theorem resolves_transfer {w w' : World} {h : CK_SESSION_HANDLE} {s : p11Session_t}
    {slot : p11Slot_t} (hsp : w'.slotPool? = w.slotPool?) (hr : w.Resolves h s slot)
    (hs' : w'.session? h = some s) : w'.Resolves h s slot := by
  obtain ⟨ctx, hctx, hsf⟩ := hr
  cases hc' : w'.context with
  | none => simp [World.session?, hc'] at hs'
  | some ctx' =>
    have hpool : ctx'.slotPool = ctx.slotPool := by
      simpa [World.slotPool?, hc', hctx] using hsp
    have hf' : ctx'.sessionPool.find? (fun t => t.handle == h) = some s := by
      simpa [World.session?, hc'] using hs'
    have hf := (safeFind_ok hsf).1
    refine ⟨ctx', hc', ?_⟩
    unfold safeFindSessionAndLockSlot at hsf ⊢
    rw [hf] at hsf
    rw [hf', hpool]
    exact hsf

theorem C_EncryptInit_slotPool (w : World) (h' : CK_SESSION_HANDLE) (m : CK_MECHANISM) (k : CK_OBJECT_HANDLE) :
    (C_EncryptInit w h' m k).2.slotPool? = w.slotPool? := by
  unfold C_EncryptInit
  repeat' split
  all_goals first
    | rfl
    | (simp; done)
    | (dsimp only; split <;> simp)

theorem C_Encrypt_slotPool (w : World) (h' : CK_SESSION_HANDLE) (a : CK_BYTE_PTR) (n : CK_ULONG) (o : CK_BYTE_PTR) (l : CK_ULONG_PTR) :
    (C_Encrypt w h' a n o l).2.slotPool? = w.slotPool? := by
  unfold C_Encrypt
  repeat' split
  all_goals first
    | rfl
    | (simp; done)
    | (dsimp only; split <;> simp)

theorem C_EncryptUpdate_slotPool (w : World) (h' : CK_SESSION_HANDLE) (a : CK_BYTE_PTR) (n : CK_ULONG) (o : CK_BYTE_PTR) (l : CK_ULONG_PTR) :
    (C_EncryptUpdate w h' a n o l).2.slotPool? = w.slotPool? := by
  unfold C_EncryptUpdate
  repeat' split
  all_goals first
    | rfl
    | (simp; done)
    | (dsimp only; split <;> simp)

theorem C_EncryptFinal_slotPool (w : World) (h' : CK_SESSION_HANDLE) (o : CK_BYTE_PTR) (l : CK_ULONG_PTR) :
    (C_EncryptFinal w h' o l).2.slotPool? = w.slotPool? := by
  unfold C_EncryptFinal
  repeat' split
  all_goals first
    | rfl
    | (simp; done)
    | (dsimp only; split <;> simp)

theorem C_DecryptInit_slotPool (w : World) (h' : CK_SESSION_HANDLE) (m : CK_MECHANISM) (k : CK_OBJECT_HANDLE) :
    (C_DecryptInit w h' m k).2.slotPool? = w.slotPool? := by
  unfold C_DecryptInit
  repeat' split
  all_goals first
    | rfl
    | (simp; done)
    | (dsimp only; split <;> simp)

theorem C_Decrypt_slotPool (w : World) (h' : CK_SESSION_HANDLE) (a : CK_BYTE_PTR) (n : CK_ULONG) (o : CK_BYTE_PTR) (l : CK_ULONG_PTR) :
    (C_Decrypt w h' a n o l).2.slotPool? = w.slotPool? := by
  unfold C_Decrypt
  repeat' split
  all_goals first
    | rfl
    | (simp; done)
    | (dsimp only; split <;> simp)

theorem C_DecryptUpdate_slotPool (w : World) (h' : CK_SESSION_HANDLE) (a : CK_BYTE_PTR) (n : CK_ULONG) (o : CK_BYTE_PTR) (l : CK_ULONG_PTR) :
    (C_DecryptUpdate w h' a n o l).2.slotPool? = w.slotPool? := by
  unfold C_DecryptUpdate
  repeat' split
  all_goals first
    | rfl
    | (simp; done)
    | (dsimp only; split <;> simp)

theorem C_DecryptFinal_slotPool (w : World) (h' : CK_SESSION_HANDLE) (o : CK_BYTE_PTR) (l : CK_ULONG_PTR) :
    (C_DecryptFinal w h' o l).2.slotPool? = w.slotPool? := by
  unfold C_DecryptFinal
  repeat' split
  all_goals first
    | rfl
    | (simp; done)
    | (dsimp only; split <;> simp)

theorem C_SignInit_slotPool (w : World) (h' : CK_SESSION_HANDLE) (m : CK_MECHANISM) (k : CK_OBJECT_HANDLE) :
    (C_SignInit w h' m k).2.slotPool? = w.slotPool? := by
  unfold C_SignInit
  repeat' split
  all_goals first
    | rfl
    | (simp; done)
    | (dsimp only; split <;> simp)

theorem C_Sign_slotPool (w : World) (h' : CK_SESSION_HANDLE) (a : CK_BYTE_PTR) (n : CK_ULONG) (o : CK_BYTE_PTR) (l : CK_ULONG_PTR) :
    (C_Sign w h' a n o l).2.slotPool? = w.slotPool? := by
  unfold C_Sign
  repeat' split
  all_goals first
    | rfl
    | (simp; done)
    | (dsimp only; split <;> simp)

theorem C_SignUpdate_slotPool (w : World) (h' : CK_SESSION_HANDLE) (a : CK_BYTE_PTR) (n : CK_ULONG) :
    (C_SignUpdate w h' a n).2.slotPool? = w.slotPool? := by
  unfold C_SignUpdate
  repeat' split
  all_goals first
    | rfl
    | (simp; done)
    | (dsimp only; split <;> simp)

theorem C_SignFinal_slotPool (w : World) (h' : CK_SESSION_HANDLE) (o : CK_BYTE_PTR) (l : CK_ULONG_PTR) :
    (C_SignFinal w h' o l).2.slotPool? = w.slotPool? := by
  unfold C_SignFinal
  repeat' split
  all_goals first
    | rfl
    | (simp; done)
    | (dsimp only; split <;> simp)

theorem step_slotPool (w : World) (c : Call) : (step w c).2.slotPool? = w.slotPool? := by
  cases c with
  | EncryptInit h' m k => exact C_EncryptInit_slotPool _ _ _ _
  | Encrypt h' a n o l => exact C_Encrypt_slotPool _ _ _ _ _ _
  | EncryptUpdate h' a n o l => exact C_EncryptUpdate_slotPool _ _ _ _ _ _
  | EncryptFinal h' o l => exact C_EncryptFinal_slotPool _ _ _ _
  | DecryptInit h' m k => exact C_DecryptInit_slotPool _ _ _ _
  | Decrypt h' a n o l => exact C_Decrypt_slotPool _ _ _ _ _ _
  | DecryptUpdate h' a n o l => exact C_DecryptUpdate_slotPool _ _ _ _ _ _
  | DecryptFinal h' o l => exact C_DecryptFinal_slotPool _ _ _ _
  | SignInit h' m k => exact C_SignInit_slotPool _ _ _ _
  | Sign h' a n o l => exact C_Sign_slotPool _ _ _ _ _ _
  | SignUpdate h' a n => exact C_SignUpdate_slotPool _ _ _ _
  | SignFinal h' o l => exact C_SignFinal_slotPool _ _ _ _
  | _ =>
    rw [step_same_world w _ (by simp [Call.isUnsupportedFamily, Call.isLegacy])]

theorem C_EncryptInit_mech (w : World) (h : CK_SESSION_HANDLE) (s : p11Session_t)
    (hs : w.session? h = some s) (h' : CK_SESSION_HANDLE) (m : CK_MECHANISM)
    (k : CK_OBJECT_HANDLE) :
    ∃ s', (C_EncryptInit w h' m k).2.session? h = some s' ∧
      s'.activeMechanism = s.activeMechanism := by
  by_cases hh : h' = h
  · subst hh
    rcases resolves_or_not hs with ⟨slot, hr⟩ | ⟨ctx, e, hc, hsf⟩
    · have hsess := hr.session?
      obtain ⟨ctx, hctx, hsf⟩ := id hr
      simp only [C_EncryptInit, hctx, hsf]
      repeat' split
      all_goals simp [World.session?_store, hsess.1, hsess.2, *]
    · exact ⟨s, by simp [C_EncryptInit, hc, hsf, hs], rfl⟩
  · exact ⟨s, by rw [C_EncryptInit_other w h h' hh]; exact hs, rfl⟩

theorem C_DecryptInit_mech (w : World) (h : CK_SESSION_HANDLE) (s : p11Session_t)
    (hs : w.session? h = some s) (h' : CK_SESSION_HANDLE) (m : CK_MECHANISM)
    (k : CK_OBJECT_HANDLE) :
    ∃ s', (C_DecryptInit w h' m k).2.session? h = some s' ∧
      (s'.activeMechanism = s.activeMechanism ∨
        (h' = h ∧ (C_DecryptInit w h' m k).1 = CKR_OK ∧ s'.activeMechanism = m.mechanism)) := by
  by_cases hh : h' = h
  · subst hh
    rcases resolves_or_not hs with ⟨slot, hr⟩ | ⟨ctx, e, hc, hsf⟩
    · have hsess := hr.session?
      obtain ⟨ctx, hctx, hsf⟩ := id hr
      simp only [C_DecryptInit, hctx, hsf]
      repeat' split
      all_goals simp [World.session?_store, hsess.1, hsess.2, *]
    · exact ⟨s, by simp [C_DecryptInit, hc, hsf, hs], Or.inl rfl⟩
  · exact ⟨s, by rw [C_DecryptInit_other w h h' hh]; exact hs, Or.inl rfl⟩

theorem C_SignInit_mech (w : World) (h : CK_SESSION_HANDLE) (s : p11Session_t)
    (hs : w.session? h = some s) (h' : CK_SESSION_HANDLE) (m : CK_MECHANISM)
    (k : CK_OBJECT_HANDLE) :
    ∃ s', (C_SignInit w h' m k).2.session? h = some s' ∧
      (s'.activeMechanism = s.activeMechanism ∨
        (h' = h ∧ (C_SignInit w h' m k).1 = CKR_OK ∧ s'.activeMechanism = m.mechanism)) := by
  by_cases hh : h' = h
  · subst hh
    rcases resolves_or_not hs with ⟨slot, hr⟩ | ⟨ctx, e, hc, hsf⟩
    · have hsess := hr.session?
      obtain ⟨ctx, hctx, hsf⟩ := id hr
      simp only [C_SignInit, hctx, hsf]
      repeat' split
      all_goals simp [World.session?_store, hsess.1, hsess.2, *]
    · exact ⟨s, by simp [C_SignInit, hc, hsf, hs], Or.inl rfl⟩
  · exact ⟨s, by rw [C_SignInit_other w h h' hh]; exact hs, Or.inl rfl⟩

theorem step_mechanism (w : World) (h : CK_SESSION_HANDLE) (s : p11Session_t) (c : Call)
    (hs : w.session? h = some s) :
    ∃ s', (step w c).2.session? h = some s' ∧
      (s'.activeMechanism = s.activeMechanism ∨
        ∃ m k, (c = Call.DecryptInit h m k ∨ c = Call.SignInit h m k) ∧
          (step w c).1 = CKR_OK ∧ s'.activeMechanism = m.mechanism) := by
  by_cases hi : c.isInit = true
  · cases c with
    | EncryptInit h' m k =>
      obtain ⟨s', e, hm⟩ := C_EncryptInit_mech w h s hs h' m k
      exact ⟨s', e, Or.inl hm⟩
    | DecryptInit h' m k =>
      obtain ⟨s', e, hm | ⟨hh, hc, hm⟩⟩ := C_DecryptInit_mech w h s hs h' m k
      · exact ⟨s', e, Or.inl hm⟩
      · subst hh
        exact ⟨s', e, Or.inr ⟨m, k, Or.inl rfl, hc, hm⟩⟩
    | SignInit h' m k =>
      obtain ⟨s', e, hm | ⟨hh, hc, hm⟩⟩ := C_SignInit_mech w h s hs h' m k
      · exact ⟨s', e, Or.inl hm⟩
      · subst hh
        exact ⟨s', e, Or.inr ⟨m, k, Or.inr rfl, hc, hm⟩⟩
    | _ => simp [Call.isInit] at hi
  · rcases step_effect w h s c hs with e | ⟨hi', _⟩ | ⟨_, _, e⟩ | ⟨_, _, _, _, e⟩ |
        ⟨p, n, _, _, _, _, _, _, _, _, e⟩
    · exact ⟨s, e, Or.inl rfl⟩
    · exact absurd hi' hi
    · exact ⟨_, e, Or.inl rfl⟩
    · exact ⟨_, e, Or.inl rfl⟩
    · exact ⟨_, e, Or.inl (appendToCryptoBuffer_frame _ _ _ _).2.2.2⟩

theorem stuck_step {w : World} {h : CK_SESSION_HANDLE} {s : p11Session_t} {slot : p11Slot_t}
    (hr : w.Resolves h s slot) (hact : s.Active) {e : CK_RV}
    (herr : activeObject slot s = .error e) (c : Call) :
    (step w c).2.session? h = some s := by
  have hsess := hr.session?
  obtain ⟨ctx, hctx, hs⟩ := id hr
  have hact' : s.activeObjectHandle ≠ CK_INVALID_HANDLE := hact
  unfold activeObject at herr
  cases c with
  | EncryptInit h' m k =>
    by_cases hh : h' = h
    · subst hh; simp [step, C_EncryptInit, hctx, hs, hact', hsess.1]
    · simp only [step]; rw [C_EncryptInit_other w h h' hh]; exact hsess.1
  | DecryptInit h' m k =>
    by_cases hh : h' = h
    · subst hh; simp [step, C_DecryptInit, hctx, hs, hact', hsess.1]
    · simp only [step]; rw [C_DecryptInit_other w h h' hh]; exact hsess.1
  | SignInit h' m k =>
    by_cases hh : h' = h
    · subst hh; simp [step, C_SignInit, hctx, hs, hact', hsess.1]
    · simp only [step]; rw [C_SignInit_other w h h' hh]; exact hsess.1
  | Encrypt h' a n o l =>
    by_cases hh : h' = h
    · subst hh; simp [step, C_Encrypt, hctx, hs, hact', herr, hsess.1]
    · simp only [step]; rw [C_Encrypt_other w h h' hh]; exact hsess.1
  | EncryptUpdate h' a n o l =>
    by_cases hh : h' = h
    · subst hh; simp [step, C_EncryptUpdate, hctx, hs, hact', herr, hsess.1]
    · simp only [step]; rw [C_EncryptUpdate_other w h h' hh]; exact hsess.1
  | EncryptFinal h' o l =>
    by_cases hh : h' = h
    · subst hh; simp [step, C_EncryptFinal, hctx, hs, hact', herr, hsess.1]
    · simp only [step]; rw [C_EncryptFinal_other w h h' hh]; exact hsess.1
  | Decrypt h' a n o l =>
    by_cases hh : h' = h
    · subst hh; simp [step, C_Decrypt, hctx, hs, hact', herr, hsess.1]
    · simp only [step]; rw [C_Decrypt_other w h h' hh]; exact hsess.1
  | DecryptUpdate h' a n o l =>
    by_cases hh : h' = h
    · subst hh; simp [step, C_DecryptUpdate, hctx, hs, hact', herr, hsess.1]
    · simp only [step]; rw [C_DecryptUpdate_other w h h' hh]; exact hsess.1
  | DecryptFinal h' o l =>
    by_cases hh : h' = h
    · subst hh; simp [step, C_DecryptFinal, hctx, hs, hact', herr, hsess.1]
    · simp only [step]; rw [C_DecryptFinal_other w h h' hh]; exact hsess.1
  | Sign h' a n o l =>
    by_cases hh : h' = h
    · subst hh; simp [step, C_Sign, hctx, hs, hact', herr, hsess.1]
    · simp only [step]; rw [C_Sign_other w h h' hh]; exact hsess.1
  | SignUpdate h' a n =>
    by_cases hh : h' = h
    · subst hh; simp [step, C_SignUpdate, hctx, hs, hact', herr, hsess.1]
    · simp only [step]; rw [C_SignUpdate_other w h h' hh]; exact hsess.1
  | SignFinal h' o l =>
    by_cases hh : h' = h
    · subst hh; simp [step, C_SignFinal, hctx, hs, hact', herr, hsess.1]
    · simp only [step]; rw [C_SignFinal_other w h h' hh]; exact hsess.1
  | _ =>
    rw [step_same_world w _ (by simp [Call.isUnsupportedFamily, Call.isLegacy])]
    exact hsess.1

theorem stuck_run (h : CK_SESSION_HANDLE) (s : p11Session_t) (slot : p11Slot_t)
    (hact : s.Active) (e : CK_RV) (herr : activeObject slot s = .error e) (cs : List Call) :
    ∀ w : World, w.Resolves h s slot → (run w cs).Resolves h s slot := by
  induction cs with
  | nil => intro w hr; exact hr
  | cons c cs ih =>
    intro w hr
    exact ih _ (resolves_transfer (step_slotPool w c) hr (stuck_step hr hact herr c))

theorem C_DecryptInit_ok {w : World} {h : CK_SESSION_HANDLE} {s : p11Session_t}
    {slot : p11Slot_t} (hr : w.Resolves h s slot) (hidle : s.Idle) {k : CK_OBJECT_HANDLE}
    {object : p11Object_t} {f : InitFn} {m : CK_MECHANISM}
    (hk : findSlotObject slot k false = .ok object)
    (hf : object.C_DecryptInit = some f) (hrv : f w.trace m = 0) :
    C_DecryptInit w h m k = (CKR_OK,
      (w.log ⟨object.handle, Capability.DecryptInit, CapArgs.init m⟩).store
        { s with activeObjectHandle := intOfHandle object.handle
                 activeMechanism := m.mechanism }) := by
  obtain ⟨ctx, hctx, hs⟩ := hr
  have hidle' : s.activeObjectHandle = CK_INVALID_HANDLE := hidle
  simp [C_DecryptInit, hctx, hs, hidle', hk, hf, hrv]

theorem encrypt_calls_trace {w : World} {h : CK_SESSION_HANDLE} {s : p11Session_t}
    {slot : p11Slot_t} (hr : w.Resolves h s slot) (hact : s.Active) {object : p11Object_t}
    (hobj : activeObject slot s = .ok object) (pIn : CK_BYTE_PTR) (n : CK_ULONG)
    (pOut : CK_BYTE_PTR) (pl : CK_ULONG_PTR) :
    (∀ f, object.C_Encrypt = some f →
      (C_Encrypt w h pIn n pOut pl).2.trace = w.trace ++
        [⟨object.handle, Capability.Encrypt, CapArgs.single s.activeMechanism pIn n pOut pl⟩]) ∧
    (∀ f, object.C_EncryptUpdate = some f →
      (C_EncryptUpdate w h pIn n pOut pl).2.trace = w.trace ++
        [⟨object.handle, Capability.EncryptUpdate,
          CapArgs.single s.activeMechanism pIn n pOut pl⟩]) ∧
    (∀ f, object.C_EncryptFinal = some f →
      (C_EncryptFinal w h pOut pl).2.trace = w.trace ++
        [⟨object.handle, Capability.EncryptFinal, CapArgs.final s.activeMechanism pOut pl⟩]) := by
  obtain ⟨ctx, hctx, hs⟩ := id hr
  have hact' : s.activeObjectHandle ≠ CK_INVALID_HANDLE := hact
  unfold activeObject at hobj
  refine ⟨?_, ?_, ?_⟩
  · intro f hf; simp [C_Encrypt, hctx, hs, hact', hobj, hf, World.log]
  · intro f hf; simp [C_EncryptUpdate, hctx, hs, hact', hobj, hf, World.log]
  · intro f hf
    by_cases hrv : f w.trace s.activeMechanism pOut pl = 0 <;>
      simp [C_EncryptFinal, hctx, hs, hact', hobj, hf, hrv, World.log]

theorem dispatch_any_family {w : World} {h : CK_SESSION_HANDLE} {s : p11Session_t}
    {slot : p11Slot_t} (hr : w.Resolves h s slot) (hact : s.Active) {object : p11Object_t}
    (hobj : activeObject slot s = .ok object) (pIn : CK_BYTE_PTR) (n : CK_ULONG)
    (pOut : CK_BYTE_PTR) (pl : CK_ULONG_PTR) :
    ((object.C_Encrypt = none → (C_Encrypt w h pIn n pOut pl).1 = CKR_FUNCTION_NOT_SUPPORTED) ∧
     (∀ f, object.C_Encrypt = some f →
       ∃ a, (C_Encrypt w h pIn n pOut pl).2.trace = w.trace ++ [⟨object.handle, Capability.Encrypt, a⟩])) ∧
    ((object.C_EncryptUpdate = none → (C_EncryptUpdate w h pIn n pOut pl).1 = CKR_FUNCTION_NOT_SUPPORTED) ∧
     (∀ f, object.C_EncryptUpdate = some f →
       ∃ a, (C_EncryptUpdate w h pIn n pOut pl).2.trace = w.trace ++ [⟨object.handle, Capability.EncryptUpdate, a⟩])) ∧
    ((object.C_EncryptFinal = none → (C_EncryptFinal w h pOut pl).1 = CKR_FUNCTION_NOT_SUPPORTED) ∧
     (∀ f, object.C_EncryptFinal = some f →
       ∃ a, (C_EncryptFinal w h pOut pl).2.trace = w.trace ++ [⟨object.handle, Capability.EncryptFinal, a⟩])) ∧
    ((object.C_Decrypt = none → (C_Decrypt w h pIn n pOut pl).1 = CKR_FUNCTION_NOT_SUPPORTED) ∧
     (∀ f, object.C_Decrypt = some f →
       ∃ a, (C_Decrypt w h pIn n pOut pl).2.trace = w.trace ++ [⟨object.handle, Capability.Decrypt, a⟩])) ∧
    ((object.C_DecryptUpdate = none → (C_DecryptUpdate w h pIn n pOut pl).1 = CKR_FUNCTION_NOT_SUPPORTED) ∧
     (∀ f, object.C_DecryptUpdate = some f →
       ∃ a, (C_DecryptUpdate w h pIn n pOut pl).2.trace = w.trace ++ [⟨object.handle, Capability.DecryptUpdate, a⟩])) ∧
    ((object.C_DecryptFinal = none → (C_DecryptFinal w h pOut pl).1 = CKR_FUNCTION_NOT_SUPPORTED) ∧
     (∀ f, object.C_DecryptFinal = some f →
       ∃ a, (C_DecryptFinal w h pOut pl).2.trace = w.trace ++ [⟨object.handle, Capability.DecryptFinal, a⟩])) ∧
    ((object.C_Sign = none → (C_Sign w h pIn n pOut pl).1 = CKR_FUNCTION_NOT_SUPPORTED) ∧
     (∀ f, object.C_Sign = some f →
       ∃ a, (C_Sign w h pIn n pOut pl).2.trace = w.trace ++ [⟨object.handle, Capability.Sign, a⟩])) ∧
    ((object.C_SignFinal = none → object.C_Sign = none →
        (C_SignFinal w h pOut pl).1 = CKR_FUNCTION_NOT_SUPPORTED) ∧
     (∀ f, object.C_SignFinal = some f →
       ∃ a, (C_SignFinal w h pOut pl).2.trace =
         w.trace ++ [⟨object.handle, Capability.SignFinal, a⟩]) ∧
     (object.C_SignFinal = none → ∀ g, object.C_Sign = some g →
       ∃ a, (C_SignFinal w h pOut pl).2.trace =
         w.trace ++ [⟨object.handle, Capability.Sign, a⟩])) ∧
    ((object.C_SignUpdate = none →
        C_SignUpdate w h pIn n = ((appendToCryptoBuffer w.hostMemory s pIn n).1,
          w.store (appendToCryptoBuffer w.hostMemory s pIn n).2)) ∧
     (∀ f, object.C_SignUpdate = some f →
       ∃ a, (C_SignUpdate w h pIn n).2.trace =
         w.trace ++ [⟨object.handle, Capability.SignUpdate, a⟩])) ∧
    ((∀ buf, ∃ s2, (C_Decrypt w h pIn n (some buf) pl).2.session? h = some s2 ∧ s2.Idle) ∧
     (∀ f, object.C_EncryptFinal = some f → (C_EncryptFinal w h pOut pl).1 = CKR_OK →
       ∃ s2, (C_EncryptFinal w h pOut pl).2.session? h = some s2 ∧ s2.Idle) ∧
     (∀ f, object.C_DecryptFinal = some f → (C_DecryptFinal w h pOut pl).1 = CKR_OK →
       ∃ s2, (C_DecryptFinal w h pOut pl).2.session? h = some s2 ∧ s2.Idle)) := by
  have hsess := hr.session?
  obtain ⟨ctx, hctx, hs⟩ := id hr
  have hact' : s.activeObjectHandle ≠ CK_INVALID_HANDLE := hact
  have hobj' := hobj
  unfold activeObject at hobj'
  refine ⟨⟨?_, ?_⟩, ⟨?_, ?_⟩, ⟨?_, ?_⟩, ⟨?_, ?_⟩, ⟨?_, ?_⟩, ⟨?_, ?_⟩, ⟨?_, ?_⟩, ⟨?_, ?_, ?_⟩,
    ⟨?_, ?_⟩, ⟨?_, ?_, ?_⟩⟩
  · intro hn; simp [C_Encrypt, hctx, hs, hact', hobj', hn]
  · intro f hf; exact ⟨_, by simp [C_Encrypt, hctx, hs, hact', hobj', hf, World.log]; rfl⟩
  · intro hn; simp [C_EncryptUpdate, hctx, hs, hact', hobj', hn]
  · intro f hf; exact ⟨_, by simp [C_EncryptUpdate, hctx, hs, hact', hobj', hf, World.log]; rfl⟩
  · intro hn; simp [C_EncryptFinal, hctx, hs, hact', hobj', hn]
  · intro f hf
    refine ⟨CapArgs.final s.activeMechanism pOut pl, ?_⟩
    by_cases hrv : f w.trace s.activeMechanism pOut pl = 0 <;>
      simp [C_EncryptFinal, hctx, hs, hact', hobj', hf, hrv, World.log]
  · intro hn; cases pOut <;> simp [C_Decrypt, hctx, hs, hact', hobj', hn]
  · intro f hf
    refine ⟨CapArgs.single s.activeMechanism pIn n pOut pl, ?_⟩
    cases pOut <;> simp [C_Decrypt, hctx, hs, hact', hobj', hf, World.log]
  · intro hn; simp [C_DecryptUpdate, hctx, hs, hact', hobj', hn]
  · intro f hf
    refine ⟨CapArgs.single s.activeMechanism pIn n pOut pl, ?_⟩
    simp [C_DecryptUpdate, hctx, hs, hact', hobj', hf, World.log]
  · intro hn; simp [C_DecryptFinal, hctx, hs, hact', hobj', hn]
  · intro f hf
    refine ⟨CapArgs.final s.activeMechanism pOut pl, ?_⟩
    by_cases hrv : f w.trace s.activeMechanism pOut pl = 0 <;>
      simp [C_DecryptFinal, hctx, hs, hact', hobj', hf, hrv, World.log]
  · intro hn; cases pOut <;> simp [C_Sign, hctx, hs, hact', hobj', hn]
  · intro f hf
    refine ⟨CapArgs.single s.activeMechanism pIn n pOut pl, ?_⟩
    cases pOut <;> simp [C_Sign, hctx, hs, hact', hobj', hf, World.log]
  · intro hf hg; cases pOut <;> simp [C_SignFinal, hctx, hs, hact', hobj', hf, hg]
  · intro f hf
    refine ⟨CapArgs.final s.activeMechanism pOut pl, ?_⟩
    cases pOut <;> simp [C_SignFinal, hctx, hs, hact', hobj', hf, World.log]
  · intro hf g hg
    refine ⟨CapArgs.single s.activeMechanism (some s.cryptoBuffer) s.cryptoBufferSize pOut pl, ?_⟩
    cases pOut <;> simp [C_SignFinal, hctx, hs, hact', hobj', hf, hg, World.log]
  · intro hn; exact C_SignUpdate_buffered hr hact hobj hn pIn n
  · intro f hf
    refine ⟨CapArgs.part s.activeMechanism pIn n, ?_⟩
    simp [C_SignUpdate, hctx, hs, hact', hobj', hf, World.log]
  · intro buf
    refine ⟨{ s with activeObjectHandle := CK_INVALID_HANDLE }, ?_, rfl⟩
    cases hcap : object.C_Decrypt <;>
      simp [C_Decrypt, hctx, hs, hact', hobj', hcap, World.session?_store, hsess.1, hsess.2]
  · intro f hf hok
    refine ⟨{ s with activeObjectHandle := CK_INVALID_HANDLE }, ?_, rfl⟩
    by_cases hrv : f w.trace s.activeMechanism pOut pl = 0
    · simp [C_EncryptFinal, hctx, hs, hact', hobj', hf, hrv, World.session?_store, hsess.1,
        hsess.2]
    · simp [C_EncryptFinal, hctx, hs, hact', hobj', hf, hrv, CKR_OK] at hok
  · intro f hf hok
    refine ⟨{ s with activeObjectHandle := CK_INVALID_HANDLE }, ?_, rfl⟩
    by_cases hrv : f w.trace s.activeMechanism pOut pl = 0
    · simp [C_DecryptFinal, hctx, hs, hact', hobj', hf, hrv, World.session?_store, hsess.1,
        hsess.2]
    · simp [C_DecryptFinal, hctx, hs, hact', hobj', hf, hrv, CKR_OK] at hok

theorem init_ok_state {w : World} {h : CK_SESSION_HANDLE} {s : p11Session_t}
    {slot : p11Slot_t} (hr : w.Resolves h s slot) (hidle : s.Idle) (hfit : slot.handlesFit)
    {k : CK_OBJECT_HANDLE} {object : p11Object_t}
    (hk : findSlotObject slot k false = .ok object) (m : CK_MECHANISM) (c0 : Call)
    (hc0 : c0 = Call.EncryptInit h m k ∨ c0 = Call.DecryptInit h m k ∨
      c0 = Call.SignInit h m k) (hok : (step w c0).1 = CKR_OK) :
    ∃ s1, (step w c0).2.Resolves h s1 slot ∧ s1.Active ∧ activeObject slot s1 = .ok object := by
  have hfits := fits_of_handlesFit hfit hk
  obtain ⟨ctx, hctx, hs⟩ := id hr
  have hidle' : s.activeObjectHandle = CK_INVALID_HANDLE := hidle
  have hns : CKR_FUNCTION_NOT_SUPPORTED ≠ CKR_OK := by decide
  rcases hc0 with rfl | rfl | rfl
  · cases hcap : object.C_EncryptInit with
    | none => simp [step, C_EncryptInit, hctx, hs, hidle', hk, hcap, hns] at hok
    | some f =>
      by_cases hrv : f w.trace m = 0
      · have heq := C_EncryptInit_ok hr hidle hk hcap hrv
        have hao := activeObject_of_fits hfits hk
          { s with activeObjectHandle := intOfHandle object.handle } rfl
        simp only [step]
        rw [heq]
        exact ⟨_, (hr.log _).store _ rfl rfl, hao.2, hao.1⟩
      · simp [step, C_EncryptInit, hctx, hs, hidle', hk, hcap, hrv, CKR_OK] at hok
  · cases hcap : object.C_DecryptInit with
    | none => simp [step, C_DecryptInit, hctx, hs, hidle', hk, hcap, hns] at hok
    | some f =>
      by_cases hrv : f w.trace m = 0
      · have heq := C_DecryptInit_ok hr hidle hk hcap hrv
        have hao := activeObject_of_fits hfits hk
          { s with activeObjectHandle := intOfHandle object.handle
                   activeMechanism := m.mechanism } rfl
        simp only [step]
        rw [heq]
        exact ⟨_, (hr.log _).store _ rfl rfl, hao.2, hao.1⟩
      · simp [step, C_DecryptInit, hctx, hs, hidle', hk, hcap, hrv, CKR_OK] at hok
  · cases hcap : object.C_SignInit with
    | none => simp [step, C_SignInit, hctx, hs, hidle', hk, hcap, hns] at hok
    | some f =>
      by_cases hrv : f w.trace m = 0
      · have heq := C_SignInit_ok hr hidle hk hcap hrv
        have hao := activeObject_of_fits hfits hk
          { s with activeObjectHandle := intOfHandle object.handle
                   activeMechanism := m.mechanism } rfl
        simp only [step]
        rw [heq]
        exact ⟨_, (hr.log _).store _ rfl rfl, hao.2, hao.1⟩
      · simp [step, C_SignInit, hctx, hs, hidle', hk, hcap, hrv, CKR_OK] at hok

/-! ## Lemmas on the helpers of the test program -/

theorem poke_spec (buf : List Nat) (pos : Nat) (bytes : List Nat)
    (h : pos + bytes.length ≤ buf.length) :
    ∃ b', poke buf pos bytes = some b' ∧ b'.length = buf.length ∧
      ∀ j, j ≤ bytes.length → b'.take (pos + j) = buf.take pos ++ bytes.take j := by
  refine ⟨buf.take pos ++ bytes ++ buf.drop (pos + bytes.length), by simp [poke, h], ?_, ?_⟩
  · simp only [List.length_append, List.length_take, List.length_drop]
    omega
  · intro j hj
    have hp : (buf.take pos).length = pos := by
      simp only [List.length_take]; omega
    rw [List.append_assoc, List.take_append_eq_append_take, hp]
    have h1 : (buf.take pos).take (pos + j) = buf.take pos := by
      apply List.take_of_length_le; omega
    rw [h1]
    congr 1
    rw [List.take_append_eq_append_take]
    have h2 : pos + j - pos = j := by omega
    rw [h2]
    have h3 : j - bytes.length = 0 := by omega
    rw [h3]
    simp

theorem hexDigit_eq_table (n : Nat) (h : n < 16) : hexDigit n = hexTable.getD n 0 := by
  interval_cases n <;> rfl

theorem wrapInt32_small (x : Int) (h1 : -(2 : Int) ^ 31 ≤ x) (h2 : x < 2 ^ 31) :
    wrapInt32 x = x := by
  unfold wrapInt32
  omega

theorem bin2strLoop_done (data : List Nat) (n d : Nat) (ascii : Bool) (buf : List Nat)
    (pos : Nat) : bin2strLoop data n 0 d ascii buf pos = some (n, ascii, buf, pos) := by
  match n with
  | 0 => simp [bin2strLoop]
  | 1 => simp [bin2strLoop]
  | 2 => simp [bin2strLoop]
  | m + 3 => simp [bin2strLoop]

theorem bin2strLoop_short (data : List Nat) (n : Nat) (hn : n ≤ 2) (i : Int) (d : Nat)
    (ascii : Bool) (buf : List Nat) (pos : Nat) :
    bin2strLoop data n i d ascii buf pos = some (n, ascii, buf, pos) := by
  match n, hn with
  | 0, _ => simp [bin2strLoop]
  | 1, _ => simp [bin2strLoop]
  | 2, _ => simp [bin2strLoop]

theorem bin2strLoop_spec (data : List Nat) :
    ∀ (r d n : Nat) (ascii : Bool) (buf : List Nat) (pos : Nat),
      r < 2 ^ 31 → d + r = data.length → n + pos = buf.length →
      ∃ k buf', k ≤ r ∧ 2 * k ≤ n ∧
        bin2strLoop data n (r : Int) d ascii buf pos =
          some (n - 2 * k, ascii && ((data.drop d).take k).all (fun b => isprint b || b == 0),
            buf', pos + 2 * k) ∧
        buf'.length = buf.length ∧
        buf'.take (pos + 2 * k) = buf.take pos ++
          ((data.drop d).take k).flatMap (fun b => [hexDigit (b / 16), hexDigit (b % 16)]) ∧
        (k = r ∨ n - 2 * k ≤ 2) ∧ (1 ≤ n → 1 ≤ n - 2 * k) := by
  intro r
  induction r with
  | zero =>
    intro d n ascii buf pos _ _ _
    refine ⟨0, buf, le_refl _, by omega, ?_, rfl, by simp, Or.inl rfl, fun h => by simpa using h⟩
    simpa using bin2strLoop_done data n d ascii buf pos
  | succ r ih =>
    intro d n ascii buf pos hr hd hn
    by_cases hsmall : n ≤ 2
    · refine ⟨0, buf, by omega, by omega, ?_, rfl, by simp, Or.inr (by omega),
        fun h => by simpa using h⟩
      simpa using bin2strLoop_short data n hsmall _ d ascii buf pos
    · obtain ⟨m, rfl⟩ : ∃ m, n = m + 3 := ⟨n - 3, by omega⟩
      have hdlt : d < data.length := by omega
      have hget : data[d]? = some data[d] := List.getElem?_eq_getElem hdlt
      obtain ⟨buf1, hp1, hl1, ht1⟩ := poke_spec buf pos (sprintf02X data[d])
        (by simp [sprintf02X]; omega)
      obtain ⟨k, buf', hk, h2k, hloop, hl', ht', hend, hpos⟩ :=
        ih (d + 1) (m + 1)
          (if ascii = true ∧ ¬ isprint data[d] = true ∧ data[d] ≠ 0 then false else ascii)
          buf1 (pos + 2) (by omega) (by omega) (by omega)
      have hdrop : data.drop d = data[d] :: data.drop (d + 1) :=
        (List.drop_eq_getElem_cons hdlt)
      have ht2 : buf1.take (pos + 2) = buf.take pos ++
          [hexDigit (data[d] / 16), hexDigit (data[d] % 16)] := by
        rw [ht1 2 (by simp [sprintf02X])]
        simp [sprintf02X]
      refine ⟨k + 1, buf', by omega, by omega, ?_, by rw [hl', hl1], ?_, ?_, ?_⟩
      · have hi : ((r + 1 : Nat) : Int) ≠ 0 := by omega
        have hi2 : wrapInt32 (((r + 1 : Nat) : Int) - 1) = (r : Int) := by
          have e : ((r + 1 : Nat) : Int) - 1 = (r : Int) := by omega
          rw [e]
          exact wrapInt32_small _ (by omega) (by omega)
        rw [bin2strLoop]
        simp only [hi, if_false, hget, hp1, hi2]
        rw [hloop, hdrop]
        have e1 : m + 3 - 2 * (k + 1) = m + 1 - 2 * k := by omega
        have e2 : pos + 2 * (k + 1) = pos + 2 + 2 * k := by omega
        rw [e1, e2]
        congr 2
        simp only [List.take_succ_cons, List.all_cons]
        cases ascii <;> cases hpr : isprint data[d] <;> by_cases hz : data[d] = 0 <;>
          simp [hpr, hz]
      · have e2 : pos + 2 * (k + 1) = pos + 2 + 2 * k := by omega
        rw [e2, ht', ht2, hdrop, List.take_succ_cons, List.flatMap_cons]
        simp only [List.append_assoc, List.cons_append, List.nil_append]
      · rcases hend with h | h
        · left; omega
        · right; omega
      · intro _; omega

theorem bin2str_length_overflow (data : List Nat) (h1 : 2 ^ 31 ≤ data.length + 3)
    (h2 : data.length < 2 ^ 31) : bin2str [0] 1 data data.length = none := by
  have hw : wrapInt32 ((data.length : Int) + 3) = (data.length : Int) + 3 - 2 ^ 32 := by
    unfold wrapInt32
    omega
  have hloop := bin2strLoop_short data 1 (by omega) (data.length : Int) 0 true [0] 0
  have hcond : (1 : Int) > (data.length : Int) + 3 - 2 ^ 32 := by omega
  have hno : ¬ ((data.length : Int) < 0 ∨ data.length < data.length) := by omega
  unfold bin2str
  have e1 : (1 : Int).toNat = 1 := rfl
  simp only [e1, hloop, hw]
  simp [hcond, poke]
  omega

theorem hexEncode_eq (data : List Nat) (hb : ∀ b ∈ data, b < 256) :
    data.flatMap (fun b => [hexDigit (b / 16), hexDigit (b % 16)]) = hexEncode data := by
  induction data with
  | nil => rfl
  | cons b bs ih =>
    have hlt : b < 256 := hb b (by simp)
    have h1 : b / 16 < 16 := by omega
    have h2 : b % 16 < 16 := by omega
    unfold hexEncode at ih ⊢
    rw [List.flatMap_cons, List.flatMap_cons, ih (fun x hx => hb x (by simp [hx])),
      hexDigit_eq_table _ h1, hexDigit_eq_table _ h2]

theorem decodeArgsLoop_zero (atoi : String → Int) (rest : List String) (g : TestOptions) :
    decodeArgsLoop atoi 0 rest g = .returned g := by
  rw [decodeArgsLoop]
  exact if_pos rfl

theorem decodeArgsLoop_no_message (atoi : String → Int) :
    ∀ (n : Nat) (rest : List String), rest.length ≤ n → ∀ (g : TestOptions) (msg : String),
      decodeArgsLoop atoi rest.length rest g ≠ .exit1 msg := by
  intro n
  induction n with
  | zero =>
    intro rest h g msg
    have : rest = [] := List.length_eq_zero.mp (by omega)
    subst this
    simp [decodeArgsLoop_zero]
  | succ n ih =>
    intro rest h g msg
    cases rest with
    | nil => simp [decodeArgsLoop_zero]
    | cons a rest1 =>
      have hlen : rest1.length ≤ n := by simpa using h
      have hne : ¬ (((rest1.length + 1 : Nat) : Int) = 0) := by omega
      have hsub : ((rest1.length + 1 : Nat) : Int) - 1 = (rest1.length : Int) := by omega
      have hnneg : ¬ ((rest1.length : Int) < 0) := by omega
      rw [decodeArgsLoop]
      simp only [List.length_cons, hne, if_false, hsub, hnneg]
      cases rest1 with
      | nil =>
        simp only [List.length_nil]
        cases argBranch a <;> simp [decodeArgsLoop_zero]
      | cons v rest2 =>
        have hlen2 : rest2.length ≤ n := by simp at hlen; omega
        have hsub2 : ((rest2.length + 1 : Nat) : Int) - 1 = (rest2.length : Int) := by omega
        have hne2 : ¬ (((rest2.length + 1 : Nat) : Int) = 0) := by omega
        simp only [List.length_cons, hsub2, hne2, if_false]
        cases argBranch a <;> first
          | (simp; done)
          | exact ih rest2 hlen2 _ msg
          | exact ih (v :: rest2) hlen _ msg

/-! ## Claims C31 to C39 -/

/-- C31 (a session whose active object no longer resolves is stuck Active): on an Active
session whose object lookup fails with the code `e`, each of the nine Update, Final and
single-shot entry points returns `e` and leaves the whole module state unchanged (no
capability is invoked, activeObjectHandle and the crypto buffer are kept), whatever the
output pointer is; each of the three Inits returns CKR_OPERATION_ACTIVE and leaves the
state unchanged; and after every finite sequence of entry-point calls, on this or on
other sessions, the session is the same as before, so it is never Idle again. -/
theorem C31_unresolved_object_stuck (w : World) (hSession : CK_SESSION_HANDLE)
    (session : p11Session_t) (slot : p11Slot_t) (hr : w.Resolves hSession session slot)
    (hact : session.Active) (e : CK_RV) (herr : activeObject slot session = .error e)
    (pMechanism : CK_MECHANISM) (hKey : CK_OBJECT_HANDLE) (pIn : CK_BYTE_PTR)
    (ulInLen : CK_ULONG) (pOut : CK_BYTE_PTR) (pulOutLen : CK_ULONG_PTR) :
    (C_Encrypt w hSession pIn ulInLen pOut pulOutLen = (e, w) ∧
     C_EncryptUpdate w hSession pIn ulInLen pOut pulOutLen = (e, w) ∧
     C_EncryptFinal w hSession pOut pulOutLen = (e, w) ∧
     C_Decrypt w hSession pIn ulInLen pOut pulOutLen = (e, w) ∧
     C_DecryptUpdate w hSession pIn ulInLen pOut pulOutLen = (e, w) ∧
     C_DecryptFinal w hSession pOut pulOutLen = (e, w) ∧
     C_Sign w hSession pIn ulInLen pOut pulOutLen = (e, w) ∧
     C_SignUpdate w hSession pIn ulInLen = (e, w) ∧
     C_SignFinal w hSession pOut pulOutLen = (e, w)) ∧
    (C_EncryptInit w hSession pMechanism hKey = (CKR_OPERATION_ACTIVE, w) ∧
     C_DecryptInit w hSession pMechanism hKey = (CKR_OPERATION_ACTIVE, w) ∧
     C_SignInit w hSession pMechanism hKey = (CKR_OPERATION_ACTIVE, w)) ∧
    (∀ cs : List Call, (run w cs).session? hSession = some session) := by
  have hrun := fun cs => (stuck_run hSession session slot hact e herr cs w hr).session?.1
  obtain ⟨ctx, hctx, hs⟩ := id hr
  have hact' : session.activeObjectHandle ≠ CK_INVALID_HANDLE := hact
  unfold activeObject at herr
  refine ⟨⟨?_, ?_, ?_, ?_, ?_, ?_, ?_, ?_, ?_⟩, ⟨?_, ?_, ?_⟩, hrun⟩
  · simp [C_Encrypt, hctx, hs, hact', herr]
  · simp [C_EncryptUpdate, hctx, hs, hact', herr]
  · simp [C_EncryptFinal, hctx, hs, hact', herr]
  · simp [C_Decrypt, hctx, hs, hact', herr]
  · simp [C_DecryptUpdate, hctx, hs, hact', herr]
  · simp [C_DecryptFinal, hctx, hs, hact', herr]
  · simp [C_Sign, hctx, hs, hact', herr]
  · simp [C_SignUpdate, hctx, hs, hact', herr]
  · simp [C_SignFinal, hctx, hs, hact', herr]
  · simp [C_EncryptInit, hctx, hs, hact']
  · simp [C_DecryptInit, hctx, hs, hact']
  · simp [C_SignInit, hctx, hs, hact']

/-- Witness of C31: the example session Active on handle 99, which no object of the
example slot carries. -/
theorem C31_unresolved_object_stuck_witness :
    C_SignFinal (exWorld (exActive 99)) 100 exOut (some 2)
      = (CKR_OBJECT_HANDLE_INVALID, exWorld (exActive 99)) ∧
    C_SignInit (exWorld (exActive 99)) 100 exMechRsa 5
      = (CKR_OPERATION_ACTIVE, exWorld (exActive 99)) ∧
    (run (exWorld (exActive 99))
      [Call.SignFinal 100 exOut (some 2), Call.Decrypt 100 none 0 exOut (some 2),
       Call.EncryptFinal 100 exOut (some 2)]).session? 100 = some (exActive 99) :=
  have h := C31_unresolved_object_stuck (exWorld (exActive 99)) 100 (exActive 99) exSlot
    ⟨exContext (exActive 99), rfl, rfl⟩ (by decide) CKR_OBJECT_HANDLE_INVALID rfl exMechRsa 5
    none 0 exOut (some 2)
  ⟨h.1.2.2.2.2.2.2.2.2, h.2.1.2.2, h.2.2 _⟩

/-- C32, where the claim as stated fails: after C_EncryptInit on key 7, which has no
native SignUpdate, C_SignUpdate("Hello ") returns CKR_OK, not
CKR_FUNCTION_NOT_SUPPORTED, and no capability is invoked for it: the trace holds the
invocation of EncryptInit only. -/
theorem C32_signUpdate_not_rejected :
    codes (exWorld exSession)
      [Call.EncryptInit 100 exMechAes 7, Call.SignUpdate 100 (some exHello) 6]
      = [CKR_OK, CKR_OK] ∧
    exCipherKey.C_SignUpdate.isSome = false ∧
    (run (exWorld exSession)
      [Call.EncryptInit 100 exMechAes 7, Call.SignUpdate 100 (some exHello) 6]).trace =
      [⟨7, Capability.EncryptInit, CapArgs.init exMechAes⟩] := by
  decide

/-- C32 as amended (the session does not record the operation family): after a
C_EncryptInit, C_DecryptInit or C_SignInit that returned CKR_OK on an Idle session, the
session is Active on the key's object, and every Update, Final and single-shot entry
point of any family is dispatched on that object: the capability of the called entry
point is invoked when the object has it, and CKR_FUNCTION_NOT_SUPPORTED is returned when
it is absent, with two exceptions in the Sign family: C_SignFinal falls back to the
native Sign, and C_SignUpdate without native SignUpdate buffers the part.  So the
operation is ended by C_Decrypt with a non-null output and by a C_EncryptFinal or
C_DecryptFinal that returns CKR_OK, whatever Init started it.  Assumed: the object
handles of the slot fit the `int` field activeObjectHandle. -/
theorem C32_dispatch_ignores_family (w : World) (h : CK_SESSION_HANDLE)
    (session : p11Session_t) (slot : p11Slot_t) (hr : w.Resolves h session slot)
    (hidle : session.Idle) (hfit : slot.handlesFit) (hKey : CK_OBJECT_HANDLE)
    (object : p11Object_t) (hk : findSlotObject slot hKey false = .ok object)
    (pMechanism : CK_MECHANISM) (c0 : Call)
    (hc0 : c0 = Call.EncryptInit h pMechanism hKey ∨ c0 = Call.DecryptInit h pMechanism hKey ∨
      c0 = Call.SignInit h pMechanism hKey)
    (hok : (step w c0).1 = CKR_OK) (pIn : CK_BYTE_PTR) (n : CK_ULONG)
    (pOut : CK_BYTE_PTR) (pl : CK_ULONG_PTR) :
    ∃ s1, (step w c0).2.Resolves h s1 slot ∧ s1.Active ∧ activeObject slot s1 = .ok object ∧
    ((object.C_Encrypt = none → (C_Encrypt (step w c0).2 h pIn n pOut pl).1 = CKR_FUNCTION_NOT_SUPPORTED) ∧
     (∀ f, object.C_Encrypt = some f →
       ∃ a, (C_Encrypt (step w c0).2 h pIn n pOut pl).2.trace = (step w c0).2.trace ++ [⟨object.handle, Capability.Encrypt, a⟩])) ∧
    ((object.C_EncryptUpdate = none → (C_EncryptUpdate (step w c0).2 h pIn n pOut pl).1 = CKR_FUNCTION_NOT_SUPPORTED) ∧
     (∀ f, object.C_EncryptUpdate = some f →
       ∃ a, (C_EncryptUpdate (step w c0).2 h pIn n pOut pl).2.trace = (step w c0).2.trace ++ [⟨object.handle, Capability.EncryptUpdate, a⟩])) ∧
    ((object.C_EncryptFinal = none → (C_EncryptFinal (step w c0).2 h pOut pl).1 = CKR_FUNCTION_NOT_SUPPORTED) ∧
     (∀ f, object.C_EncryptFinal = some f →
       ∃ a, (C_EncryptFinal (step w c0).2 h pOut pl).2.trace = (step w c0).2.trace ++ [⟨object.handle, Capability.EncryptFinal, a⟩])) ∧
    ((object.C_Decrypt = none → (C_Decrypt (step w c0).2 h pIn n pOut pl).1 = CKR_FUNCTION_NOT_SUPPORTED) ∧
     (∀ f, object.C_Decrypt = some f →
       ∃ a, (C_Decrypt (step w c0).2 h pIn n pOut pl).2.trace = (step w c0).2.trace ++ [⟨object.handle, Capability.Decrypt, a⟩])) ∧
    ((object.C_DecryptUpdate = none → (C_DecryptUpdate (step w c0).2 h pIn n pOut pl).1 = CKR_FUNCTION_NOT_SUPPORTED) ∧
     (∀ f, object.C_DecryptUpdate = some f →
       ∃ a, (C_DecryptUpdate (step w c0).2 h pIn n pOut pl).2.trace = (step w c0).2.trace ++ [⟨object.handle, Capability.DecryptUpdate, a⟩])) ∧
    ((object.C_DecryptFinal = none → (C_DecryptFinal (step w c0).2 h pOut pl).1 = CKR_FUNCTION_NOT_SUPPORTED) ∧
     (∀ f, object.C_DecryptFinal = some f →
       ∃ a, (C_DecryptFinal (step w c0).2 h pOut pl).2.trace = (step w c0).2.trace ++ [⟨object.handle, Capability.DecryptFinal, a⟩])) ∧
    ((object.C_Sign = none → (C_Sign (step w c0).2 h pIn n pOut pl).1 = CKR_FUNCTION_NOT_SUPPORTED) ∧
     (∀ f, object.C_Sign = some f →
       ∃ a, (C_Sign (step w c0).2 h pIn n pOut pl).2.trace = (step w c0).2.trace ++ [⟨object.handle, Capability.Sign, a⟩])) ∧
    ((object.C_SignFinal = none → object.C_Sign = none →
        (C_SignFinal (step w c0).2 h pOut pl).1 = CKR_FUNCTION_NOT_SUPPORTED) ∧
     (∀ f, object.C_SignFinal = some f →
       ∃ a, (C_SignFinal (step w c0).2 h pOut pl).2.trace =
         (step w c0).2.trace ++ [⟨object.handle, Capability.SignFinal, a⟩]) ∧
     (object.C_SignFinal = none → ∀ g, object.C_Sign = some g →
       ∃ a, (C_SignFinal (step w c0).2 h pOut pl).2.trace =
         (step w c0).2.trace ++ [⟨object.handle, Capability.Sign, a⟩])) ∧
    ((object.C_SignUpdate = none →
        C_SignUpdate (step w c0).2 h pIn n = ((appendToCryptoBuffer (step w c0).2.hostMemory s1 pIn n).1,
          (step w c0).2.store (appendToCryptoBuffer (step w c0).2.hostMemory s1 pIn n).2)) ∧
     (∀ f, object.C_SignUpdate = some f →
       ∃ a, (C_SignUpdate (step w c0).2 h pIn n).2.trace =
         (step w c0).2.trace ++ [⟨object.handle, Capability.SignUpdate, a⟩])) ∧
    ((∀ buf, ∃ s2, (C_Decrypt (step w c0).2 h pIn n (some buf) pl).2.session? h = some s2 ∧ s2.Idle) ∧
     (∀ f, object.C_EncryptFinal = some f → (C_EncryptFinal (step w c0).2 h pOut pl).1 = CKR_OK →
       ∃ s2, (C_EncryptFinal (step w c0).2 h pOut pl).2.session? h = some s2 ∧ s2.Idle) ∧
     (∀ f, object.C_DecryptFinal = some f → (C_DecryptFinal (step w c0).2 h pOut pl).1 = CKR_OK →
       ∃ s2, (C_DecryptFinal (step w c0).2 h pOut pl).2.session? h = some s2 ∧ s2.Idle)) := by
  obtain ⟨s1, hr1, ha1, ho1⟩ := init_ok_state hr hidle hfit hk pMechanism c0 hc0 hok
  exact ⟨s1, hr1, ha1, ho1, dispatch_any_family hr1 ha1 ho1 pIn n pOut pl⟩

/-- Witness of C32 as amended: C_SignInit on key 5 on the fresh example session. -/
theorem C32_dispatch_ignores_family_witness :
    ∃ s1, (step (exWorld exSession) (Call.SignInit 100 exMechRsa 5)).2.Resolves 100 s1 exSlot ∧
      s1.Active ∧ activeObject exSlot s1 = .ok exSignKey ∧
      ∀ buf, ∃ s2, (C_Decrypt (step (exWorld exSession) (Call.SignInit 100 exMechRsa 5)).2 100
        (some exHello) 6 (some buf) (some 2)).2.session? 100 = some s2 ∧ s2.Idle :=
  (C32_dispatch_ignores_family (exWorld exSession) 100 exSession exSlot
    ⟨exContext exSession, rfl, rfl⟩ (by decide) (by decide) 5 exSignKey rfl exMechRsa
    (Call.SignInit 100 exMechRsa 5) (Or.inr (Or.inr rfl)) (by decide) (some exHello) 6 exOut
    (some 2)).imp
    (fun _ h => ⟨h.1, h.2.1, h.2.2.1, h.2.2.2.2.2.2.2.2.2.2.2.2.1⟩)

/-- C33 (the path of SignFinal depends on the SignFinal and Sign capabilities only): on an
Active session whose active object resolves, whatever the crypto buffer holds and
whether or not the object has native SignUpdate: if the object has native SignFinal,
C_SignFinal invokes it with the caller's output arguments, never the crypto buffer, and
with a non-null output the crypto buffer is empty afterwards; if it has no native
SignFinal but native Sign, C_SignFinal invokes Sign over the crypto buffer as it is.  A
native SignUpdate leaves the session, the crypto buffer included, unchanged, so parts
delivered to it are not part of that message. -/
theorem C33_signFinal_path (w : World) (hSession : CK_SESSION_HANDLE)
    (session : p11Session_t) (slot : p11Slot_t) (hr : w.Resolves hSession session slot)
    (hact : session.Active) (object : p11Object_t)
    (hobj : activeObject slot session = .ok object) (pPart : CK_BYTE_PTR)
    (ulPartLen : CK_ULONG) (pSignature : CK_BYTE_PTR) (pulSignatureLen : CK_ULONG_PTR) :
    (∀ f, object.C_SignFinal = some f →
      (C_SignFinal w hSession pSignature pulSignatureLen).1 =
        f w.trace session.activeMechanism pSignature pulSignatureLen ∧
      (C_SignFinal w hSession pSignature pulSignatureLen).2.trace = w.trace ++
        [⟨object.handle, Capability.SignFinal,
          CapArgs.final session.activeMechanism pSignature pulSignatureLen⟩] ∧
      (pSignature.isSome = true →
        ∃ s', (C_SignFinal w hSession pSignature pulSignatureLen).2.session? hSession
            = some s' ∧ s'.cryptoBuffer = [] ∧ s'.cryptoBufferSize = 0)) ∧
    (object.C_SignFinal = none → ∀ g, object.C_Sign = some g →
      (C_SignFinal w hSession pSignature pulSignatureLen).1 =
        g w.trace session.activeMechanism (some session.cryptoBuffer)
          session.cryptoBufferSize pSignature pulSignatureLen ∧
      (C_SignFinal w hSession pSignature pulSignatureLen).2.trace = w.trace ++
        [⟨object.handle, Capability.Sign,
          CapArgs.single session.activeMechanism (some session.cryptoBuffer)
            session.cryptoBufferSize pSignature pulSignatureLen⟩]) ∧
    (∀ u, object.C_SignUpdate = some u →
      (C_SignUpdate w hSession pPart ulPartLen).2.Resolves hSession session slot ∧
      (C_SignUpdate w hSession pPart ulPartLen).2.trace = w.trace ++
        [⟨object.handle, Capability.SignUpdate,
          CapArgs.part session.activeMechanism pPart ulPartLen⟩]) := by
  have hsess := hr.session?
  obtain ⟨ctx, hctx, hs⟩ := id hr
  have hact' : session.activeObjectHandle ≠ CK_INVALID_HANDLE := hact
  have hobj' := hobj
  unfold activeObject at hobj'
  refine ⟨?_, ?_, ?_⟩
  · intro f hf
    refine ⟨?_, ?_, ?_⟩
    · cases pSignature <;> simp [C_SignFinal, hctx, hs, hact', hobj', hf]
    · cases pSignature <;> simp [C_SignFinal, hctx, hs, hact', hobj', hf, World.log]
    · intro hp
      cases pSignature with
      | none => simp at hp
      | some buf =>
        exact ⟨clearCryptoBuffer { session with activeObjectHandle := CK_INVALID_HANDLE },
          by simp [C_SignFinal, hctx, hs, hact', hobj', hf, World.session?_store,
            clearCryptoBuffer, hsess.1, hsess.2], rfl, rfl⟩
  · intro hf g hg
    refine ⟨?_, ?_⟩
    · cases pSignature <;> simp [C_SignFinal, hctx, hs, hact', hobj', hf, hg]
    · cases pSignature <;> simp [C_SignFinal, hctx, hs, hact', hobj', hf, hg, World.log]
  · intro u hu
    have hw : C_SignUpdate w hSession pPart ulPartLen =
        (u w.trace session.activeMechanism pPart ulPartLen,
          w.log ⟨object.handle, Capability.SignUpdate,
            CapArgs.part session.activeMechanism pPart ulPartLen⟩) := by
      simp [C_SignUpdate, hctx, hs, hact', hobj', hu]
    rw [hw]
    exact ⟨hr.log _, rfl⟩

/-- Witness of C33: the example session with "Hello World" buffered for key 5, which has
native Sign and no native SignFinal. -/
theorem C33_signFinal_path_witness :
    (C_SignFinal (exWorld exSigning) 100 exOut (some 2)).1 = 0 ∧
    (C_SignFinal (exWorld exSigning) 100 exOut (some 2)).2.trace = (exWorld exSigning).trace ++
      [⟨exSignKey.handle, Capability.Sign,
        CapArgs.single exSigning.activeMechanism (some exSigning.cryptoBuffer)
          exSigning.cryptoBufferSize exOut (some 2)⟩] :=
  (C33_signFinal_path (exWorld exSigning) 100 exSigning exSlot
    ⟨exContext exSigning, rfl, rfl⟩ (by decide) exSignKey rfl (some exHello) 6 exOut
    (some 2)).2.1 rfl _ rfl

/-- C34 (C_EncryptInit does not write activeMechanism): for every session found for a
handle, after C_EncryptInit on any session, with any mechanism and key, activeMechanism
is what it was; after any call of an entry point activeMechanism is what it was unless
the call was a C_DecryptInit or C_SignInit on this session that returned CKR_OK, which
sets it to the mechanism given; and after a successful C_EncryptInit the mechanism
passed to the object's Encrypt, EncryptUpdate and EncryptFinal is the session's
activeMechanism from before the C_EncryptInit, whatever mechanism C_EncryptInit was
given. -/
theorem C34_encryptInit_mechanism_frame (w : World) (hSession : CK_SESSION_HANDLE)
    (session : p11Session_t) (hs : w.session? hSession = some session) :
    (∀ h' m k, ∃ s', (C_EncryptInit w h' m k).2.session? hSession = some s' ∧
      s'.activeMechanism = session.activeMechanism) ∧
    (∀ c : Call, ∃ s', (step w c).2.session? hSession = some s' ∧
      (s'.activeMechanism = session.activeMechanism ∨
        ∃ m k, (c = Call.DecryptInit hSession m k ∨ c = Call.SignInit hSession m k) ∧
          (step w c).1 = CKR_OK ∧ s'.activeMechanism = m.mechanism)) ∧
    (∀ (slot : p11Slot_t) (object : p11Object_t) (m : CK_MECHANISM) (k : CK_OBJECT_HANDLE)
        (fi : InitFn), w.Resolves hSession session slot → session.Idle → slot.handlesFit →
      findSlotObject slot k false = .ok object → object.C_EncryptInit = some fi →
      fi w.trace m = 0 →
      ∀ (pIn : CK_BYTE_PTR) (n : CK_ULONG) (pOut : CK_BYTE_PTR) (pl : CK_ULONG_PTR),
        (∀ f, object.C_Encrypt = some f →
          (C_Encrypt (C_EncryptInit w hSession m k).2 hSession pIn n pOut pl).2.trace =
            (C_EncryptInit w hSession m k).2.trace ++
              [⟨object.handle, Capability.Encrypt,
                CapArgs.single session.activeMechanism pIn n pOut pl⟩]) ∧
        (∀ f, object.C_EncryptUpdate = some f →
          (C_EncryptUpdate (C_EncryptInit w hSession m k).2 hSession pIn n pOut pl).2.trace =
            (C_EncryptInit w hSession m k).2.trace ++
              [⟨object.handle, Capability.EncryptUpdate,
                CapArgs.single session.activeMechanism pIn n pOut pl⟩]) ∧
        (∀ f, object.C_EncryptFinal = some f →
          (C_EncryptFinal (C_EncryptInit w hSession m k).2 hSession pOut pl).2.trace =
            (C_EncryptInit w hSession m k).2.trace ++
              [⟨object.handle, Capability.EncryptFinal,
                CapArgs.final session.activeMechanism pOut pl⟩])) := by
  refine ⟨fun h' m k => C_EncryptInit_mech w hSession session hs h' m k,
    fun c => step_mechanism w hSession session c hs, ?_⟩
  intro slot object m k fi hr hidle hfit hk hfi hrv pIn n pOut pl
  have heq := C_EncryptInit_ok hr hidle hk hfi hrv
  have hao := activeObject_of_fits (fits_of_handlesFit hfit hk) hk
    { session with activeObjectHandle := intOfHandle object.handle } rfl
  have hr1 := (hr.log ⟨object.handle, Capability.EncryptInit, CapArgs.init m⟩).store
    { session with activeObjectHandle := intOfHandle object.handle } rfl rfl
  rw [heq]
  exact encrypt_calls_trace hr1 hao.2 hao.1 pIn n pOut pl

/-- Witness of C34: C_EncryptInit with CKM_AES_ECB on key 7 on the fresh example session,
whose activeMechanism is 0. -/
theorem C34_encryptInit_mechanism_frame_witness :
    ∃ s', (C_EncryptInit (exWorld exSession) 100 exMechAes 7).2.session? 100 = some s' ∧
      s'.activeMechanism = exSession.activeMechanism :=
  (C34_encryptInit_mechanism_frame (exWorld exSession) 100 exSession rfl).1 100 exMechAes 7

/-- C35 (the length query of SignFinal is repeatable): on an Active session whose active
object resolves, after C_SignFinal with a null pSignature the handle resolves to the
same session (activeObjectHandle, activeMechanism, crypto buffer and length unchanged);
the query and a following C_SignFinal with a non-null buffer invoke the same capability
with the same mechanism and, on the emulated path, the same message and length. -/
theorem C35_signFinal_query_repeatable (w : World) (hSession : CK_SESSION_HANDLE)
    (session : p11Session_t) (slot : p11Slot_t) (hr : w.Resolves hSession session slot)
    (hact : session.Active) (object : p11Object_t)
    (hobj : activeObject slot session = .ok object) (pl1 pl2 : CK_ULONG_PTR)
    (sig : List CK_BYTE) :
    (C_SignFinal w hSession none pl1).2.Resolves hSession session slot ∧
    (∀ f, object.C_SignFinal = some f →
      (C_SignFinal w hSession none pl1).2.trace = w.trace ++
        [⟨object.handle, Capability.SignFinal,
          CapArgs.final session.activeMechanism none pl1⟩] ∧
      (C_SignFinal (C_SignFinal w hSession none pl1).2 hSession (some sig) pl2).2.trace =
        (C_SignFinal w hSession none pl1).2.trace ++
          [⟨object.handle, Capability.SignFinal,
            CapArgs.final session.activeMechanism (some sig) pl2⟩]) ∧
    (object.C_SignFinal = none → ∀ g, object.C_Sign = some g →
      (C_SignFinal w hSession none pl1).2.trace = w.trace ++
        [⟨object.handle, Capability.Sign,
          CapArgs.single session.activeMechanism (some session.cryptoBuffer)
            session.cryptoBufferSize none pl1⟩] ∧
      (C_SignFinal (C_SignFinal w hSession none pl1).2 hSession (some sig) pl2).2.trace =
        (C_SignFinal w hSession none pl1).2.trace ++
          [⟨object.handle, Capability.Sign,
            CapArgs.single session.activeMechanism (some session.cryptoBuffer)
              session.cryptoBufferSize (some sig) pl2⟩]) := by
  have hsess := hr.session?
  have hself := hr.store_self
  obtain ⟨ctx, hctx, hs⟩ := id hr
  have hact' : session.activeObjectHandle ≠ CK_INVALID_HANDLE := hact
  have hobj' := hobj
  unfold activeObject at hobj'
  have key : ∀ w1 : World, w1.Resolves hSession session slot →
      (∀ f, object.C_SignFinal = some f →
        (C_SignFinal w1 hSession (some sig) pl2).2.trace = w1.trace ++
          [⟨object.handle, Capability.SignFinal,
            CapArgs.final session.activeMechanism (some sig) pl2⟩]) ∧
      (object.C_SignFinal = none → ∀ g, object.C_Sign = some g →
        (C_SignFinal w1 hSession (some sig) pl2).2.trace = w1.trace ++
          [⟨object.handle, Capability.Sign,
            CapArgs.single session.activeMechanism (some session.cryptoBuffer)
              session.cryptoBufferSize (some sig) pl2⟩]) := by
    intro w1 hr1
    obtain ⟨ctx1, hctx1, hs1⟩ := id hr1
    refine ⟨?_, ?_⟩
    · intro f hf; simp [C_SignFinal, hctx1, hs1, hact', hobj', hf, World.log]
    · intro hf g hg; simp [C_SignFinal, hctx1, hs1, hact', hobj', hf, hg, World.log]
  have hres : (C_SignFinal w hSession none pl1).2.Resolves hSession session slot := by
    cases hf : object.C_SignFinal with
    | some f =>
      have : (C_SignFinal w hSession none pl1).2 = w.log ⟨object.handle, Capability.SignFinal,
          CapArgs.final session.activeMechanism none pl1⟩ := by
        simp [C_SignFinal, hctx, hs, hact', hobj', hf, hself]
      rw [this]; exact hr.log _
    | none =>
      cases hg : object.C_Sign with
      | some g =>
        have : (C_SignFinal w hSession none pl1).2 = w.log ⟨object.handle, Capability.Sign,
            CapArgs.single session.activeMechanism (some session.cryptoBuffer)
              session.cryptoBufferSize none pl1⟩ := by
          simp [C_SignFinal, hctx, hs, hact', hobj', hf, hg, hself]
        rw [this]; exact hr.log _
      | none =>
        have : (C_SignFinal w hSession none pl1).2 = w := by
          simp [C_SignFinal, hctx, hs, hact', hobj', hf, hg, hself]
        rw [this]; exact hr
  refine ⟨hres, ?_, ?_⟩
  · intro f hf
    exact ⟨by simp [C_SignFinal, hctx, hs, hact', hobj', hf, World.log], (key _ hres).1 f hf⟩
  · intro hf g hg
    exact ⟨by simp [C_SignFinal, hctx, hs, hact', hobj', hf, hg, World.log],
      (key _ hres).2 hf g hg⟩

/-- Witness of C35: the example session with "Hello World" buffered for key 5. -/
theorem C35_signFinal_query_repeatable_witness :
    (C_SignFinal (exWorld exSigning) 100 none (some 0)).2.Resolves 100 exSigning exSlot :=
  (C35_signFinal_query_repeatable (exWorld exSigning) 100 exSigning exSlot
    ⟨exContext exSigning, rfl, rfl⟩ (by decide) exSignKey rfl (some 0) (some 2) [0, 0]).1

/-- C36 (the active handle is stored in a C `int`): the value stored for a key handle is
`intOfHandle hKey`, a signed 32-bit value; for a handle from 1 to 2^31 - 1 it equals the
handle and converts back to it.  After a successful C_EncryptInit, C_DecryptInit or
C_SignInit on an Idle session, activeObjectHandle is that value, the session is Idle
exactly when the value is CK_INVALID_HANDLE, and for a handle from 1 to 2^31 - 1 the
session is Active and the lookup of the active object finds the key's object. -/
theorem C36_handle_stored_in_int (w : World) (hSession : CK_SESSION_HANDLE)
    (session : p11Session_t) (slot : p11Slot_t) (hr : w.Resolves hSession session slot)
    (hidle : session.Idle) (hKey : CK_OBJECT_HANDLE) (object : p11Object_t)
    (hk : findSlotObject slot hKey false = .ok object) (pMechanism : CK_MECHANISM) :
    (-(2 : Int) ^ 31 ≤ intOfHandle hKey ∧ intOfHandle hKey < 2 ^ 31) ∧
    (fitsActiveHandle hKey → intOfHandle hKey = (hKey : Int) ∧
      handleOfInt (intOfHandle hKey) = hKey) ∧
    (∀ f, object.C_EncryptInit = some f → f w.trace pMechanism = 0 →
      ∃ s', (C_EncryptInit w hSession pMechanism hKey).2.Resolves hSession s' slot ∧
        s'.activeObjectHandle = intOfHandle hKey ∧
        (s'.Idle ↔ intOfHandle hKey = CK_INVALID_HANDLE) ∧
        (fitsActiveHandle hKey → s'.Active ∧ activeObject slot s' = .ok object)) ∧
    (∀ f, object.C_DecryptInit = some f → f w.trace pMechanism = 0 →
      ∃ s', (C_DecryptInit w hSession pMechanism hKey).2.Resolves hSession s' slot ∧
        s'.activeObjectHandle = intOfHandle hKey ∧
        (s'.Idle ↔ intOfHandle hKey = CK_INVALID_HANDLE) ∧
        (fitsActiveHandle hKey → s'.Active ∧ activeObject slot s' = .ok object)) ∧
    (∀ f, object.C_SignInit = some f → f w.trace pMechanism = 0 →
      ∃ s', (C_SignInit w hSession pMechanism hKey).2.Resolves hSession s' slot ∧
        s'.activeObjectHandle = intOfHandle hKey ∧
        (s'.Idle ↔ intOfHandle hKey = CK_INVALID_HANDLE) ∧
        (fitsActiveHandle hKey → s'.Active ∧ activeObject slot s' = .ok object)) := by
  have hh := findSlotObject_handle hk
  refine ⟨?_, ?_, ?_, ?_, ?_⟩
  · unfold intOfHandle
    have : (hKey + 2 ^ 31) % 2 ^ 32 < 2 ^ 32 := Nat.mod_lt _ (by norm_num)
    constructor <;> omega
  · intro hfit
    have := fitsActiveHandle_spec hfit
    exact ⟨this.1, by rw [this.1]; exact this.2.1⟩
  · intro f hf hrv
    have heq := C_EncryptInit_ok hr hidle hk hf hrv
    rw [heq]
    refine ⟨{ session with activeObjectHandle := intOfHandle object.handle },
      (hr.log _).store _ rfl rfl, by rw [hh], by rw [hh]; rfl, ?_⟩
    intro hfit
    have := activeObject_of_fits hfit hk
      { session with activeObjectHandle := intOfHandle object.handle } rfl
    exact ⟨this.2, this.1⟩
  · intro f hf hrv
    have heq := C_DecryptInit_ok hr hidle hk hf hrv
    rw [heq]
    refine ⟨{ session with activeObjectHandle := intOfHandle object.handle
                           activeMechanism := pMechanism.mechanism },
      (hr.log _).store _ rfl rfl, by rw [hh], by rw [hh]; rfl, ?_⟩
    intro hfit
    have := activeObject_of_fits hfit hk
      { session with activeObjectHandle := intOfHandle object.handle
                     activeMechanism := pMechanism.mechanism } rfl
    exact ⟨this.2, this.1⟩
  · intro f hf hrv
    have heq := C_SignInit_ok hr hidle hk hf hrv
    rw [heq]
    refine ⟨{ session with activeObjectHandle := intOfHandle object.handle
                           activeMechanism := pMechanism.mechanism },
      (hr.log _).store _ rfl rfl, by rw [hh], by rw [hh]; rfl, ?_⟩
    intro hfit
    have := activeObject_of_fits hfit hk
      { session with activeObjectHandle := intOfHandle object.handle
                     activeMechanism := pMechanism.mechanism } rfl
    exact ⟨this.2, this.1⟩

/-- Witness of C36: C_SignInit on key 5 on the fresh example session. -/
theorem C36_handle_stored_in_int_witness :
    (-(2 : Int) ^ 31 ≤ intOfHandle 5 ∧ intOfHandle 5 < 2 ^ 31) ∧
    (intOfHandle 5 = ((5 : CK_OBJECT_HANDLE) : Int) ∧ handleOfInt (intOfHandle 5) = 5) :=
  have h := C36_handle_stored_in_int (exWorld exSession) 100 exSession exSlot
    ⟨exContext exSession, rfl, rfl⟩ (by decide) 5 exSignKey rfl exMechRsa
  ⟨h.1, h.2.1 (by decide)⟩

/-- C37 (failing input): with a module whose second C_FindObjects call fails with
CKR_DEVICE_ERROR, leaving the handle and the count as they were, `findObjectAtOffset`
with offset 1 returns CKR_OK and delivers the handle 11 of the object at offset 0; with
a module whose first C_FindObjects call fails in that way, offset 0 returns CKR_OK and
delivers the value of the uninitialized local `hnd`.  For comparison, a module with the
objects 11, 12, 13 whose calls succeed: offset 1 delivers 12, offset 3 fails with
CKR_FUNCTION_FAILED and CK_INVALID_HANDLE. -/
theorem C37_failed_search_reported_found :
    (exFlakyFinder.C_FindObjects 1 100 11 1).1 = CKR_DEVICE_ERROR ∧
    findObjectAtOffset exFlakyFinder 0 100 () 2 1 4242 0 = (CKR_OK, 11, 2) ∧
    (exFailingFinder.C_FindObjects () 100 4242 1).1 = CKR_DEVICE_ERROR ∧
    findObjectAtOffset exFailingFinder () 100 () 2 0 4242 0 = (CKR_OK, 4242, ()) ∧
    findObjectAtOffset exFinder [11, 12, 13] 100 () 2 1 4242 0 = (CKR_OK, 12, [13]) ∧
    findObjectAtOffset exFinder [11, 12, 13] 100 () 2 3 4242 0 = (CKR_FUNCTION_FAILED, 0, []) := by
  decide

/-- C38, where the claim as stated fails: for data of 2147483645 bytes (INT_MAX - 2, each
the printable byte 65) and an output array of one byte, the `int` sum `datalen + 3`
leaves the range of an `int`; the wrapped sum is negative, the test before the quoted
copy succeeds, and the copy is stored outside the array. -/
theorem C38_bin2str_length_overflow :
    (List.replicate 2147483645 65).length = 2147483645 ∧
    bin2str [0] 1 (List.replicate 2147483645 65) 2147483645 = none := by
  refine ⟨List.length_replicate _ _, ?_⟩
  have h := bin2str_length_overflow (List.replicate 2147483645 65)
    (by rw [List.length_replicate]; norm_num) (by rw [List.length_replicate]; norm_num)
  rw [List.length_replicate] at h
  exact h

/-- C38 as amended (bin2str stays inside its output buffer while `datalen + 3` is an
`int`): for an output array of `stlen` bytes, `stlen` at least 1, and data of `datalen`
bytes with `datalen` at most INT_MAX - 3, `bin2str` stores no byte outside the array
and the array holds a NUL afterwards.  When `stlen > 2 * datalen` the array begins with
the upper-case hexadecimal encoding of the data, followed by a blank, the data in
double quotes and the NUL if every byte is printable or zero and
`stlen - 2 * datalen > datalen + 3`, and followed directly by the NUL otherwise. -/
theorem C38_bin2str_in_bounds (st data : List Nat) (hst : 1 ≤ st.length)
    (hstmax : st.length < 2 ^ 31) (hdata : data.length + 3 < 2 ^ 31)
    (hbytes : ∀ b ∈ data, b < 256) :
    ∃ out, bin2str st st.length data data.length = some out ∧ out.length = st.length ∧
      0 ∈ out ∧
      (2 * data.length < st.length →
        (((∀ b ∈ data, isprint b = true ∨ b = 0) ∧
            data.length + 3 < st.length - 2 * data.length) →
          out.take (3 * data.length + 4) = hexEncode data ++ [32, 34] ++ data ++ [34, 0]) ∧
        (¬ ((∀ b ∈ data, isprint b = true ∨ b = 0) ∧
            data.length + 3 < st.length - 2 * data.length) →
          out.take (2 * data.length + 1) = hexEncode data ++ [0])) := by
  obtain ⟨k, buf', hk, h2k, hloop, hl', ht', hend, hpos⟩ :=
    bin2strLoop_spec data data.length 0 st.length true st 0 (by omega) (by simp) (by simp)
  have hw : wrapInt32 ((data.length : Int) + 3) = (data.length : Int) + 3 :=
    wrapInt32_small _ (by omega) (by omega)
  simp only [List.drop_zero, Nat.zero_add, List.take_zero, List.nil_append, Bool.true_and]
    at hloop ht'
  have hnn : ¬ ((st.length : Int) < 0) := by omega
  have hpos1 := hpos hst
  have hall : ∀ l : List Nat, (l.all (fun b => isprint b || b == 0) = true) ↔
      ∀ b ∈ l, isprint b = true ∨ b = 0 := by
    intro l; simp
  by_cases hcond : ((data.take k).all (fun b => isprint b || b == 0) = true) ∧
      ((st.length - 2 * k : Nat) : Int) > (data.length : Int) + 3
  · have hgt : data.length + 3 < st.length - 2 * k := by omega
    have hkr : k = data.length := by
      rcases hend with h | h
      · exact h
      · omega
    subst hkr
    have hfull : List.take data.length data = data := List.take_length data
    obtain ⟨b2, hp2, hl2, ht2⟩ := poke_spec buf' (2 * data.length)
      ([32, 34] ++ data ++ [34]) (by simp; omega)
    obtain ⟨out, hp3, hl3, ht3⟩ := poke_spec b2 (2 * data.length + data.length + 3) [0]
      (by simp; omega)
    have hout : bin2str st st.length data data.length = some out := by
      unfold bin2str
      simp only [Int.toNat_ofNat, hloop, hnn, if_false, hw, hcond, and_self, if_true]
      have hno : ¬ ((data.length : Int) < 0 ∨ data.length < data.length) := by omega
      simp only [hno, if_false, hfull, hp2, hp3]
    have htake : out.take (3 * data.length + 4) =
        hexEncode data ++ [32, 34] ++ data ++ [34, 0] := by
      have e : 3 * data.length + 4 = 2 * data.length + data.length + 3 + 1 := by omega
      have e3 : 2 * data.length + data.length + 3 = 2 * data.length + (data.length + 3) := by
        omega
      rw [e, ht3 1 (by simp), e3, ht2 (data.length + 3) (by simp),
        ht', hfull, hexEncode_eq data hbytes]
      have e4 : ([32, 34] ++ data ++ [34]).take (data.length + 3) = [32, 34] ++ data ++ [34] := by
        apply List.take_of_length_le; simp
      rw [e4]
      simp
    refine ⟨out, hout, by rw [hl3, hl2, hl'], ?_, ?_⟩
    · have h0 : (0 : Nat) ∈ out.take (2 * data.length + data.length + 3 + 1) := by
        rw [ht3 1 (by simp)]; simp
      exact List.mem_of_mem_take h0
    · intro _
      refine ⟨fun _ => htake, ?_⟩
      intro hneg
      exfalso
      apply hneg
      refine ⟨?_, hgt⟩
      have := hcond.1
      rw [hfull] at this
      exact (hall data).1 this
  · obtain ⟨out, hp3, hl3, ht3⟩ := poke_spec buf' (2 * k) [0] (by simp; omega)
    have hout : bin2str st st.length data data.length = some out := by
      unfold bin2str
      simp only [Int.toNat_ofNat, hloop, hnn, if_false, hw]
      rw [if_neg hcond]
      exact hp3
    refine ⟨out, hout, by rw [hl3, hl'], ?_, ?_⟩
    · have h0 : (0 : Nat) ∈ out.take (2 * k + 1) := by
        rw [ht3 1 (by simp)]; simp
      exact List.mem_of_mem_take h0
    · intro hlen
      have hkr : k = data.length := by
        rcases hend with h | h
        · exact h
        · omega
      subst hkr
      have hfull : List.take data.length data = data := List.take_length data
      refine ⟨?_, ?_⟩
      · intro hyes
        exfalso
        apply hcond
        rw [hfull]
        refine ⟨(hall data).2 hyes.1, ?_⟩
        have := hyes.2
        omega
      · intro _
        rw [ht3 1 (by simp), ht', hfull, hexEncode_eq data hbytes]
        simp

/-- Witness of C38 as amended: the three bytes "ABz" and an array of 16 bytes. -/
theorem C38_bin2str_in_bounds_witness :
    ∃ out, bin2str (List.replicate 16 255) (16 : Nat) [0x41, 0x42, 0x7A] (3 : Nat) = some out ∧
      out.length = 16 ∧ 0 ∈ out ∧
      (2 * 3 < 16 →
        (((∀ b ∈ [0x41, 0x42, 0x7A], isprint b = true ∨ b = 0) ∧ 3 + 3 < 16 - 2 * 3) →
          out.take (3 * 3 + 4) = hexEncode [0x41, 0x42, 0x7A] ++ [32, 34] ++ [0x41, 0x42, 0x7A]
            ++ [34, 0]) ∧
        (¬ ((∀ b ∈ [0x41, 0x42, 0x7A], isprint b = true ∨ b = 0) ∧ 3 + 3 < 16 - 2 * 3) →
          out.take (2 * 3 + 1) = hexEncode [0x41, 0x42, 0x7A] ++ [0])) :=
  C38_bin2str_in_bounds (List.replicate 16 255) [0x41, 0x42, 0x7A] (by decide) (by decide)
    (by decide) (by decide)

/-- C39 (failing input): for an argument vector of `argc` strings `decodeArgs` never
reports a missing argument, whatever the vector is.  With `--pin` as the last argument
it passes the NULL that terminates `argv` to `strlen`; with `--module` as the last
argument it stores that NULL as module name and goes on to read `argv` behind it.  For
comparison, `--max-parallel-threads` as the last argument ends in `usage()`; and a
value that follows `--pin` or `--module` is taken as the value, not parsed as an
option. -/
theorem C39_missing_value_undetected (atoi : String → Int) (argv : List String)
    (g : TestOptions) (msg : String) :
    decodeArgs atoi argv.length argv g ≠ .exit1 msg ∧
    decodeArgs atoi 2 ["sc-hsm-pkcs11-test", "--pin"] g = .undefinedBehaviour ∧
    decodeArgs atoi 2 ["sc-hsm-pkcs11-test", "--module"] g = .undefinedBehaviour ∧
    decodeArgs atoi 2 ["sc-hsm-pkcs11-test", "--max-parallel-threads"] g = .usage none ∧
    decodeArgs atoi 3 ["sc-hsm-pkcs11-test", "--pin", "--module"] g =
      .returned { g with pin := some "--module", pinlen := 8 } ∧
    decodeArgs atoi 3 ["sc-hsm-pkcs11-test", "--module", "--pin"] g =
      .returned { g with p11libname := some "--pin" } := by
  refine ⟨?_, rfl, rfl, rfl, rfl, rfl⟩
  unfold decodeArgs
  cases argv with
  | nil =>
    rw [decodeArgsLoop]
    simp
  | cons a rest =>
    have : (((a :: rest).length : Nat) : Int) - 1 = (rest.length : Int) := by
      simp
    rw [this]
    exact decodeArgsLoop_no_message atoi rest.length rest (le_refl _) g msg

end P11
